import Mathlib

/-!
# PaasAIModule: streaming chat request and conversation session

A shallow embedding of `UDeepSeekFunction` (AIFunction.cpp) and `USimpleChat`
(SimpleChat.cpp).  Member functions become pure functions that take the object
state and return the new state together with the list of delegate broadcasts
they performed, in order.

Engine library calls are modelled as follows.

* `FString` is a list of characters.  `operator==` and `StartsWith` use the
  engine default `ESearchCase::IgnoreCase` (ASCII case folding);
  `ParseIntoArrayLines` uses its default `bCullEmpty = true`.
* The JSON library (`FJsonSerializer`, `FJsonObject`, `FJsonValue`) is a
  parameter `JsonLib`; every theorem holds for every such library.  `RefJson`
  is one concrete library, used to run the code on concrete inputs.
* `UE_LOG` writes to the console only and is left out; `LogDebug` keeps its
  `OnDebugMessage` broadcast.
* Objects live in an `FWorld`: the session state and the list of all request
  objects created so far, a request pointer being an index into that list.  A
  request delegate holds the session handlers bound to it; `FWorld.Broadcast`
  calls them at the time of the broadcast, so a handler sees the request as it
  is at that moment.
* `float` values are rationals: the code only compares and selects them.
-/

namespace PaasAI

/-! ## FString -/

/-- Engine string: a sequence of characters. -/
abbrev FString := List Char

/-- The `TEXT("...")` literal. -/
def TEXT (s : String) : FString := s.toList

/-- `FChar::IsWhitespace`: space, tab, line feed, vertical tab, form feed, carriage return. -/
def FChar.IsWhitespace (c : Char) : Bool :=
  c == ' ' || (9 ≤ c.toNat && c.toNat ≤ 13)

/-- `FChar::IsLinebreak` restricted to the delimiters of `ParseIntoArrayLines`:
carriage return and line feed. -/
def FChar.IsLineEnding (c : Char) : Bool :=
  c == '\n' || c == '\r'

/-- `FString::IsEmpty`. -/
def FString.IsEmpty (s : FString) : Bool := s.isEmpty

/-- `FString::Len`. -/
def FString.Len (s : FString) : Nat := s.length

/-- `FString::TrimStart`. -/
def FString.TrimStart (s : FString) : FString := s.dropWhile FChar.IsWhitespace

/-- `FString::TrimEnd`. -/
def FString.TrimEnd (s : FString) : FString :=
  (s.reverse.dropWhile FChar.IsWhitespace).reverse

/-- `FString::TrimStartAndEnd`: trims the end, then the start. -/
def FString.TrimStartAndEnd (s : FString) : FString :=
  FString.TrimStart (FString.TrimEnd s)

/-- `FString::operator==`, which compares ignoring ASCII case. -/
def FString.Equals (a b : FString) : Bool :=
  a.map Char.toLower == b.map Char.toLower

/-- `FString::StartsWith` with its default `ESearchCase::IgnoreCase`; an empty
pattern never matches. -/
def FString.StartsWith (s pat : FString) : Bool :=
  !pat.isEmpty && (pat.map Char.toLower).isPrefixOf (s.map Char.toLower)

/-- `FString::RightChop(Count)`: drops the first `Count` characters. -/
def FString.RightChop (s : FString) (Count : Nat) : FString := s.drop Count

/-- Worker of `ParseIntoArrayLines`: `cur` is the line being read. -/
def FString.ParseIntoArrayLinesFrom : FString → FString → List FString
  | cur, [] => if cur.isEmpty then [] else [cur]
  | cur, c :: cs =>
    if FChar.IsLineEnding c then
      if cur.isEmpty then FString.ParseIntoArrayLinesFrom [] cs
      else cur :: FString.ParseIntoArrayLinesFrom [] cs
    else FString.ParseIntoArrayLinesFrom (cur ++ [c]) cs

/-- `FString::ParseIntoArrayLines` with the default `bCullEmpty = true`: splits at
`\r\n`, `\r` and `\n` and drops empty lines. -/
def FString.ParseIntoArrayLines (s : FString) : List FString :=
  FString.ParseIntoArrayLinesFrom [] s

/-- The `%d` conversion of `FString::Printf`. -/
def FString.FromInt (n : Int) : FString := (toString n).toList

/-! ## Messages, parameters, transport -/

/-- A single chat message (`FDeepSeekMessage`). -/
structure FDeepSeekMessage where
  Role : FString
  Content : FString
deriving DecidableEq, Repr

/-- Request parameters (`FDeepSeekRequestParams`). -/
structure FDeepSeekRequestParams where
  URL : FString
  APIKey : FString
  Model : FString
  Messages : List FDeepSeekMessage
  bStream : Bool
  Temperature : ℚ
  MaxTokens : Int
  bDebugMode : Bool
deriving DecidableEq

/-- The default-constructed `FDeepSeekRequestParams`. -/
def FDeepSeekRequestParams.Default : FDeepSeekRequestParams where
  URL := TEXT "https://api.deepseek.com/v1/chat/completions"
  APIKey := []
  Model := TEXT "deepseek-chat"
  Messages := []
  bStream := true
  Temperature := 7 / 10
  MaxTokens := 2048
  bDebugMode := false

/-- `FMath::Clamp`. -/
def FMath.Clamp (X Min Max : ℚ) : ℚ :=
  if X < Min then Min else if X < Max then X else Max

/-- `FMath::Max`. -/
def FMath.Max (A B : Int) : Int := if B < A then A else B

/-- The JSON object built by `ExecuteRequest` before serialization. -/
structure FRequestJson where
  model : FString
  messages : List (FString × FString)
  stream : Bool
  temperature : ℚ
  max_tokens : Int
deriving DecidableEq

/-- The transport request (`IHttpRequest`) as configured by `ExecuteRequest`. -/
structure IHttpRequest where
  URL : FString
  Verb : FString
  Headers : List (FString × FString)
  Content : FString
  bStreamDelegateBound : Bool
  bCompleteDelegateBound : Bool
  bProcessRequestCalled : Bool
deriving DecidableEq

/-- The transport response (`IHttpResponse`). -/
structure FHttpResponse where
  ResponseCode : Int
  Content : FString
deriving DecidableEq

/-! ## JSON library interface -/

/-- The engine JSON library as used by the module.  `Deserialize` is
`FJsonSerializer::Deserialize` into a `TSharedPtr<FJsonObject>` (it succeeds only
with a valid root object); the accessors are those of `FJsonObject` and
`FJsonValue`; `Serialize` writes the request body. -/
structure JsonLib where
  /-- `FJsonObject`. -/
  Object : Type
  /-- `FJsonValue`. -/
  Value : Type
  Deserialize : FString → Option Object
  HasField : Object → FString → Bool
  TryGetArrayField : Object → FString → Option (List Value)
  TryGetObjectField : Object → FString → Option Object
  TryGetStringField : Object → FString → Option FString
  AsObject : Value → Object
  Serialize : FRequestJson → FString

/-! ## A reference JSON library -/

/-- JSON values of the reference library. -/
inductive Json where
  | null
  | bool (b : Bool)
  | number (text : FString)
  | string (s : FString)
  | array (xs : List Json)
  | object (fields : List (FString × Json))

/-- The double quote character. -/
def RefJson.quote : Char := Char.ofNat 34

/-- The backslash character. -/
def RefJson.backslash : Char := Char.ofNat 92

/-- Skips JSON insignificant whitespace. -/
def RefJson.skipWs (cs : List Char) : List Char := cs.dropWhile FChar.IsWhitespace

/-- Reads a string body up to the closing quote; `acc` is the text read so far. -/
def RefJson.parseString : List Char → FString → Option (FString × List Char)
  | [], _ => none
  | [c], acc => if c = RefJson.quote then some (acc, []) else none
  | c :: d :: rest, acc =>
    if c = RefJson.quote then some (acc, d :: rest)
    else if c = RefJson.backslash then
      if d = 'n' then RefJson.parseString rest (acc ++ ['\n'])
      else if d = 't' then RefJson.parseString rest (acc ++ ['\t'])
      else if d = 'r' then RefJson.parseString rest (acc ++ ['\r'])
      else if d = RefJson.quote ∨ d = RefJson.backslash ∨ d = '/' then
        RefJson.parseString rest (acc ++ [d])
      else none
    else RefJson.parseString (d :: rest) (acc ++ [c])

/-- Reads the elements of an array after its opening bracket, given a value reader. -/
def RefJson.parseElements (pv : List Char → Option (Json × List Char)) :
    Nat → List Char → Option (List Json × List Char)
  | 0, _ => none
  | n + 1, cs =>
    match pv cs with
    | none => none
    | some (v, rest) =>
      match RefJson.skipWs rest with
      | c :: rest2 =>
        if c = ',' then
          match RefJson.parseElements pv n rest2 with
          | some (vs, r) => some (v :: vs, r)
          | none => none
        else if c = ']' then some ([v], rest2)
        else none
      | [] => none

/-- Reads the members of an object after its opening brace, given a value reader. -/
def RefJson.parseMembers (pv : List Char → Option (Json × List Char)) :
    Nat → List Char → Option (List (FString × Json) × List Char)
  | 0, _ => none
  | n + 1, cs =>
    match RefJson.skipWs cs with
    | [] => none
    | q :: rest =>
      if q = RefJson.quote then
        match RefJson.parseString rest [] with
        | none => none
        | some (key, rest1) =>
          match RefJson.skipWs rest1 with
          | [] => none
          | colon :: rest2 =>
            if colon = ':' then
              match pv rest2 with
              | none => none
              | some (v, rest3) =>
                match RefJson.skipWs rest3 with
                | [] => none
                | c :: rest4 =>
                  if c = ',' then
                    match RefJson.parseMembers pv n rest4 with
                    | some (kvs, r) => some ((key, v) :: kvs, r)
                    | none => none
                  else if c = '}' then some ([(key, v)], rest4)
                  else none
            else none
      else none

/-- Reads one JSON value; `fuel` bounds the nesting and the number of siblings. -/
def RefJson.parseValue : Nat → List Char → Option (Json × List Char)
  | 0, _ => none
  | n + 1, cs =>
    match RefJson.skipWs cs with
    | [] => none
    | c :: rest =>
      if c = RefJson.quote then
        match RefJson.parseString rest [] with
        | some (s, r) => some (Json.string s, r)
        | none => none
      else if c = '[' then
        match RefJson.skipWs rest with
        | [] => none
        | d :: rest1 =>
          if d = ']' then some (Json.array [], rest1)
          else
            match RefJson.parseElements (RefJson.parseValue n) n (d :: rest1) with
            | some (vs, r) => some (Json.array vs, r)
            | none => none
      else if c = '{' then
        match RefJson.skipWs rest with
        | [] => none
        | d :: rest1 =>
          if d = '}' then some (Json.object [], rest1)
          else
            match RefJson.parseMembers (RefJson.parseValue n) n (d :: rest1) with
            | some (kvs, r) => some (Json.object kvs, r)
            | none => none
      else if (TEXT "null").isPrefixOf (c :: rest) then some (Json.null, rest.drop 3)
      else if (TEXT "true").isPrefixOf (c :: rest) then some (Json.bool true, rest.drop 3)
      else if (TEXT "false").isPrefixOf (c :: rest) then some (Json.bool false, rest.drop 4)
      else if c.isDigit ∨ (c = '-' ∧ (rest.head?.map Char.isDigit) = some true) then
        some (Json.number (c :: rest.takeWhile (fun x => x.isDigit || x == '.')),
          rest.dropWhile (fun x => x.isDigit || x == '.'))
      else none

/-- Reads a whole text as one JSON object; anything else is a failure. -/
def RefJson.Deserialize (s : FString) : Option (List (FString × Json)) :=
  match RefJson.parseValue (s.length + 1) s with
  | some (Json.object fields, rest) => if (RefJson.skipWs rest).isEmpty then some fields else none
  | _ => none

/-- Looks a field up by its exact name. -/
def RefJson.TryGetField (o : List (FString × Json)) (FieldName : FString) : Option Json :=
  (o.find? (fun kv => kv.1 == FieldName)).map Prod.snd

/-- Writes a string literal, escaping quotes and backslashes. -/
def RefJson.writeString (s : FString) : FString :=
  [RefJson.quote] ++
    s.flatMap (fun c =>
      if c = RefJson.quote ∨ c = RefJson.backslash then [RefJson.backslash, c] else [c]) ++
    [RefJson.quote]

/-- Writes a rational with six fractional digits. -/
def RefJson.writeNumber (q : ℚ) : FString :=
  let scaled : Int := (q * 1000000).floor
  let frac := (toString (scaled.natAbs % 1000000)).toList
  (if scaled < 0 then ['-'] else []) ++ (toString (scaled.natAbs / 1000000)).toList ++ ['.'] ++
    List.replicate (6 - frac.length) '0' ++ frac

/-- Writes one element of the `messages` array. -/
def RefJson.writeMessage (m : FString × FString) : FString :=
  TEXT "\x7b\"role\":" ++ RefJson.writeString m.1 ++ TEXT ",\"content\":" ++
    RefJson.writeString m.2 ++ TEXT "\x7d"

/-- Writes the request body object as JSON text. -/
def RefJson.Serialize (b : FRequestJson) : FString :=
  TEXT "\x7b\"model\":" ++ RefJson.writeString b.model ++ TEXT ",\"messages\":[" ++
    ((b.messages.map RefJson.writeMessage).intersperse (TEXT ",")).flatten ++
    TEXT "],\"stream\":" ++ (if b.stream then TEXT "true" else TEXT "false") ++
    TEXT ",\"temperature\":" ++ RefJson.writeNumber b.temperature ++
    TEXT ",\"max_tokens\":" ++ FString.FromInt b.max_tokens ++ TEXT "\x7d"

/-- The reference JSON library: objects are association lists, field names are
matched exactly, only string values answer `TryGetStringField`, and `AsObject`
of a value that is not an object is the empty object. -/
def RefJson : JsonLib where
  Object := List (FString × Json)
  Value := Json
  Deserialize := RefJson.Deserialize
  HasField := fun o FieldName => (RefJson.TryGetField o FieldName).isSome
  TryGetArrayField := fun o FieldName =>
    match RefJson.TryGetField o FieldName with
    | some (Json.array xs) => some xs
    | _ => none
  TryGetObjectField := fun o FieldName =>
    match RefJson.TryGetField o FieldName with
    | some (Json.object fields) => some fields
    | _ => none
  TryGetStringField := fun o FieldName =>
    match RefJson.TryGetField o FieldName with
    | some (Json.string s) => some s
    | _ => none
  AsObject := fun v =>
    match v with
    | Json.object fields => fields
    | _ => []
  Serialize := RefJson.Serialize

/-! ## UDeepSeekFunction -/

/-- An observable action of a request or a session: a broadcast on one of the
multicast delegates, or a `CancelRequest` call on the transport handle. -/
inductive Event where
  | OnStream (Response : FString)
  | OnCompleted (Response : FString)
  | OnFailed (Response : FString)
  | OnDebugMessage (Message : FString)
  | CancelRequest
deriving DecidableEq, Repr

/-- The handlers of `USimpleChat` that can be bound to a request delegate. -/
inductive FChatHandler where
  | HandleStreamResponse
  | HandleCompletedResponse
  | HandleFailedResponse
deriving DecidableEq, Repr

/-- State of a `UDeepSeekFunction` object.  The three delegate fields hold the
session handlers currently bound to them. -/
structure UDeepSeekFunction where
  OnCompleted : List FChatHandler
  OnFailed : List FChatHandler
  OnStream : List FChatHandler
  bDebug : Bool
  AccumulatedStreamText : FString
  bIsRequestComplete : Bool
  bIsBeingDestroyed : Bool
  HttpRequestRef : Option IHttpRequest
  bRooted : Bool
deriving DecidableEq

/-- `NewObject<UDeepSeekFunction>()`: the in-class member initializers. -/
def UDeepSeekFunction.NewObject : UDeepSeekFunction where
  OnCompleted := []
  OnFailed := []
  OnStream := []
  bDebug := false
  AccumulatedStreamText := []
  bIsRequestComplete := false
  bIsBeingDestroyed := false
  HttpRequestRef := none
  bRooted := false

/-- `UDeepSeekFunction::GetFullStreamedText`. -/
def UDeepSeekFunction.GetFullStreamedText (st : UDeepSeekFunction) : FString :=
  st.AccumulatedStreamText

/-- `UDeepSeekFunction::LogDebug`: broadcasts on `OnDebugMessage` when debugging. -/
def UDeepSeekFunction.LogDebug (st : UDeepSeekFunction) (Message : FString) : List Event :=
  if !st.bDebug then [] else [Event.OnDebugMessage Message]

/-- `UDeepSeekFunction::SafeRemoveFromRoot`. -/
def UDeepSeekFunction.SafeRemoveFromRoot (st : UDeepSeekFunction) : UDeepSeekFunction :=
  if st.bRooted then { st with bRooted := false } else st

/-- `UDeepSeekFunction::BeginDestroy`. -/
def UDeepSeekFunction.BeginDestroy (st : UDeepSeekFunction) : UDeepSeekFunction × List Event :=
  let st1 := { st with bIsBeingDestroyed := true }
  match st1.HttpRequestRef with
  | some _ =>
    (UDeepSeekFunction.SafeRemoveFromRoot { st1 with HttpRequestRef := none },
      [Event.CancelRequest])
  | none => (UDeepSeekFunction.SafeRemoveFromRoot st1, [])

/-- The loop body of `UDeepSeekFunction::HandleStreamData` for one line. -/
def UDeepSeekFunction.HandleStreamLine (L : JsonLib) (st : UDeepSeekFunction)
    (Line : FString) : UDeepSeekFunction × List Event :=
  if FString.IsEmpty Line then (st, [])
  else
    let TrimmedLine := FString.TrimStartAndEnd Line
    if FString.StartsWith TrimmedLine (TEXT "data:") then
      let JsonData := FString.TrimStartAndEnd (FString.RightChop TrimmedLine 5)
      if FString.Equals JsonData (TEXT "[DONE]") then
        if !st.bIsRequestComplete then
          ({ st with bIsRequestComplete := true },
            [Event.OnCompleted st.AccumulatedStreamText])
        else (st, [])
      else
        match L.Deserialize JsonData with
        | none => (st, [])
        | some JsonObject =>
          match L.TryGetArrayField JsonObject (TEXT "choices") with
          | none => (st, [])
          | some [] => (st, [])
          | some (Choice0 :: _) =>
            match L.TryGetObjectField (L.AsObject Choice0) (TEXT "delta") with
            | none => (st, [])
            | some DeltaObject =>
              match L.TryGetStringField DeltaObject (TEXT "content") with
              | none => (st, [])
              | some Content =>
                if !FString.IsEmpty Content then
                  ({ st with AccumulatedStreamText := st.AccumulatedStreamText ++ Content },
                    Event.OnStream Content ::
                      UDeepSeekFunction.LogDebug st
                        (TEXT "Stream content length: " ++
                          FString.FromInt (FString.Len Content)))
                else (st, [])
    else (st, [])

/-- The `for` loop of `UDeepSeekFunction::HandleStreamData` over the lines of a chunk. -/
def UDeepSeekFunction.HandleStreamLines (L : JsonLib) :
    UDeepSeekFunction → List FString → UDeepSeekFunction × List Event
  | st, [] => (st, [])
  | st, Line :: Lines =>
    let r := UDeepSeekFunction.HandleStreamLine L st Line
    let rs := UDeepSeekFunction.HandleStreamLines L r.1 Lines
    (rs.1, r.2 ++ rs.2)

/-- `UDeepSeekFunction::HandleStreamData`: the returned flag is the
continue (`true`) or stop (`false`) signal. -/
def UDeepSeekFunction.HandleStreamData (L : JsonLib) (st : UDeepSeekFunction)
    (DataString : FString) : Bool × UDeepSeekFunction × List Event :=
  if st.bIsBeingDestroyed then (false, st, [])
  else
    let r := UDeepSeekFunction.HandleStreamLines L st (FString.ParseIntoArrayLines DataString)
    (true, r.1, r.2)

/-- `UDeepSeekFunction::ExtractContentFromResponse`. -/
def UDeepSeekFunction.ExtractContentFromResponse (L : JsonLib) (ResponseString : FString) :
    FString :=
  match L.Deserialize ResponseString with
  | none => ResponseString
  | some JsonResponse =>
    match L.TryGetArrayField JsonResponse (TEXT "choices") with
    | none => ResponseString
    | some [] => ResponseString
    | some (Choice0 :: _) =>
      match L.TryGetObjectField (L.AsObject Choice0) (TEXT "message") with
      | none => ResponseString
      | some MessageObject =>
        match L.TryGetStringField MessageObject (TEXT "content") with
        | none => ResponseString
        | some Content => Content

/-- The stream delegate bound by `ExecuteRequest`; `Data` is the decoded chunk text. -/
def UDeepSeekFunction.StreamDelegate (L : JsonLib) (st : UDeepSeekFunction)
    (Data : FString) (Length : Int) : Bool × UDeepSeekFunction × List Event :=
  if st.bIsBeingDestroyed || decide (Length ≤ 0) then (false, st, [])
  else UDeepSeekFunction.HandleStreamData L st Data

/-- The tail of the completion lambda: `HttpRequestRef.Reset(); SafeRemoveFromRoot();`. -/
def UDeepSeekFunction.ResetAndRemoveFromRoot (st : UDeepSeekFunction) : UDeepSeekFunction :=
  UDeepSeekFunction.SafeRemoveFromRoot { st with HttpRequestRef := none }

/-- The `OnProcessRequestComplete` lambda bound by `ExecuteRequest`.  `Response`
is `none` for an invalid response pointer. -/
def UDeepSeekFunction.OnProcessRequestComplete (L : JsonLib) (st : UDeepSeekFunction)
    (Response : Option FHttpResponse) (bWasSuccessful : Bool) :
    UDeepSeekFunction × List Event :=
  if st.bIsBeingDestroyed then (UDeepSeekFunction.SafeRemoveFromRoot st, [])
  else if !bWasSuccessful || !Response.isSome then
    let ErrorMessage : FString :=
      match Response with
      | some R =>
        TEXT "Request failed with code " ++ FString.FromInt R.ResponseCode ++ TEXT ": " ++
          R.Content
      | none => TEXT "Request failed"
    (UDeepSeekFunction.SafeRemoveFromRoot st,
      Event.OnFailed ErrorMessage :: UDeepSeekFunction.LogDebug st ErrorMessage)
  else
    let ResponseContent : FString :=
      match Response with
      | some R => R.Content
      | none => []
    let Received := UDeepSeekFunction.LogDebug st
      (TEXT "Received response (length: " ++ FString.FromInt (FString.Len ResponseContent) ++
        TEXT " bytes)")
    if !FString.IsEmpty st.AccumulatedStreamText then
      if !st.bIsRequestComplete then
        (UDeepSeekFunction.ResetAndRemoveFromRoot { st with bIsRequestComplete := true },
          Received ++ [Event.OnCompleted st.AccumulatedStreamText])
      else (UDeepSeekFunction.ResetAndRemoveFromRoot st, Received)
    else
      match L.Deserialize ResponseContent with
      | some JsonResponse =>
        if L.HasField JsonResponse (TEXT "error") then
          match (L.TryGetObjectField JsonResponse (TEXT "error")).bind
              (fun ErrorObj => L.TryGetStringField ErrorObj (TEXT "message")) with
          | some ErrorMessage =>
            (UDeepSeekFunction.SafeRemoveFromRoot st,
              Received ++ Event.OnFailed ErrorMessage ::
                UDeepSeekFunction.LogDebug st (TEXT "Error: " ++ ErrorMessage))
          | none =>
            (UDeepSeekFunction.SafeRemoveFromRoot st,
              Received ++ [Event.OnFailed (TEXT "Unknown API error")])
        else
          let Content := UDeepSeekFunction.ExtractContentFromResponse L ResponseContent
          (UDeepSeekFunction.ResetAndRemoveFromRoot { st with bIsRequestComplete := true },
            Received ++ [Event.OnCompleted Content])
      | none =>
        (UDeepSeekFunction.ResetAndRemoveFromRoot { st with bIsRequestComplete := true },
          Received ++ [Event.OnCompleted ResponseContent])

/-- The JSON object assembled by `UDeepSeekFunction::ExecuteRequest`. -/
def UDeepSeekFunction.BuildRequestJson (Params : FDeepSeekRequestParams) : FRequestJson where
  model := Params.Model
  messages := Params.Messages.map (fun Message => (Message.Role, Message.Content))
  stream := Params.bStream
  temperature := FMath.Clamp Params.Temperature 0 1
  max_tokens := FMath.Max 1 Params.MaxTokens

/-- `UDeepSeekFunction::ExecuteRequest`: resets the state, roots the object,
configures the transport request and starts it. -/
def UDeepSeekFunction.ExecuteRequest (L : JsonLib) (st : UDeepSeekFunction)
    (Params : FDeepSeekRequestParams) : UDeepSeekFunction × List Event :=
  let st1 : UDeepSeekFunction :=
    { st with
      AccumulatedStreamText := []
      bIsRequestComplete := false
      bIsBeingDestroyed := false
      bRooted := true }
  let RequestBody := L.Serialize (UDeepSeekFunction.BuildRequestJson Params)
  let HttpRequest : IHttpRequest :=
    { URL := Params.URL
      Verb := TEXT "POST"
      Headers :=
        [(TEXT "Content-Type", TEXT "application/json"),
          (TEXT "Authorization", TEXT "Bearer " ++ Params.APIKey)]
      Content := RequestBody
      bStreamDelegateBound := Params.bStream
      bCompleteDelegateBound := true
      bProcessRequestCalled := true }
  ({ st1 with HttpRequestRef := some HttpRequest },
    UDeepSeekFunction.LogDebug st1 (TEXT "Starting request to: " ++ Params.URL) ++
      UDeepSeekFunction.LogDebug st1 (TEXT "Request Body: " ++ RequestBody) ++
      UDeepSeekFunction.LogDebug st1 (TEXT "Sending request..."))

/-- `UDeepSeekFunction::SendRequest`. -/
def UDeepSeekFunction.SendRequest (L : JsonLib) (Params : FDeepSeekRequestParams) :
    UDeepSeekFunction × List Event :=
  UDeepSeekFunction.ExecuteRequest L
    { UDeepSeekFunction.NewObject with bDebug := Params.bDebugMode } Params

/-! ## Transport driver -/

/-- The transport delivering a sequence of chunks straight to `HandleStreamData`. -/
def UDeepSeekFunction.HandleStreamChunks (L : JsonLib) :
    UDeepSeekFunction → List FString → UDeepSeekFunction × List Event
  | st, [] => (st, [])
  | st, Chunk :: Chunks =>
    let r := UDeepSeekFunction.HandleStreamData L st Chunk
    let rs := UDeepSeekFunction.HandleStreamChunks L r.2.1 Chunks
    (rs.1, r.2.2 ++ rs.2)

/-- A callback invocation by the transport: a body chunk or the completion signal. -/
inductive FTransportSignal where
  | Chunk (Data : FString) (Length : Int)
  | Complete (Response : Option FHttpResponse) (bWasSuccessful : Bool)

/-- Runs the delegate bound for one transport signal. -/
def UDeepSeekFunction.Deliver (L : JsonLib) (st : UDeepSeekFunction) :
    FTransportSignal → UDeepSeekFunction × List Event
  | FTransportSignal.Chunk Data Length =>
    (UDeepSeekFunction.StreamDelegate L st Data Length).2
  | FTransportSignal.Complete Response bWasSuccessful =>
    UDeepSeekFunction.OnProcessRequestComplete L st Response bWasSuccessful

/-- Runs the delegates for a sequence of transport signals. -/
def UDeepSeekFunction.DeliverAll (L : JsonLib) :
    UDeepSeekFunction → List FTransportSignal → UDeepSeekFunction × List Event
  | st, [] => (st, [])
  | st, Signal :: Signals =>
    let r := UDeepSeekFunction.Deliver L st Signal
    let rs := UDeepSeekFunction.DeliverAll L r.1 Signals
    (rs.1, r.2 ++ rs.2)

/-! ## Reading event lists -/

/-- A terminal notification: `OnCompleted` or `OnFailed`. -/
def Event.IsTerminal : Event → Bool
  | Event.OnCompleted _ => true
  | Event.OnFailed _ => true
  | _ => false

/-- One of the three response notifications: `OnStream`, `OnCompleted`, `OnFailed`. -/
def Event.IsNotification : Event → Bool
  | Event.OnStream _ => true
  | Event.OnCompleted _ => true
  | Event.OnFailed _ => true
  | _ => false

/-- The payload of an `OnStream` broadcast. -/
def Event.StreamPayload : Event → Option FString
  | Event.OnStream Response => some Response
  | _ => none

/-- The payload of an `OnCompleted` broadcast. -/
def Event.CompletedPayload : Event → Option FString
  | Event.OnCompleted Response => some Response
  | _ => none

/-- The payload of an `OnFailed` broadcast. -/
def Event.FailedPayload : Event → Option FString
  | Event.OnFailed Response => some Response
  | _ => none

/-- Number of terminal notifications in an event list. -/
def TerminalCount (Events : List Event) : Nat := (Events.filter Event.IsTerminal).length

/-- The response notifications of an event list, in order. -/
def Notifications (Events : List Event) : List Event := Events.filter Event.IsNotification

/-! ## USimpleChat -/

/-- State of a `USimpleChat` object.  `ApiRequest` is the index of the in-flight
request in the object store. -/
structure USimpleChat where
  ChatHistory : List FDeepSeekMessage
  ApiRequest : Option Nat
  AccumulatedResponse : FString
  bIsBeingDestroyed : Bool
deriving DecidableEq

/-- A session together with every `UDeepSeekFunction` object created so far;
a request pointer is an index into `Objects`. -/
structure FWorld where
  Chat : USimpleChat
  Objects : List UDeepSeekFunction
deriving DecidableEq

/-- `USimpleChat::CreateChatInstance` in an empty object store. -/
def USimpleChat.CreateChatInstance : FWorld where
  Chat :=
    { ChatHistory := []
      ApiRequest := none
      AccumulatedResponse := []
      bIsBeingDestroyed := false }
  Objects := []

/-- The three `RemoveAll(this)` calls of `CleanupCurrentRequest` on one request. -/
def UDeepSeekFunction.RemoveAllChatHandlers (st : UDeepSeekFunction) : UDeepSeekFunction :=
  { st with OnStream := [], OnCompleted := [], OnFailed := [] }

/-- The three `AddDynamic` calls of `SendMessage` on one request. -/
def UDeepSeekFunction.AddChatHandlers (st : UDeepSeekFunction) : UDeepSeekFunction :=
  { st with
    OnStream := st.OnStream ++ [FChatHandler.HandleStreamResponse]
    OnCompleted := st.OnCompleted ++ [FChatHandler.HandleCompletedResponse]
    OnFailed := st.OnFailed ++ [FChatHandler.HandleFailedResponse] }

/-- Applies `f` to the object at index `Id` of the store. -/
def FWorld.UpdateObject (Objects : List UDeepSeekFunction) (Id : Nat)
    (f : UDeepSeekFunction → UDeepSeekFunction) : List UDeepSeekFunction :=
  match Objects[Id]? with
  | some Obj => Objects.set Id (f Obj)
  | none => Objects

/-- `USimpleChat::CleanupCurrentRequest`. -/
def USimpleChat.CleanupCurrentRequest (W : FWorld) : FWorld :=
  match W.Chat.ApiRequest with
  | some Id =>
    { Chat := { W.Chat with ApiRequest := none }
      Objects := FWorld.UpdateObject W.Objects Id UDeepSeekFunction.RemoveAllChatHandlers }
  | none => W

/-- `USimpleChat::SendMessage`.  The returned events are the broadcasts on the
session's own delegates. -/
def USimpleChat.SendMessage (L : JsonLib) (W : FWorld)
    (APIKey Message SystemPrompt ModelName : FString) (Temperature : ℚ) :
    FWorld × List Event :=
  if W.Chat.bIsBeingDestroyed then (W, [])
  else if FString.IsEmpty Message then
    (W, [Event.OnFailed (TEXT "Cannot send empty message")])
  else if FString.IsEmpty APIKey then
    (W, [Event.OnFailed (TEXT "API Key is required")])
  else
    let W1 : FWorld := { W with Chat := { W.Chat with AccumulatedResponse := [] } }
    let W2 := USimpleChat.CleanupCurrentRequest W1
    let History1 :=
      if W2.Chat.ChatHistory.length == 0 && !FString.IsEmpty SystemPrompt then
        W2.Chat.ChatHistory ++ [FDeepSeekMessage.mk (TEXT "system") SystemPrompt]
      else W2.Chat.ChatHistory
    let History2 := History1 ++ [FDeepSeekMessage.mk (TEXT "user") Message]
    let Params : FDeepSeekRequestParams :=
      { FDeepSeekRequestParams.Default with
        APIKey := APIKey
        Model := ModelName
        Messages := History2
        bStream := true
        Temperature := FMath.Clamp Temperature 0 1 }
    let Created : Option UDeepSeekFunction := some (UDeepSeekFunction.SendRequest L Params).1
    match Created with
    | some Function =>
      ({ Chat := { W2.Chat with ChatHistory := History2, ApiRequest := some W2.Objects.length }
         Objects := W2.Objects ++ [UDeepSeekFunction.AddChatHandlers Function] }, [])
    | none =>
      ({ W2 with Chat := { W2.Chat with ChatHistory := History2 } },
        [Event.OnFailed (TEXT "Failed to create API request")])

/-- `USimpleChat::BeginDestroy`. -/
def USimpleChat.BeginDestroy (W : FWorld) : FWorld :=
  USimpleChat.CleanupCurrentRequest { W with Chat := { W.Chat with bIsBeingDestroyed := true } }

/-- `USimpleChat::GetMessages`. -/
def USimpleChat.GetMessages (W : FWorld) : List FDeepSeekMessage := W.Chat.ChatHistory

/-- `USimpleChat::GetChatHistory`. -/
def USimpleChat.GetChatHistory (W : FWorld) : FString :=
  W.Chat.ChatHistory.foldl
    (fun History Message =>
      let Label : FString :=
        if FString.Equals Message.Role (TEXT "user") then TEXT "User: "
        else if FString.Equals Message.Role (TEXT "assistant") then TEXT "Assistant: "
        else if FString.Equals Message.Role (TEXT "system") then TEXT "System: "
        else []
      History ++ Label ++ Message.Content ++ TEXT "\n\n")
    []

/-- `USimpleChat::ClearChat`. -/
def USimpleChat.ClearChat (W : FWorld) : FWorld :=
  USimpleChat.CleanupCurrentRequest { W with Chat := { W.Chat with ChatHistory := [] } }

/-- `USimpleChat::HandleStreamResponse`. -/
def USimpleChat.HandleStreamResponse (W : FWorld) (Response : FString) : FWorld × List Event :=
  if W.Chat.bIsBeingDestroyed || FString.IsEmpty Response then (W, [])
  else
    ({ W with Chat :=
        { W.Chat with AccumulatedResponse := W.Chat.AccumulatedResponse ++ Response } },
      [Event.OnStream Response])

/-- The text read through `ApiRequest->GetFullStreamedText()` in
`HandleCompletedResponse`; empty when no request is attached. -/
def USimpleChat.FullStreamedText (W : FWorld) : FString :=
  match W.Chat.ApiRequest with
  | some Id =>
    match W.Objects[Id]? with
    | some Obj => UDeepSeekFunction.GetFullStreamedText Obj
    | none => []
  | none => []

/-- `USimpleChat::HandleCompletedResponse`. -/
def USimpleChat.HandleCompletedResponse (W : FWorld) (_Response : FString) :
    FWorld × List Event :=
  if W.Chat.bIsBeingDestroyed then (W, [])
  else
    let FullResponse0 := USimpleChat.FullStreamedText W
    let FullResponse :=
      if FString.IsEmpty FullResponse0 then W.Chat.AccumulatedResponse else FullResponse0
    if !FString.IsEmpty FullResponse then
      (USimpleChat.CleanupCurrentRequest
        { W with Chat :=
          { W.Chat with
            ChatHistory :=
              W.Chat.ChatHistory ++ [FDeepSeekMessage.mk (TEXT "assistant") FullResponse] } },
        [Event.OnCompleted FullResponse])
    else
      (USimpleChat.CleanupCurrentRequest W, [Event.OnFailed (TEXT "Received empty response")])

/-- `USimpleChat::HandleFailedResponse`. -/
def USimpleChat.HandleFailedResponse (W : FWorld) (ErrorMessage : FString) :
    FWorld × List Event :=
  if W.Chat.bIsBeingDestroyed then (W, [])
  else (USimpleChat.CleanupCurrentRequest W, [Event.OnFailed ErrorMessage])

/-- The `Params` assembled by `USimpleChat::SendMessage` for a given history. -/
def USimpleChat.MakeParams (APIKey ModelName : FString) (History : List FDeepSeekMessage)
    (Temperature : ℚ) : FDeepSeekRequestParams :=
  { FDeepSeekRequestParams.Default with
    APIKey := APIKey
    Model := ModelName
    Messages := History
    bStream := true
    Temperature := FMath.Clamp Temperature 0 1 }

/-! ## Delivery of request broadcasts to the session -/

/-- Calls a handler of the session that is bound to a request delegate. -/
def USimpleChat.Invoke (W : FWorld) (Handler : FChatHandler) (Payload : FString) :
    FWorld × List Event :=
  match Handler with
  | FChatHandler.HandleStreamResponse => USimpleChat.HandleStreamResponse W Payload
  | FChatHandler.HandleCompletedResponse => USimpleChat.HandleCompletedResponse W Payload
  | FChatHandler.HandleFailedResponse => USimpleChat.HandleFailedResponse W Payload

/-- Calls the handlers of an invocation list in order. -/
def USimpleChat.InvokeAll : FWorld → List FChatHandler → FString → FWorld × List Event
  | W, [], _ => (W, [])
  | W, Handler :: Handlers, Payload =>
    let r := USimpleChat.Invoke W Handler Payload
    let rs := USimpleChat.InvokeAll r.1 Handlers Payload
    (rs.1, r.2 ++ rs.2)

/-- A `Broadcast` on a delegate of request `Id`: the session handlers bound to that
delegate at the time of the broadcast are called.  The returned events are the
broadcasts of the session. -/
def FWorld.Broadcast (W : FWorld) (Id : Nat) (E : Event) : FWorld × List Event :=
  match W.Objects[Id]? with
  | none => (W, [])
  | some Obj =>
    match E with
    | Event.OnStream Response => USimpleChat.InvokeAll W Obj.OnStream Response
    | Event.OnCompleted Response => USimpleChat.InvokeAll W Obj.OnCompleted Response
    | Event.OnFailed Response => USimpleChat.InvokeAll W Obj.OnFailed Response
    | Event.OnDebugMessage _ => (W, [])
    | Event.CancelRequest => (W, [])

/-- The broadcasts of request `Id`, one after the other. -/
def FWorld.BroadcastAll : FWorld → Nat → List Event → FWorld × List Event
  | W, _, [] => (W, [])
  | W, Id, E :: Events =>
    let r := FWorld.Broadcast W Id E
    let rs := FWorld.BroadcastAll r.1 Id Events
    (rs.1, r.2 ++ rs.2)

/-- Writes the state of request `Id` back to the object store. -/
def FWorld.SetObject (W : FWorld) (Id : Nat) (Obj : UDeepSeekFunction) : FWorld :=
  { W with Objects := W.Objects.set Id Obj }

/-- The loop of `HandleStreamData` run on request `Id` of the world: the
broadcasts of a line reach the session before the next line is handled. -/
def FWorld.HandleStreamLines (L : JsonLib) : FWorld → Nat → List FString → FWorld × List Event
  | W, _, [] => (W, [])
  | W, Id, Line :: Lines =>
    match W.Objects[Id]? with
    | none => (W, [])
    | some Obj =>
      let r := UDeepSeekFunction.HandleStreamLine L Obj Line
      let b := FWorld.BroadcastAll (FWorld.SetObject W Id r.1) Id r.2
      let rs := FWorld.HandleStreamLines L b.1 Id Lines
      (rs.1, b.2 ++ rs.2)

/-- The transport calls a delegate of request `Id`; the returned events are the
broadcasts of the session. -/
def FWorld.Deliver (L : JsonLib) (W : FWorld) (Id : Nat) :
    FTransportSignal → FWorld × List Event
  | FTransportSignal.Chunk Data Length =>
    match W.Objects[Id]? with
    | none => (W, [])
    | some Obj =>
      if Obj.bIsBeingDestroyed || decide (Length ≤ 0) then (W, [])
      else if Obj.bIsBeingDestroyed then (W, [])
      else FWorld.HandleStreamLines L W Id (FString.ParseIntoArrayLines Data)
  | FTransportSignal.Complete Response bWasSuccessful =>
    match W.Objects[Id]? with
    | none => (W, [])
    | some Obj =>
      let r := UDeepSeekFunction.OnProcessRequestComplete L Obj Response bWasSuccessful
      FWorld.BroadcastAll (FWorld.SetObject W Id r.1) Id r.2

/-- The transport calls the delegates of request `Id` for a sequence of signals. -/
def FWorld.DeliverAll (L : JsonLib) :
    FWorld → Nat → List FTransportSignal → FWorld × List Event
  | W, _, [] => (W, [])
  | W, Id, Signal :: Signals =>
    let r := FWorld.Deliver L W Id Signal
    let rs := FWorld.DeliverAll L r.1 Id Signals
    (rs.1, r.2 ++ rs.2)

/-- Something that happens to a session and its requests. -/
inductive FChatInput where
  | SendMessage (APIKey Message SystemPrompt ModelName : FString) (Temperature : ℚ)
  | ClearChat
  | StreamDelta (Response : FString)
  | Completed (Response : FString)
  | Failed (ErrorMessage : FString)
  | Transport (Id : Nat) (Signal : FTransportSignal)
  | DestroyRequest (Id : Nat)
  | DestroySession

/-- One step of the world.  `StreamDelta`, `Completed` and `Failed` call the
session handler directly, whatever is bound; `Transport` goes through the
request and its delegates. -/
def FWorld.Step (L : JsonLib) (W : FWorld) : FChatInput → FWorld × List Event
  | FChatInput.SendMessage APIKey Message SystemPrompt ModelName Temperature =>
    USimpleChat.SendMessage L W APIKey Message SystemPrompt ModelName Temperature
  | FChatInput.ClearChat => (USimpleChat.ClearChat W, [])
  | FChatInput.StreamDelta Response => USimpleChat.HandleStreamResponse W Response
  | FChatInput.Completed Response => USimpleChat.HandleCompletedResponse W Response
  | FChatInput.Failed ErrorMessage => USimpleChat.HandleFailedResponse W ErrorMessage
  | FChatInput.Transport Id Signal => FWorld.Deliver L W Id Signal
  | FChatInput.DestroyRequest Id =>
    match W.Objects[Id]? with
    | none => (W, [])
    | some Obj => (FWorld.SetObject W Id (UDeepSeekFunction.BeginDestroy Obj).1, [])
  | FChatInput.DestroySession => (USimpleChat.BeginDestroy W, [])

/-- A sequence of steps of the world. -/
def FWorld.Run (L : JsonLib) : FWorld → List FChatInput → FWorld × List Event
  | W, [] => (W, [])
  | W, Input :: Inputs =>
    let r := FWorld.Step L W Input
    let rs := FWorld.Run L r.1 Inputs
    (rs.1, r.2 ++ rs.2)

/-- Two request states with the same bound session handlers. -/
def UDeepSeekFunction.SameHandlers (A B : UDeepSeekFunction) : Prop :=
  A.OnStream = B.OnStream ∧ A.OnCompleted = B.OnCompleted ∧ A.OnFailed = B.OnFailed

/-- Request `Id` exists and no session handler is bound to its delegates. -/
def FWorld.Detached (W : FWorld) (Id : Nat) : Prop :=
  ∃ Obj, W.Objects[Id]? = some Obj ∧ Obj.OnStream = [] ∧ Obj.OnCompleted = [] ∧
    Obj.OnFailed = []

/-- Request `Id` is the in-flight request of a live session, the three session
handlers are bound to it, and the scratch buffer equals its accumulated text. -/
def FWorld.Attached (W : FWorld) (Id : Nat) : Prop :=
  W.Chat.bIsBeingDestroyed = false ∧ W.Chat.ApiRequest = some Id ∧
    ∃ Obj, W.Objects[Id]? = some Obj ∧
      Obj.OnStream = [FChatHandler.HandleStreamResponse] ∧
      Obj.OnCompleted = [FChatHandler.HandleCompletedResponse] ∧
      Obj.OnFailed = [FChatHandler.HandleFailedResponse] ∧
      Obj.AccumulatedStreamText = W.Chat.AccumulatedResponse

/-- A property of the world that is kept by every operation of the session and by
every write-back of a request state that keeps the bound handlers. -/
structure FWorld.Stable (P : FWorld → Prop) : Prop where
  stream : ∀ W Response, P W → P (USimpleChat.HandleStreamResponse W Response).1
  completed : ∀ W Response, P W → P (USimpleChat.HandleCompletedResponse W Response).1
  failed : ∀ W ErrorMessage, P W → P (USimpleChat.HandleFailedResponse W ErrorMessage).1
  setObject : ∀ W Id Obj New, P W → W.Objects[Id]? = some Obj →
    UDeepSeekFunction.SameHandlers New Obj → P (FWorld.SetObject W Id New)
  send : ∀ L W APIKey Message SystemPrompt ModelName Temperature, P W →
    P (USimpleChat.SendMessage L W APIKey Message SystemPrompt ModelName Temperature).1
  clear : ∀ W, P W → P (USimpleChat.ClearChat W)
  destroy : ∀ W, P W → P (USimpleChat.BeginDestroy W)

/-- Request `Id` and the session are in step: either the request is attached with
the scratch buffer equal to its accumulated text, or the session has let go of
it. -/
def FWorld.InSync (W : FWorld) (Id : Nat) : Prop :=
  FWorld.Attached W Id ∨ (W.Chat.ApiRequest = none ∧ FWorld.Detached W Id)

/-- Two request states that agree on everything but the bound session handlers. -/
def UDeepSeekFunction.SameState (A B : UDeepSeekFunction) : Prop :=
  UDeepSeekFunction.RemoveAllChatHandlers A = UDeepSeekFunction.RemoveAllChatHandlers B

/-- Request `Id` of the world is in state `Y`, up to the bound session handlers. -/
def FWorld.ObjectIs (W : FWorld) (Id : Nat) (Y : UDeepSeekFunction) : Prop :=
  ∃ X, W.Objects[Id]? = some X ∧ UDeepSeekFunction.SameState X Y

/-- The scratch buffer after a step is the scratch buffer before it followed by
the stream payloads the session broadcast during the step. -/
def FWorld.ScratchGrows (W : FWorld) (r : FWorld × List Event) : Prop :=
  r.1.Chat.AccumulatedResponse =
    W.Chat.AccumulatedResponse ++ (r.2.filterMap Event.StreamPayload).flatten

/-! ## The protocol of the specification, in its own words -/

/-- Specification, `sendMessage`: the history after a valid call. -/
def Spec.HistoryAfterSend (History : List FDeepSeekMessage) (Message SystemPrompt : FString) :
    List FDeepSeekMessage :=
  if History = [] ∧ SystemPrompt ≠ [] then
    History ++ [FDeepSeekMessage.mk (TEXT "system") SystemPrompt,
      FDeepSeekMessage.mk (TEXT "user") Message]
  else History ++ [FDeepSeekMessage.mk (TEXT "user") Message]

/-- Specification, completion handling: the request's full accumulated text if
that is non-empty, else the session's scratch buffer. -/
def Spec.CompletionText (RequestText Scratch : FString) : FString :=
  if RequestText ≠ [] then RequestText else Scratch

/-- Specification, `getChatHistory`: the label of a role, the role names being
taken as written. -/
def Spec.RoleLabel (Role : FString) : FString :=
  if Role = TEXT "user" then TEXT "User: "
  else if Role = TEXT "assistant" then TEXT "Assistant: "
  else if Role = TEXT "system" then TEXT "System: "
  else []

/-- Specification, `getChatHistory`: label, content and a blank-line separator per
message, in history order. -/
def Spec.RenderHistory (History : List FDeepSeekMessage) : FString :=
  (History.map fun Message =>
    Spec.RoleLabel Message.Role ++ Message.Content ++ TEXT "\n\n").flatten

/-- The label of a role when role names are compared as `FString`s, that is
ignoring ASCII case. -/
def Spec.RoleLabelIgnoreCase (Role : FString) : FString :=
  if FString.Equals Role (TEXT "user") then TEXT "User: "
  else if FString.Equals Role (TEXT "assistant") then TEXT "Assistant: "
  else if FString.Equals Role (TEXT "system") then TEXT "System: "
  else []

/-- The rendering of a history with role names compared ignoring ASCII case. -/
def Spec.RenderHistoryIgnoreCase (History : List FDeepSeekMessage) : FString :=
  (History.map fun Message =>
    Spec.RoleLabelIgnoreCase Message.Role ++ Message.Content ++ TEXT "\n\n").flatten

/-- The roles the session writes into its history: `ChatHistory` is private and
`SendMessage` and the completion handler add Messages with the literal roles
`system`, `user` and `assistant` only. -/
def USimpleChat.LiteralRoles (History : List FDeepSeekMessage) : Prop :=
  ∀ Message ∈ History,
    Message.Role = TEXT "system" ∨ Message.Role = TEXT "user" ∨
      Message.Role = TEXT "assistant"

/-- Specification: the message is an `assistant` Message (role compared as `FString`). -/
def Spec.IsAssistant (Message : FDeepSeekMessage) : Bool :=
  FString.Equals Message.Role (TEXT "assistant")

/-- Every `assistant` Message of the history has non-empty content. -/
def Spec.AssistantTurnsComplete (History : List FDeepSeekMessage) : Prop :=
  ∀ Message ∈ History, Spec.IsAssistant Message = true → Message.Content ≠ []

/-- Specification, streaming-chunk protocol: trim the line; if it starts with
`data:`, strip the marker and trim again to obtain the JSON-data token. -/
def Spec.DataToken (Line : FString) : Option FString :=
  if FString.StartsWith (FString.TrimStartAndEnd Line) (TEXT "data:") then
    some (FString.TrimStartAndEnd (FString.RightChop (FString.TrimStartAndEnd Line) 5))
  else none

/-- Specification: the token equals `[DONE]`. -/
def Spec.IsDone (Token : FString) : Bool := FString.Equals Token (TEXT "[DONE]")

/-- Specification: the line is a `data: [DONE]` line. -/
def Spec.IsDoneLine (Line : FString) : Bool :=
  match Spec.DataToken Line with
  | some Token => Spec.IsDone Token
  | none => false

/-- Specification: the line is `data: <valid JSON>`, its token not being `[DONE]`. -/
def Spec.IsJsonDataLine (L : JsonLib) (Line : FString) : Bool :=
  match Spec.DataToken Line with
  | some Token => !Spec.IsDone Token && (L.Deserialize Token).isSome
  | none => false

/-- Specification: the string at `choices[0].<Field>.content` of a JSON text, if any. -/
def Spec.ChoiceContent (L : JsonLib) (Field : FString) (Text : FString) : Option FString :=
  (L.Deserialize Text).bind fun Root =>
    (L.TryGetArrayField Root (TEXT "choices")).bind fun Choices =>
      Choices.head?.bind fun Choice =>
        (L.TryGetObjectField (L.AsObject Choice) Field).bind
          fun Inner => L.TryGetStringField Inner (TEXT "content")

/-- Specification: the non-empty `choices[0].delta.content` fragment carried by a
line that is a `data:` line other than `[DONE]`. -/
def Spec.LineFragment (L : JsonLib) (Line : FString) : Option FString :=
  (Spec.DataToken Line).bind fun Token =>
    if Spec.IsDone Token then none
    else (Spec.ChoiceContent L (TEXT "delta") Token).filter (fun Content => !Content.isEmpty)

/-- Specification: the fragments of a sequence of chunks, in arrival order. -/
def Spec.Fragments (L : JsonLib) (Chunks : List FString) : List FString :=
  (Chunks.flatMap FString.ParseIntoArrayLines).filterMap (Spec.LineFragment L)

/-- Specification, non-streaming completion: `choices[0].message.content`, falling
back to the raw body text. -/
def Spec.MessageContentOrRaw (L : JsonLib) (Body : FString) : FString :=
  (Spec.ChoiceContent L (TEXT "message") Body).getD Body

/-- Specification: the body parses as JSON with a top-level `error` field. -/
def Spec.HasTopLevelError (L : JsonLib) (Body : FString) : Bool :=
  match L.Deserialize Body with
  | some Root => L.HasField Root (TEXT "error")
  | none => false

/-- Specification: the `message` of the top-level `error` object, falling back
to the generic text. -/
def Spec.ApiErrorMessage (L : JsonLib) (Body : FString) : FString :=
  (((L.Deserialize Body).bind fun Root => L.TryGetObjectField Root (TEXT "error")).bind
    fun ErrorObj => L.TryGetStringField ErrorObj (TEXT "message")).getD
    (TEXT "Unknown API error")

/-! ## Effects of a protocol line -/

/-- Effect of a line that carries the fragment `Content`. -/
def UDeepSeekFunction.AppendFragment (st : UDeepSeekFunction) (Content : FString) :
    UDeepSeekFunction × List Event :=
  ({ st with AccumulatedStreamText := st.AccumulatedStreamText ++ Content },
    Event.OnStream Content ::
      UDeepSeekFunction.LogDebug st
        (TEXT "Stream content length: " ++ FString.FromInt (FString.Len Content)))

/-- Effect of a `data: [DONE]` line. -/
def UDeepSeekFunction.MarkDone (st : UDeepSeekFunction) : UDeepSeekFunction × List Event :=
  if !st.bIsRequestComplete then
    ({ st with bIsRequestComplete := true }, [Event.OnCompleted st.AccumulatedStreamText])
  else (st, [])

/-! ## Sample inputs -/

/-- Parameters of a streaming request with an API key. -/
def Sample.Params : FDeepSeekRequestParams :=
  { FDeepSeekRequestParams.Default with
    APIKey := TEXT "sk-test"
    Messages := [FDeepSeekMessage.mk (TEXT "user") (TEXT "hello")] }

/-- A request right after `SendRequest`. -/
def Sample.Fresh : UDeepSeekFunction := (UDeepSeekFunction.SendRequest RefJson Sample.Params).1

/-- The end-of-stream line. -/
def Sample.DoneLine : FString := TEXT "data: [DONE]"

/-- A stream line carrying the fragment `Hel`. -/
def Sample.DeltaHel : FString :=
  TEXT "data: \x7b\"choices\":[\x7b\"delta\":\x7b\"content\":\"Hel\"\x7d\x7d]\x7d"

/-- A stream line carrying the fragment `hey`. -/
def Sample.DeltaHey : FString :=
  TEXT "data: \x7b\"choices\":[\x7b\"delta\":\x7b\"content\":\"hey\"\x7d\x7d]\x7d"

/-- A stream line carrying the fragment `lo`. -/
def Sample.DeltaLo : FString :=
  TEXT "data: \x7b\"choices\":[\x7b\"delta\":\x7b\"content\":\"lo\"\x7d\x7d]\x7d"

/-- A `data:` line whose token is not JSON. -/
def Sample.Malformed : FString := TEXT "data: \x7b\"choices\":[oops"

/-- The non-streaming success body of the specification. -/
def Sample.BodyHi : FString :=
  TEXT "\x7b\"choices\":[\x7b\"message\":\x7b\"content\":\"hi\"\x7d\x7d]\x7d"

/-- The API error body of the specification. -/
def Sample.BodyBadKey : FString :=
  TEXT "\x7b\"error\":\x7b\"message\":\"bad key\"\x7d\x7d"

/-- A session in teardown: a new session after `BeginDestroy`. -/
def Sample.TornDownSession : FWorld := USimpleChat.BeginDestroy USimpleChat.CreateChatInstance

/-- The history of the specification example for `getChatHistory`. -/
def Sample.History : List FDeepSeekMessage :=
  [FDeepSeekMessage.mk (TEXT "system") (TEXT "S"), FDeepSeekMessage.mk (TEXT "user") (TEXT "hi"),
    FDeepSeekMessage.mk (TEXT "assistant") (TEXT "hey")]

/-- A session holding a given history and no request. -/
def Sample.SessionWith (History : List FDeepSeekMessage) : FWorld :=
  { USimpleChat.CreateChatInstance with
    Chat := { USimpleChat.CreateChatInstance.Chat with ChatHistory := History } }

/-- A new session after a valid first `SendMessage`; its request has index `0`. -/
def Sample.FirstTurn : FWorld :=
  (USimpleChat.SendMessage RefJson USimpleChat.CreateChatInstance (TEXT "sk-test")
    (TEXT "hello") [] (TEXT "deepseek-chat") (7 / 10)).1

/-- The first turn after the fragment `Hel` has been streamed. -/
def Sample.FirstTurnStreaming : FWorld :=
  (FWorld.Deliver RefJson Sample.FirstTurn 0
    (FTransportSignal.Chunk (Sample.DeltaHel ++ TEXT "\n") 64)).1

/-! ## Theorems -/

open UDeepSeekFunction

/-! ### Stream handling against the protocol of the specification -/

theorem Spec.DataToken_nil : Spec.DataToken [] = none := by decide

theorem HandleStreamLine_eq (L : JsonLib) (st : UDeepSeekFunction) (Line : FString) :
    HandleStreamLine L st Line =
      if Spec.IsDoneLine Line then MarkDone st
      else
        match Spec.LineFragment L Line with
        | some Content => AppendFragment st Content
        | none => (st, []) := by
  unfold HandleStreamLine
  by_cases hE : FString.IsEmpty Line = true
  · have hnil : Line = [] := by simpa [FString.IsEmpty] using hE
    subst hnil
    simp [FString.IsEmpty, Spec.IsDoneLine, Spec.LineFragment, Spec.DataToken_nil]
  · simp only [hE, Bool.false_eq_true, if_false]
    cases hS : FString.StartsWith (FString.TrimStartAndEnd Line) (TEXT "data:") with
    | false => simp [Spec.IsDoneLine, Spec.LineFragment, Spec.DataToken, hS]
    | true =>
      cases hD : FString.Equals
          (FString.TrimStartAndEnd (FString.RightChop (FString.TrimStartAndEnd Line) 5))
          (TEXT "[DONE]") with
      | true => simp [Spec.IsDoneLine, Spec.DataToken, Spec.IsDone, hS, hD, MarkDone]
      | false =>
        cases hP : L.Deserialize
            (FString.TrimStartAndEnd (FString.RightChop (FString.TrimStartAndEnd Line) 5)) with
        | none =>
          simp [Spec.IsDoneLine, Spec.LineFragment, Spec.DataToken, Spec.IsDone,
            Spec.ChoiceContent, hS, hD, hP]
        | some Root =>
          cases hC : L.TryGetArrayField Root (TEXT "choices") with
          | none =>
            simp [Spec.IsDoneLine, Spec.LineFragment, Spec.DataToken, Spec.IsDone,
              Spec.ChoiceContent, hS, hD, hP, hC]
          | some Choices =>
            cases Choices with
            | nil =>
              simp [Spec.IsDoneLine, Spec.LineFragment, Spec.DataToken, Spec.IsDone,
                Spec.ChoiceContent, hS, hD, hP, hC]
            | cons Choice Rest =>
              cases hO : L.TryGetObjectField (L.AsObject Choice) (TEXT "delta") with
              | none =>
                simp [Spec.IsDoneLine, Spec.LineFragment, Spec.DataToken, Spec.IsDone,
                  Spec.ChoiceContent, hS, hD, hP, hC, hO]
              | some Inner =>
                cases hT : L.TryGetStringField Inner (TEXT "content") with
                | none =>
                  simp [Spec.IsDoneLine, Spec.LineFragment, Spec.DataToken, Spec.IsDone,
                    Spec.ChoiceContent, hS, hD, hP, hC, hO, hT]
                | some Content =>
                  by_cases hN : Content = []
                  · simp [Spec.IsDoneLine, Spec.LineFragment, Spec.DataToken, Spec.IsDone,
                      Spec.ChoiceContent, hS, hD, hP, hC, hO, hT, hN, FString.IsEmpty,
                      Option.filter]
                  · simp [Spec.IsDoneLine, Spec.LineFragment, Spec.DataToken, Spec.IsDone,
                      Spec.ChoiceContent, hS, hD, hP, hC, hO, hT, hN, FString.IsEmpty,
                      Option.filter, AppendFragment]

theorem Spec.LineFragment_of_IsDoneLine (L : JsonLib) (Line : FString)
    (h : Spec.IsDoneLine Line = true) : Spec.LineFragment L Line = none := by
  unfold Spec.IsDoneLine at h
  unfold Spec.LineFragment
  cases hT : Spec.DataToken Line with
  | none => simp
  | some Token =>
    rw [hT] at h
    simp at h
    simp [h]

/-- The three possible effects of one line, by the protocol class of the line. -/
theorem HandleStreamLine_cases (L : JsonLib) (st : UDeepSeekFunction) (Line : FString) :
    (Spec.IsDoneLine Line = true ∧ Spec.LineFragment L Line = none ∧
        HandleStreamLine L st Line = MarkDone st) ∨
      (Spec.IsDoneLine Line = false ∧ ∃ Content, Spec.LineFragment L Line = some Content ∧
        HandleStreamLine L st Line = AppendFragment st Content) ∨
      (Spec.IsDoneLine Line = false ∧ Spec.LineFragment L Line = none ∧
        HandleStreamLine L st Line = (st, [])) := by
  rw [HandleStreamLine_eq]
  cases hD : Spec.IsDoneLine Line with
  | true => exact Or.inl ⟨rfl, Spec.LineFragment_of_IsDoneLine L Line hD, by simp⟩
  | false =>
    cases hF : Spec.LineFragment L Line with
    | none => exact Or.inr (Or.inr ⟨rfl, rfl, by simp⟩)
    | some Content => exact Or.inr (Or.inl ⟨rfl, Content, rfl, by simp⟩)

theorem LogDebug_filterMap_StreamPayload (st : UDeepSeekFunction) (Message : FString) :
    (LogDebug st Message).filterMap Event.StreamPayload = [] := by
  unfold LogDebug
  cases st.bDebug <;> simp [Event.StreamPayload]

theorem LogDebug_filterMap_CompletedPayload (st : UDeepSeekFunction) (Message : FString) :
    (LogDebug st Message).filterMap Event.CompletedPayload = [] := by
  unfold LogDebug
  cases st.bDebug <;> simp [Event.CompletedPayload]

theorem LogDebug_filterMap_FailedPayload (st : UDeepSeekFunction) (Message : FString) :
    (LogDebug st Message).filterMap Event.FailedPayload = [] := by
  unfold LogDebug
  cases st.bDebug <;> simp [Event.FailedPayload]

theorem LogDebug_filter_IsTerminal (st : UDeepSeekFunction) (Message : FString) :
    (LogDebug st Message).filter Event.IsTerminal = [] := by
  unfold LogDebug
  cases st.bDebug <;> simp [Event.IsTerminal]

theorem LogDebug_Notifications (st : UDeepSeekFunction) (Message : FString) :
    Notifications (LogDebug st Message) = [] := by
  unfold LogDebug Notifications
  cases st.bDebug <;> simp [Event.IsNotification]

theorem HandleStreamLines_append (L : JsonLib) (st : UDeepSeekFunction)
    (Xs Ys : List FString) :
    HandleStreamLines L st (Xs ++ Ys) =
      ((HandleStreamLines L (HandleStreamLines L st Xs).1 Ys).1,
        (HandleStreamLines L st Xs).2 ++ (HandleStreamLines L (HandleStreamLines L st Xs).1 Ys).2) := by
  induction Xs generalizing st with
  | nil => simp [HandleStreamLines]
  | cons X Xs ih => simp [HandleStreamLines, ih, List.append_assoc]

/-- The accumulated buffer grows by the fragments of the lines, in order. -/
theorem HandleStreamLines_buffer (L : JsonLib) (st : UDeepSeekFunction) (Lines : List FString) :
    (HandleStreamLines L st Lines).1.AccumulatedStreamText =
      st.AccumulatedStreamText ++ (Lines.filterMap (Spec.LineFragment L)).flatten := by
  induction Lines generalizing st with
  | nil => simp [HandleStreamLines]
  | cons Line Lines ih =>
    simp only [HandleStreamLines]
    rw [ih]
    rcases HandleStreamLine_cases L st Line with ⟨_, hF, hR⟩ | ⟨_, Content, hF, hR⟩ | ⟨_, hF, hR⟩
    · rw [hR, List.filterMap_cons, hF]
      unfold MarkDone
      cases st.bIsRequestComplete <;> simp
    · rw [hR, List.filterMap_cons, hF]
      simp [AppendFragment, List.append_assoc]
    · rw [hR, List.filterMap_cons, hF]

/-- The `OnStream` payloads are the fragments of the lines, in order. -/
theorem HandleStreamLines_stream (L : JsonLib) (st : UDeepSeekFunction) (Lines : List FString) :
    (HandleStreamLines L st Lines).2.filterMap Event.StreamPayload =
      Lines.filterMap (Spec.LineFragment L) := by
  induction Lines generalizing st with
  | nil => simp [HandleStreamLines]
  | cons Line Lines ih =>
    simp only [HandleStreamLines, List.filterMap_append]
    rw [ih]
    rcases HandleStreamLine_cases L st Line with ⟨_, hF, hR⟩ | ⟨_, Content, hF, hR⟩ | ⟨_, hF, hR⟩
    · rw [hR, List.filterMap_cons, hF]
      unfold MarkDone
      cases st.bIsRequestComplete <;> simp [Event.StreamPayload]
    · rw [hR, List.filterMap_cons, hF]
      simp [AppendFragment, Event.StreamPayload, LogDebug_filterMap_StreamPayload]
    · rw [hR, List.filterMap_cons, hF]
      simp

/-- Stream handling never broadcasts `OnFailed`. -/
theorem HandleStreamLines_failed (L : JsonLib) (st : UDeepSeekFunction) (Lines : List FString) :
    (HandleStreamLines L st Lines).2.filterMap Event.FailedPayload = [] := by
  induction Lines generalizing st with
  | nil => simp [HandleStreamLines]
  | cons Line Lines ih =>
    simp only [HandleStreamLines, List.filterMap_append]
    rw [ih]
    rcases HandleStreamLine_cases L st Line with ⟨_, _, hR⟩ | ⟨_, Content, _, hR⟩ | ⟨_, _, hR⟩
    · rw [hR]
      unfold MarkDone
      cases st.bIsRequestComplete <;> simp [Event.FailedPayload]
    · rw [hR]
      simp [AppendFragment, Event.FailedPayload, LogDebug_filterMap_FailedPayload]
    · rw [hR]
      simp

/-- Stream handling leaves the teardown flag alone. -/
theorem HandleStreamLines_destroyed (L : JsonLib) (st : UDeepSeekFunction)
    (Lines : List FString) :
    (HandleStreamLines L st Lines).1.bIsBeingDestroyed = st.bIsBeingDestroyed := by
  induction Lines generalizing st with
  | nil => simp [HandleStreamLines]
  | cons Line Lines ih =>
    simp only [HandleStreamLines]
    rw [ih]
    rcases HandleStreamLine_cases L st Line with ⟨_, _, hR⟩ | ⟨_, Content, _, hR⟩ | ⟨_, _, hR⟩
    · rw [hR]
      unfold MarkDone
      cases st.bIsRequestComplete <;> simp
    · rw [hR]
      simp [AppendFragment]
    · rw [hR]

/-- Once the completion flag is set, stream handling keeps it set and broadcasts
no `OnCompleted`. -/
theorem HandleStreamLines_complete (L : JsonLib) (st : UDeepSeekFunction)
    (Lines : List FString) (hc : st.bIsRequestComplete = true) :
    (HandleStreamLines L st Lines).1.bIsRequestComplete = true ∧
      (HandleStreamLines L st Lines).2.filterMap Event.CompletedPayload = [] := by
  induction Lines generalizing st with
  | nil => simp [HandleStreamLines, hc]
  | cons Line Lines ih =>
    simp only [HandleStreamLines, List.filterMap_append]
    rcases HandleStreamLine_cases L st Line with ⟨_, _, hR⟩ | ⟨_, Content, _, hR⟩ | ⟨_, _, hR⟩
    · have hM : MarkDone st = (st, []) := by simp [MarkDone, hc]
      rw [hR, hM]
      simpa using ih st hc
    · rw [hR]
      have := ih (AppendFragment st Content).1 (by simpa [AppendFragment] using hc)
      refine ⟨this.1, ?_⟩
      rw [this.2]
      simp [AppendFragment, Event.CompletedPayload, LogDebug_filterMap_CompletedPayload]
    · rw [hR]
      simpa using ih st hc

/-- Lines without an end marker leave the completion flag alone and broadcast no
`OnCompleted`. -/
theorem HandleStreamLines_no_done (L : JsonLib) (st : UDeepSeekFunction)
    (Lines : List FString) (hn : ∀ Line ∈ Lines, Spec.IsDoneLine Line = false) :
    (HandleStreamLines L st Lines).1.bIsRequestComplete = st.bIsRequestComplete ∧
      (HandleStreamLines L st Lines).2.filterMap Event.CompletedPayload = [] := by
  induction Lines generalizing st with
  | nil => simp [HandleStreamLines]
  | cons Line Lines ih =>
    have hLine : Spec.IsDoneLine Line = false := hn Line (List.mem_cons_self _ _)
    have hRest : ∀ X ∈ Lines, Spec.IsDoneLine X = false :=
      fun X hX => hn X (List.mem_cons_of_mem _ hX)
    simp only [HandleStreamLines, List.filterMap_append]
    rcases HandleStreamLine_cases L st Line with ⟨hD, _, _⟩ | ⟨_, Content, _, hR⟩ | ⟨_, _, hR⟩
    · rw [hLine] at hD
      exact absurd hD (by simp)
    · rw [hR]
      have := ih (AppendFragment st Content).1 hRest
      refine ⟨by simpa [AppendFragment] using this.1, ?_⟩
      rw [this.2]
      simp [AppendFragment, Event.CompletedPayload, LogDebug_filterMap_CompletedPayload]
    · rw [hR]
      simpa using ih st hRest

/-- On a live request a chunk sequence is handled line by line. -/
theorem HandleStreamChunks_eq_lines (L : JsonLib) (st : UDeepSeekFunction)
    (Chunks : List FString) (hd : st.bIsBeingDestroyed = false) :
    HandleStreamChunks L st Chunks =
      HandleStreamLines L st (Chunks.flatMap FString.ParseIntoArrayLines) := by
  induction Chunks generalizing st with
  | nil => simp [HandleStreamChunks, HandleStreamLines]
  | cons Chunk Chunks ih =>
    simp only [HandleStreamChunks, HandleStreamData, hd, Bool.false_eq_true, if_false,
      List.flatMap_cons]
    rw [HandleStreamLines_append, ih]
    rw [HandleStreamLines_destroyed, hd]

/-- C1 (code defect): the completion flag does not guard every terminal broadcast.
After a stream that carried only `data: [DONE]`, a failed transport completion
broadcasts `OnFailed` on top of the `OnCompleted` already fired, and a successful
one broadcasts `OnCompleted` a second time: two terminal notifications each. -/
theorem C1_terminal_fires_twice :
    (HandleStreamChunks RefJson Sample.Fresh [TEXT "data: [DONE]\n"]).2 ++
        (OnProcessRequestComplete RefJson
          (HandleStreamChunks RefJson Sample.Fresh [TEXT "data: [DONE]\n"]).1 none false).2
      = [Event.OnCompleted [], Event.OnFailed (TEXT "Request failed")] ∧
    TerminalCount
      ((HandleStreamChunks RefJson Sample.Fresh [TEXT "data: [DONE]\n"]).2 ++
        (OnProcessRequestComplete RefJson
          (HandleStreamChunks RefJson Sample.Fresh [TEXT "data: [DONE]\n"]).1 none false).2)
      = 2 ∧
    (HandleStreamChunks RefJson Sample.Fresh [TEXT "data: [DONE]\n"]).2 ++
        (OnProcessRequestComplete RefJson
          (HandleStreamChunks RefJson Sample.Fresh [TEXT "data: [DONE]\n"]).1
          (some (FHttpResponse.mk 200 [])) true).2
      = [Event.OnCompleted [], Event.OnCompleted []] := by
  decide

theorem Spec.IsDoneLine_of_IsJsonDataLine (L : JsonLib) (Line : FString)
    (h : Spec.IsJsonDataLine L Line = true) : Spec.IsDoneLine Line = false := by
  unfold Spec.IsJsonDataLine at h
  unfold Spec.IsDoneLine
  cases hT : Spec.DataToken Line with
  | none => rfl
  | some Token =>
    rw [hT] at h
    simp at h
    simp [h.1]

theorem filter_IsTerminal_eq_nil (Events : List Event)
    (hc : Events.filterMap Event.CompletedPayload = [])
    (hf : Events.filterMap Event.FailedPayload = []) :
    Events.filter Event.IsTerminal = [] := by
  induction Events with
  | nil => rfl
  | cons E Events ih =>
    cases E <;>
      simp_all [Event.CompletedPayload, Event.FailedPayload, Event.IsTerminal,
        List.filterMap_cons]

/-- After teardown a chunk sequence changes nothing and broadcasts nothing. -/
theorem HandleStreamChunks_destroyed (L : JsonLib) (st : UDeepSeekFunction)
    (Chunks : List FString) (hd : st.bIsBeingDestroyed = true) :
    HandleStreamChunks L st Chunks = (st, []) := by
  induction Chunks with
  | nil => rfl
  | cons Chunk Chunks ih => simp [HandleStreamChunks, HandleStreamData, hd, ih]

/-- A stream whose only end marker is its last line: `OnCompleted` fires once, with
the concatenation of the fragments. -/
theorem HandleStreamLines_done_last (L : JsonLib) (st : UDeepSeekFunction)
    (Init : List FString) (Last : FString)
    (hflag : st.bIsRequestComplete = false)
    (hinit : ∀ Line ∈ Init, Spec.IsDoneLine Line = false)
    (hlast : Spec.IsDoneLine Last = true) :
    (HandleStreamLines L st (Init ++ [Last])).2.filterMap Event.CompletedPayload =
        [st.AccumulatedStreamText ++
          ((Init ++ [Last]).filterMap (Spec.LineFragment L)).flatten] ∧
      (HandleStreamLines L st (Init ++ [Last])).1.bIsRequestComplete = true := by
  have hI := HandleStreamLines_no_done L st Init hinit
  have hB := HandleStreamLines_buffer L st Init
  have hF : Spec.LineFragment L Last = none := Spec.LineFragment_of_IsDoneLine L Last hlast
  have hStep : HandleStreamLine L (HandleStreamLines L st Init).1 Last =
      MarkDone (HandleStreamLines L st Init).1 := by
    rw [HandleStreamLine_eq, hlast]
    simp
  have hM : MarkDone (HandleStreamLines L st Init).1 =
      ({ (HandleStreamLines L st Init).1 with bIsRequestComplete := true },
        [Event.OnCompleted (HandleStreamLines L st Init).1.AccumulatedStreamText]) := by
    simp [MarkDone, hI.1, hflag]
  rw [HandleStreamLines_append]
  simp only [HandleStreamLines, hStep, hM, List.filterMap_append, hI.2, hB, List.nil_append,
    List.append_nil, List.filterMap_cons, List.filterMap_nil, hF, Event.CompletedPayload]
  simp

/-- C2: on a live request with an empty buffer and a clear completion flag, a
chunk sequence in which every line is `data: <valid JSON>` except the last, which
is the only `data: [DONE]` line, makes `OnCompleted` fire exactly once, with the
concatenation in arrival order of the non-empty `choices[0].delta.content`
fragments; `OnFailed` does not fire and the request ends up terminal. -/
theorem C2_done_completes_once_with_concatenation (L : JsonLib) (st : UDeepSeekFunction)
    (Chunks Init : List FString) (Last : FString)
    (hbuf : st.AccumulatedStreamText = [])
    (hflag : st.bIsRequestComplete = false)
    (hlive : st.bIsBeingDestroyed = false)
    (hlines : Chunks.flatMap FString.ParseIntoArrayLines = Init ++ [Last])
    (hdata : ∀ Line ∈ Init, Spec.IsJsonDataLine L Line = true)
    (hlast : Spec.IsDoneLine Last = true) :
    (HandleStreamChunks L st Chunks).2.filterMap Event.CompletedPayload =
        [(Spec.Fragments L Chunks).flatten] ∧
      (HandleStreamChunks L st Chunks).2.filterMap Event.FailedPayload = [] ∧
      (HandleStreamChunks L st Chunks).1.bIsRequestComplete = true := by
  have hinit : ∀ Line ∈ Init, Spec.IsDoneLine Line = false :=
    fun Line hLine => Spec.IsDoneLine_of_IsJsonDataLine L Line (hdata Line hLine)
  have h := HandleStreamLines_done_last L st Init Last hflag hinit hlast
  rw [HandleStreamChunks_eq_lines L st Chunks hlive]
  unfold Spec.Fragments
  rw [hlines]
  refine ⟨?_, HandleStreamLines_failed L st _, h.2⟩
  rw [h.1, hbuf]
  simp

/-- C2 witness: the two-chunk stream `Hel`, `lo`, `[DONE]` on a fresh request
completes once with `Hello`. -/
theorem C2_done_completes_once_with_concatenation_witness :
    (Sample.Fresh.AccumulatedStreamText = [] ∧ Sample.Fresh.bIsRequestComplete = false ∧
      Sample.Fresh.bIsBeingDestroyed = false) ∧
    [Sample.DeltaHel ++ TEXT "\n\n" ++ Sample.DeltaLo ++ TEXT "\n",
        TEXT "\r\n" ++ Sample.DoneLine ++ TEXT "\n"].flatMap FString.ParseIntoArrayLines =
      [Sample.DeltaHel, Sample.DeltaLo] ++ [Sample.DoneLine] ∧
    (∀ Line ∈ [Sample.DeltaHel, Sample.DeltaLo], Spec.IsJsonDataLine RefJson Line = true) ∧
    Spec.IsDoneLine Sample.DoneLine = true ∧
    (Spec.Fragments RefJson
        [Sample.DeltaHel ++ TEXT "\n\n" ++ Sample.DeltaLo ++ TEXT "\n",
          TEXT "\r\n" ++ Sample.DoneLine ++ TEXT "\n"]).flatten = TEXT "Hello" ∧
    ((HandleStreamChunks RefJson Sample.Fresh
          [Sample.DeltaHel ++ TEXT "\n\n" ++ Sample.DeltaLo ++ TEXT "\n",
            TEXT "\r\n" ++ Sample.DoneLine ++ TEXT "\n"]).2.filterMap Event.CompletedPayload =
        [(Spec.Fragments RefJson
          [Sample.DeltaHel ++ TEXT "\n\n" ++ Sample.DeltaLo ++ TEXT "\n",
            TEXT "\r\n" ++ Sample.DoneLine ++ TEXT "\n"]).flatten] ∧
      (HandleStreamChunks RefJson Sample.Fresh
          [Sample.DeltaHel ++ TEXT "\n\n" ++ Sample.DeltaLo ++ TEXT "\n",
            TEXT "\r\n" ++ Sample.DoneLine ++ TEXT "\n"]).2.filterMap Event.FailedPayload = [] ∧
      (HandleStreamChunks RefJson Sample.Fresh
          [Sample.DeltaHel ++ TEXT "\n\n" ++ Sample.DeltaLo ++ TEXT "\n",
            TEXT "\r\n" ++ Sample.DoneLine ++ TEXT "\n"]).1.bIsRequestComplete = true) :=
  ⟨by decide, by decide, by decide, by decide, by decide,
    C2_done_completes_once_with_concatenation RefJson Sample.Fresh _
      [Sample.DeltaHel, Sample.DeltaLo] Sample.DoneLine (by decide) (by decide) (by decide)
      (by decide) (by decide) (by decide)⟩

/-- C3 counterexample: after `data: [DONE]` has made the request terminal, a later
chunk with a content line still broadcasts `OnStream`. -/
theorem C3_stream_delta_after_terminal :
    (HandleStreamData RefJson Sample.Fresh (Sample.DoneLine ++ TEXT "\n")).2.1.bIsRequestComplete
        = true ∧
      (HandleStreamData RefJson
          (HandleStreamData RefJson Sample.Fresh (Sample.DoneLine ++ TEXT "\n")).2.1
          (Sample.DeltaHel ++ TEXT "\n")).2.2 = [Event.OnStream (TEXT "Hel")] := by
  decide

/-- C3 (amended): once the completion flag is set, whatever chunks are handled
afterwards broadcast no terminal notification (`OnCompleted`, `OnFailed`) and
the flag stays set; on a live request `OnStream` still fires once for every
non-empty fragment of the later lines. -/
theorem C3_terminal_request_fires_no_terminal (L : JsonLib) (st : UDeepSeekFunction)
    (Chunks : List FString) (hc : st.bIsRequestComplete = true) :
    (HandleStreamChunks L st Chunks).2.filter Event.IsTerminal = [] ∧
      (HandleStreamChunks L st Chunks).1.bIsRequestComplete = true ∧
      (st.bIsBeingDestroyed = false →
        (HandleStreamChunks L st Chunks).2.filterMap Event.StreamPayload =
          Spec.Fragments L Chunks) := by
  cases hd : st.bIsBeingDestroyed with
  | true =>
    rw [HandleStreamChunks_destroyed L st Chunks hd]
    simp [hc]
  | false =>
    rw [HandleStreamChunks_eq_lines L st Chunks hd]
    have h := HandleStreamLines_complete L st (Chunks.flatMap FString.ParseIntoArrayLines) hc
    exact ⟨filter_IsTerminal_eq_nil _ h.2 (HandleStreamLines_failed L st _), h.1,
      fun _ => HandleStreamLines_stream L st _⟩

/-- C3 witness: a request made terminal by `data: [DONE]` then receives an end
marker and a content line. -/
theorem C3_terminal_request_fires_no_terminal_witness :
    (HandleStreamData RefJson Sample.Fresh (Sample.DoneLine ++ TEXT "\n")).2.1.bIsRequestComplete
        = true ∧
    ((HandleStreamChunks RefJson
          (HandleStreamData RefJson Sample.Fresh (Sample.DoneLine ++ TEXT "\n")).2.1
          [Sample.DoneLine ++ TEXT "\n" ++ Sample.DeltaHel]).2.filter Event.IsTerminal = [] ∧
      (HandleStreamChunks RefJson
          (HandleStreamData RefJson Sample.Fresh (Sample.DoneLine ++ TEXT "\n")).2.1
          [Sample.DoneLine ++ TEXT "\n" ++ Sample.DeltaHel]).1.bIsRequestComplete = true ∧
      ((HandleStreamData RefJson Sample.Fresh
          (Sample.DoneLine ++ TEXT "\n")).2.1.bIsBeingDestroyed = false →
        (HandleStreamChunks RefJson
          (HandleStreamData RefJson Sample.Fresh (Sample.DoneLine ++ TEXT "\n")).2.1
          [Sample.DoneLine ++ TEXT "\n" ++ Sample.DeltaHel]).2.filterMap Event.StreamPayload =
          Spec.Fragments RefJson [Sample.DoneLine ++ TEXT "\n" ++ Sample.DeltaHel])) :=
  ⟨by decide, C3_terminal_request_fires_no_terminal RefJson _ _ (by decide)⟩

/-- C4: on a live request the `OnStream` payloads of a chunk sequence are, in
order, the non-empty `choices[0].delta.content` strings of its parseable `data:`
lines, one broadcast per fragment carrying that fragment only, and the
accumulated buffer grows by the concatenation of those payloads. -/
theorem C4_stream_payloads_are_fragments (L : JsonLib) (st : UDeepSeekFunction)
    (Chunks : List FString) (hlive : st.bIsBeingDestroyed = false) :
    (HandleStreamChunks L st Chunks).2.filterMap Event.StreamPayload =
        Spec.Fragments L Chunks ∧
      (HandleStreamChunks L st Chunks).1.AccumulatedStreamText =
        st.AccumulatedStreamText ++
          ((HandleStreamChunks L st Chunks).2.filterMap Event.StreamPayload).flatten := by
  rw [HandleStreamChunks_eq_lines L st Chunks hlive, HandleStreamLines_stream,
    HandleStreamLines_buffer]
  exact ⟨rfl, rfl⟩

/-- C4 witness: a stream with two fragments, a malformed line and an end marker. -/
theorem C4_stream_payloads_are_fragments_witness :
    Sample.Fresh.bIsBeingDestroyed = false ∧
    Spec.Fragments RefJson
        [Sample.DeltaHel ++ TEXT "\n" ++ Sample.Malformed ++ TEXT "\n",
          Sample.DeltaLo ++ TEXT "\n" ++ Sample.DoneLine] = [TEXT "Hel", TEXT "lo"] ∧
    ((HandleStreamChunks RefJson Sample.Fresh
          [Sample.DeltaHel ++ TEXT "\n" ++ Sample.Malformed ++ TEXT "\n",
            Sample.DeltaLo ++ TEXT "\n" ++ Sample.DoneLine]).2.filterMap Event.StreamPayload =
        Spec.Fragments RefJson
          [Sample.DeltaHel ++ TEXT "\n" ++ Sample.Malformed ++ TEXT "\n",
            Sample.DeltaLo ++ TEXT "\n" ++ Sample.DoneLine] ∧
      (HandleStreamChunks RefJson Sample.Fresh
          [Sample.DeltaHel ++ TEXT "\n" ++ Sample.Malformed ++ TEXT "\n",
            Sample.DeltaLo ++ TEXT "\n" ++ Sample.DoneLine]).1.AccumulatedStreamText =
        Sample.Fresh.AccumulatedStreamText ++
          ((HandleStreamChunks RefJson Sample.Fresh
            [Sample.DeltaHel ++ TEXT "\n" ++ Sample.Malformed ++ TEXT "\n",
              Sample.DeltaLo ++ TEXT "\n" ++ Sample.DoneLine]).2.filterMap
            Event.StreamPayload).flatten) :=
  ⟨by decide, by decide, C4_stream_payloads_are_fragments RefJson Sample.Fresh _ (by decide)⟩

/-! ### Lines of a chunk -/

theorem ParseIntoArrayLinesFrom_append_ending (Cur A B : FString) (c : Char)
    (hc : FChar.IsLineEnding c = true) :
    FString.ParseIntoArrayLinesFrom Cur (A ++ c :: B) =
      FString.ParseIntoArrayLinesFrom Cur A ++ FString.ParseIntoArrayLines B := by
  induction A generalizing Cur with
  | nil =>
    cases hCur : Cur.isEmpty <;>
      simp [FString.ParseIntoArrayLinesFrom, FString.ParseIntoArrayLines, hc, hCur]
  | cons a A ih =>
    cases ha : FChar.IsLineEnding a with
    | false => simp [FString.ParseIntoArrayLinesFrom, ha, ih]
    | true =>
      cases hCur : Cur.isEmpty <;>
        simp [FString.ParseIntoArrayLinesFrom, ha, hCur, ih]

theorem ParseIntoArrayLines_append_ending (A B : FString) (c : Char)
    (hc : FChar.IsLineEnding c = true) :
    FString.ParseIntoArrayLines (A ++ c :: B) =
      FString.ParseIntoArrayLines A ++ FString.ParseIntoArrayLines B :=
  ParseIntoArrayLinesFrom_append_ending [] A B c hc

theorem ParseIntoArrayLinesFrom_single (Cur A : FString)
    (hA : ∀ c ∈ A, FChar.IsLineEnding c = false) :
    FString.ParseIntoArrayLinesFrom Cur A =
      if (Cur ++ A).isEmpty then [] else [Cur ++ A] := by
  induction A generalizing Cur with
  | nil => simp [FString.ParseIntoArrayLinesFrom]
  | cons a A ih =>
    have ha : FChar.IsLineEnding a = false := hA a (List.mem_cons_self _ _)
    have hA2 : ∀ c ∈ A, FChar.IsLineEnding c = false :=
      fun c hc => hA c (List.mem_cons_of_mem _ hc)
    simp [FString.ParseIntoArrayLinesFrom, ha, ih _ hA2]

/-- A non-empty text without line endings is a single line. -/
theorem ParseIntoArrayLines_single (A : FString) (hne : A ≠ [])
    (hA : ∀ c ∈ A, FChar.IsLineEnding c = false) :
    FString.ParseIntoArrayLines A = [A] := by
  unfold FString.ParseIntoArrayLines
  rw [ParseIntoArrayLinesFrom_single [] A hA]
  simp [hne]

/-- A `data:` line whose token is neither `[DONE]` nor parseable has no effect. -/
theorem HandleStreamLine_malformed (L : JsonLib) (st : UDeepSeekFunction)
    (Bad Token : FString)
    (htok : Spec.DataToken Bad = some Token)
    (hnd : Spec.IsDone Token = false)
    (hbad : L.Deserialize Token = none) :
    HandleStreamLine L st Bad = (st, []) := by
  rw [HandleStreamLine_eq]
  simp [Spec.IsDoneLine, Spec.LineFragment, Spec.ChoiceContent, htok, hnd, hbad]

theorem HandleStreamChunks_append (L : JsonLib) (st : UDeepSeekFunction)
    (Xs Ys : List FString) :
    HandleStreamChunks L st (Xs ++ Ys) =
      ((HandleStreamChunks L (HandleStreamChunks L st Xs).1 Ys).1,
        (HandleStreamChunks L st Xs).2 ++
          (HandleStreamChunks L (HandleStreamChunks L st Xs).1 Ys).2) := by
  induction Xs generalizing st with
  | nil => simp [HandleStreamChunks]
  | cons X Xs ih => simp [HandleStreamChunks, ih, List.append_assoc]

/-- Textual form of the insertion: a malformed `data:` line written between two
line feeds of a chunk does not change how the chunk is handled. -/
theorem HandleStreamData_insert_malformed (L : JsonLib) (st : UDeepSeekFunction)
    (Before After Bad Token : FString)
    (hline : ∀ c ∈ Bad, FChar.IsLineEnding c = false)
    (htok : Spec.DataToken Bad = some Token)
    (hnd : Spec.IsDone Token = false)
    (hbad : L.Deserialize Token = none) :
    HandleStreamData L st (Before ++ TEXT "\n" ++ Bad ++ TEXT "\n" ++ After) =
      HandleStreamData L st (Before ++ TEXT "\n" ++ After) := by
  have hne : Bad ≠ [] := by
    intro h
    rw [h, Spec.DataToken_nil] at htok
    exact absurd htok (by simp)
  have hn : FChar.IsLineEnding '\n' = true := by decide
  have hT : TEXT "\n" = ['\n'] := by decide
  have e1 : Before ++ TEXT "\n" ++ Bad ++ TEXT "\n" ++ After =
      Before ++ '\n' :: (Bad ++ '\n' :: After) := by simp [hT]
  have e2 : Before ++ TEXT "\n" ++ After = Before ++ '\n' :: After := by simp [hT]
  unfold HandleStreamData
  cases hd : st.bIsBeingDestroyed with
  | true => simp
  | false =>
    simp only [Bool.false_eq_true, if_false]
    rw [e1, e2, ParseIntoArrayLines_append_ending _ _ _ hn,
      ParseIntoArrayLines_append_ending _ _ _ hn, ParseIntoArrayLines_append_ending _ _ _ hn,
      ParseIntoArrayLines_single Bad hne hline]
    rw [HandleStreamLines_append, HandleStreamLines_append L st, HandleStreamLines_append]
    simp [HandleStreamLines, HandleStreamLine_malformed L _ Bad Token htok hnd hbad]

/-- Replacing one chunk of a sequence by a chunk that is handled alike in every
state does not change the run. -/
theorem HandleStreamChunks_middle (L : JsonLib) (st : UDeepSeekFunction)
    (Pre Post : List FString) (C1 C2 : FString)
    (h : ∀ s, HandleStreamData L s C1 = HandleStreamData L s C2) :
    HandleStreamChunks L st (Pre ++ [C1] ++ Post) =
      HandleStreamChunks L st (Pre ++ [C2] ++ Post) := by
  induction Pre generalizing st with
  | nil => simp [HandleStreamChunks, h]
  | cons X Pre ih =>
    have e : ∀ C : FString, (X :: Pre) ++ [C] ++ Post = X :: (Pre ++ [C] ++ Post) := by
      intro C
      simp
    rw [e, e]
    simp only [HandleStreamChunks]
    rw [ih]

/-- Inserting a malformed `data:` line into a sequence of lines does not change
what the loop of `HandleStreamData` does. -/
theorem HandleStreamLines_insert_malformed (L : JsonLib) (st : UDeepSeekFunction)
    (Xs Ys : List FString) (Bad Token : FString)
    (htok : Spec.DataToken Bad = some Token)
    (hnd : Spec.IsDone Token = false)
    (hbad : L.Deserialize Token = none) :
    HandleStreamLines L st (Xs ++ [Bad] ++ Ys) = HandleStreamLines L st (Xs ++ Ys) := by
  rw [List.append_assoc, HandleStreamLines_append, HandleStreamLines_append L st Xs Ys]
  simp [HandleStreamLines, HandleStreamLine_malformed L _ Bad Token htok hnd hbad]

/-- C5: let `Bad` be a `data:` line whose token is not `[DONE]` and fails to parse
as JSON.  Inserting `Bad` at any position of a sequence of lines changes neither
the state (with its accumulated buffer) nor the broadcasts of the line loop.
Hence a chunk `C2` whose lines are those of a chunk `C1` with `Bad` inserted is
handled by `HandleStreamData` exactly as `C1` (same signal, state, broadcasts),
also inside any chunk sequence, and on a live request `HandleStreamData` still
returns the continue signal. -/
theorem C5_malformed_line_is_swallowed (L : JsonLib) (st : UDeepSeekFunction)
    (Xs Ys : List FString) (Bad Token C1 C2 : FString) (Pre Post : List FString)
    (htok : Spec.DataToken Bad = some Token)
    (hnd : Spec.IsDone Token = false)
    (hbad : L.Deserialize Token = none)
    (hC1 : FString.ParseIntoArrayLines C1 = Xs ++ Ys)
    (hC2 : FString.ParseIntoArrayLines C2 = Xs ++ [Bad] ++ Ys) :
    HandleStreamLines L st (Xs ++ [Bad] ++ Ys) = HandleStreamLines L st (Xs ++ Ys) ∧
      HandleStreamData L st C2 = HandleStreamData L st C1 ∧
      HandleStreamChunks L st (Pre ++ [C2] ++ Post) =
        HandleStreamChunks L st (Pre ++ [C1] ++ Post) ∧
      (st.bIsBeingDestroyed = false → (HandleStreamData L st C2).1 = true) := by
  have hdata : ∀ s, HandleStreamData L s C2 = HandleStreamData L s C1 := by
    intro s
    unfold HandleStreamData
    rw [hC1, hC2, HandleStreamLines_insert_malformed L s Xs Ys Bad Token htok hnd hbad]
  refine ⟨HandleStreamLines_insert_malformed L st Xs Ys Bad Token htok hnd hbad, hdata st,
    HandleStreamChunks_middle L st Pre Post C2 C1 hdata, ?_⟩
  intro hd
  simp [HandleStreamData, hd]

/-- C5 witness: a malformed line inserted between a fragment line and the end
marker; the chunk still streams `Hel` and completes with `Hel`. -/
theorem C5_malformed_line_is_swallowed_witness :
    Spec.DataToken Sample.Malformed = some (TEXT "\x7b\"choices\":[oops") ∧
    Spec.IsDone (TEXT "\x7b\"choices\":[oops") = false ∧
    RefJson.Deserialize (TEXT "\x7b\"choices\":[oops") = none ∧
    FString.ParseIntoArrayLines (Sample.DeltaHel ++ TEXT "\n" ++ Sample.DoneLine) =
      [Sample.DeltaHel] ++ [Sample.DoneLine] ∧
    FString.ParseIntoArrayLines
        (Sample.DeltaHel ++ TEXT "\n" ++ Sample.Malformed ++ TEXT "\n" ++ Sample.DoneLine) =
      [Sample.DeltaHel] ++ [Sample.Malformed] ++ [Sample.DoneLine] ∧
    (HandleStreamData RefJson Sample.Fresh
        (Sample.DeltaHel ++ TEXT "\n" ++ Sample.Malformed ++ TEXT "\n" ++ Sample.DoneLine)).2.2 =
      [Event.OnStream (TEXT "Hel"), Event.OnCompleted (TEXT "Hel")] ∧
    (HandleStreamLines RefJson Sample.Fresh
          ([Sample.DeltaHel] ++ [Sample.Malformed] ++ [Sample.DoneLine]) =
        HandleStreamLines RefJson Sample.Fresh ([Sample.DeltaHel] ++ [Sample.DoneLine]) ∧
      HandleStreamData RefJson Sample.Fresh
          (Sample.DeltaHel ++ TEXT "\n" ++ Sample.Malformed ++ TEXT "\n" ++ Sample.DoneLine) =
        HandleStreamData RefJson Sample.Fresh
          (Sample.DeltaHel ++ TEXT "\n" ++ Sample.DoneLine) ∧
      HandleStreamChunks RefJson Sample.Fresh
          ([Sample.DeltaLo] ++
            [Sample.DeltaHel ++ TEXT "\n" ++ Sample.Malformed ++ TEXT "\n" ++ Sample.DoneLine] ++
            [Sample.DoneLine]) =
        HandleStreamChunks RefJson Sample.Fresh
          ([Sample.DeltaLo] ++ [Sample.DeltaHel ++ TEXT "\n" ++ Sample.DoneLine] ++
            [Sample.DoneLine]) ∧
      (Sample.Fresh.bIsBeingDestroyed = false →
        (HandleStreamData RefJson Sample.Fresh
          (Sample.DeltaHel ++ TEXT "\n" ++ Sample.Malformed ++ TEXT "\n" ++
            Sample.DoneLine)).1 = true)) :=
  ⟨by decide, by decide, rfl, by decide, by decide, by decide,
    C5_malformed_line_is_swallowed RefJson Sample.Fresh [Sample.DeltaHel] [Sample.DoneLine]
      Sample.Malformed (TEXT "\x7b\"choices\":[oops")
      (Sample.DeltaHel ++ TEXT "\n" ++ Sample.DoneLine)
      (Sample.DeltaHel ++ TEXT "\n" ++ Sample.Malformed ++ TEXT "\n" ++ Sample.DoneLine)
      [Sample.DeltaLo] [Sample.DoneLine] (by decide) (by decide) rfl (by decide) (by decide)⟩

/-! ### Completion handling -/

theorem ExtractContentFromResponse_eq (L : JsonLib) (Body : FString) :
    ExtractContentFromResponse L Body = Spec.MessageContentOrRaw L Body := by
  unfold ExtractContentFromResponse Spec.MessageContentOrRaw Spec.ChoiceContent
  cases hP : L.Deserialize Body with
  | none => simp
  | some Root =>
    cases hC : L.TryGetArrayField Root (TEXT "choices") with
    | none => simp [hC]
    | some Choices =>
      cases Choices with
      | nil => simp [hC]
      | cons Choice Rest =>
        cases hO : L.TryGetObjectField (L.AsObject Choice) (TEXT "message") with
        | none => simp [hC, hO]
        | some Inner =>
          cases hT : L.TryGetStringField Inner (TEXT "content") with
          | none => simp [hC, hO, hT]
          | some Content => simp [hC, hO, hT]

theorem Notifications_append (Xs Ys : List Event) :
    Notifications (Xs ++ Ys) = Notifications Xs ++ Notifications Ys := by
  simp [Notifications]

/-- The non-streaming success branch of the completion handler. -/
theorem OnProcessRequestComplete_non_streaming (L : JsonLib) (st : UDeepSeekFunction)
    (R : FHttpResponse)
    (hlive : st.bIsBeingDestroyed = false)
    (hbuf : st.AccumulatedStreamText = [])
    (hne : Spec.HasTopLevelError L R.Content = false) :
    Notifications (OnProcessRequestComplete L st (some R) true).2 =
      [Event.OnCompleted (Spec.MessageContentOrRaw L R.Content)] := by
  unfold OnProcessRequestComplete
  unfold Spec.HasTopLevelError at hne
  cases hP : L.Deserialize R.Content with
  | none =>
    simp [hlive, hbuf, FString.IsEmpty, hP, Notifications_append, LogDebug_Notifications,
      Spec.MessageContentOrRaw, Spec.ChoiceContent]
    simp [Notifications, Event.IsNotification]
  | some Root =>
    rw [hP] at hne
    simp at hne
    simp [hlive, hbuf, FString.IsEmpty, hP, hne, Notifications_append,
      LogDebug_Notifications, ExtractContentFromResponse_eq]
    simp [Notifications, Event.IsNotification]

/-- C6: a successful transport completion on a live request with an empty
accumulated buffer, whose body carries no top-level `error` field, broadcasts
exactly `OnCompleted` with `choices[0].message.content` when the body parses and
that path yields a string, and with the raw body text otherwise; no other
response notification fires. -/
theorem C6_non_streaming_success_content (L : JsonLib) (st : UDeepSeekFunction)
    (R : FHttpResponse)
    (hlive : st.bIsBeingDestroyed = false)
    (hbuf : st.AccumulatedStreamText = [])
    (hne : Spec.HasTopLevelError L R.Content = false) :
    Notifications (OnProcessRequestComplete L st (some R) true).2 =
        [Event.OnCompleted (Spec.MessageContentOrRaw L R.Content)] ∧
      (∀ Content, Spec.ChoiceContent L (TEXT "message") R.Content = some Content →
        Notifications (OnProcessRequestComplete L st (some R) true).2 =
          [Event.OnCompleted Content]) ∧
      (Spec.ChoiceContent L (TEXT "message") R.Content = none →
        Notifications (OnProcessRequestComplete L st (some R) true).2 =
          [Event.OnCompleted R.Content]) := by
  have main := OnProcessRequestComplete_non_streaming L st R hlive hbuf hne
  refine ⟨main, ?_, ?_⟩
  · intro Content hContent
    rw [main]
    simp [Spec.MessageContentOrRaw, hContent]
  · intro hNone
    rw [main]
    simp [Spec.MessageContentOrRaw, hNone]

/-- C6 witness: the success body of the specification yields `OnCompleted("hi")`. -/
theorem C6_non_streaming_success_content_witness :
    Sample.Fresh.bIsBeingDestroyed = false ∧ Sample.Fresh.AccumulatedStreamText = [] ∧
    Spec.HasTopLevelError RefJson (FHttpResponse.mk 200 Sample.BodyHi).Content = false ∧
    Spec.MessageContentOrRaw RefJson Sample.BodyHi = TEXT "hi" ∧
    (OnProcessRequestComplete RefJson Sample.Fresh
        (some (FHttpResponse.mk 200 Sample.BodyHi)) true).2 = [Event.OnCompleted (TEXT "hi")] ∧
    (Notifications (OnProcessRequestComplete RefJson Sample.Fresh
          (some (FHttpResponse.mk 200 Sample.BodyHi)) true).2 =
        [Event.OnCompleted
          (Spec.MessageContentOrRaw RefJson (FHttpResponse.mk 200 Sample.BodyHi).Content)] ∧
      (∀ Content,
        Spec.ChoiceContent RefJson (TEXT "message") (FHttpResponse.mk 200 Sample.BodyHi).Content =
            some Content →
          Notifications (OnProcessRequestComplete RefJson Sample.Fresh
            (some (FHttpResponse.mk 200 Sample.BodyHi)) true).2 = [Event.OnCompleted Content]) ∧
      (Spec.ChoiceContent RefJson (TEXT "message") (FHttpResponse.mk 200 Sample.BodyHi).Content =
          none →
        Notifications (OnProcessRequestComplete RefJson Sample.Fresh
          (some (FHttpResponse.mk 200 Sample.BodyHi)) true).2 =
          [Event.OnCompleted (FHttpResponse.mk 200 Sample.BodyHi).Content])) :=
  ⟨by decide, by decide, by decide, by decide, by decide,
    C6_non_streaming_success_content RefJson Sample.Fresh (FHttpResponse.mk 200 Sample.BodyHi)
      (by decide) (by decide) (by decide)⟩

/-- C7: a successful transport completion on a live request with an empty
accumulated buffer, whose body parses as JSON with a top-level `error` field,
broadcasts exactly `OnFailed` and never `OnCompleted`: with `error.message` when
`error` is an object with a string `message`, else with `Unknown API error`. -/
theorem C7_api_error_fails (L : JsonLib) (st : UDeepSeekFunction) (R : FHttpResponse)
    (hlive : st.bIsBeingDestroyed = false)
    (hbuf : st.AccumulatedStreamText = [])
    (herr : Spec.HasTopLevelError L R.Content = true) :
    Notifications (OnProcessRequestComplete L st (some R) true).2 =
        [Event.OnFailed (Spec.ApiErrorMessage L R.Content)] ∧
      (OnProcessRequestComplete L st (some R) true).2.filterMap Event.CompletedPayload = [] := by
  unfold Spec.HasTopLevelError at herr
  unfold OnProcessRequestComplete Spec.ApiErrorMessage
  cases hP : L.Deserialize R.Content with
  | none =>
    rw [hP] at herr
    exact absurd herr (by simp)
  | some Root =>
    rw [hP] at herr
    simp only at herr
    cases hM : (L.TryGetObjectField Root (TEXT "error")).bind
        (fun ErrorObj => L.TryGetStringField ErrorObj (TEXT "message")) with
    | none =>
      simp [hlive, hbuf, FString.IsEmpty, hP, herr, hM, Notifications_append,
        LogDebug_Notifications, LogDebug_filterMap_CompletedPayload, Event.CompletedPayload]
      simp [Notifications, Event.IsNotification]
    | some Message =>
      have hN : ∀ Xs : List Event,
          Notifications (Event.OnFailed Message :: Xs) =
            Event.OnFailed Message :: Notifications Xs := by
        intro Xs
        simp [Notifications, Event.IsNotification]
      simp [hlive, hbuf, FString.IsEmpty, hP, herr, hM, Notifications_append, hN,
        LogDebug_Notifications, LogDebug_filterMap_CompletedPayload, Event.CompletedPayload]

/-- C7 witness: the error body of the specification yields `OnFailed("bad key")`. -/
theorem C7_api_error_fails_witness :
    Sample.Fresh.bIsBeingDestroyed = false ∧ Sample.Fresh.AccumulatedStreamText = [] ∧
    Spec.HasTopLevelError RefJson (FHttpResponse.mk 200 Sample.BodyBadKey).Content = true ∧
    Spec.ApiErrorMessage RefJson Sample.BodyBadKey = TEXT "bad key" ∧
    (OnProcessRequestComplete RefJson Sample.Fresh
        (some (FHttpResponse.mk 200 Sample.BodyBadKey)) true).2 =
      [Event.OnFailed (TEXT "bad key")] ∧
    (Notifications (OnProcessRequestComplete RefJson Sample.Fresh
          (some (FHttpResponse.mk 200 Sample.BodyBadKey)) true).2 =
        [Event.OnFailed
          (Spec.ApiErrorMessage RefJson (FHttpResponse.mk 200 Sample.BodyBadKey).Content)] ∧
      (OnProcessRequestComplete RefJson Sample.Fresh
          (some (FHttpResponse.mk 200 Sample.BodyBadKey)) true).2.filterMap
        Event.CompletedPayload = []) :=
  ⟨by decide, by decide, by decide, by decide, by decide,
    C7_api_error_fails RefJson Sample.Fresh (FHttpResponse.mk 200 Sample.BodyBadKey)
      (by decide) (by decide) (by decide)⟩

/-- C8 (code defect): the completion handler keeps the transport handle in the
branches that return early.  On a fresh request, a failed transport completion
(without and with a response object) and a successful completion with an API
error body all leave `HttpRequestRef` set, while a successful completion with a
content body resets it. -/
theorem C8_handle_kept_on_early_return :
    Sample.Fresh.bIsBeingDestroyed = false ∧
    Sample.Fresh.HttpRequestRef.isSome = true ∧
    (OnProcessRequestComplete RefJson Sample.Fresh none false).1.HttpRequestRef.isSome = true ∧
    (OnProcessRequestComplete RefJson Sample.Fresh
        (some (FHttpResponse.mk 500 (TEXT "oops"))) false).1.HttpRequestRef.isSome = true ∧
    (OnProcessRequestComplete RefJson Sample.Fresh
        (some (FHttpResponse.mk 200 Sample.BodyBadKey)) true).1.HttpRequestRef.isSome = true ∧
    (OnProcessRequestComplete RefJson Sample.Fresh
        (some (FHttpResponse.mk 200 Sample.BodyHi)) true).1.HttpRequestRef.isSome = false := by
  decide

/-! ### Teardown -/

/-- After teardown every transport signal broadcasts nothing and leaves the
teardown flag, the accumulated buffer and the completion flag as they are. -/
theorem Deliver_destroyed (L : JsonLib) (st : UDeepSeekFunction) (Signal : FTransportSignal)
    (hd : st.bIsBeingDestroyed = true) :
    (Deliver L st Signal).2 = [] ∧
      (Deliver L st Signal).1.bIsBeingDestroyed = true ∧
      (Deliver L st Signal).1.AccumulatedStreamText = st.AccumulatedStreamText ∧
      (Deliver L st Signal).1.bIsRequestComplete = st.bIsRequestComplete := by
  cases Signal with
  | Chunk Data Length => simp [Deliver, StreamDelegate, hd]
  | Complete Response bWasSuccessful =>
    simp only [Deliver, OnProcessRequestComplete, hd, if_true, SafeRemoveFromRoot]
    cases st.bRooted <;> simp [hd]

theorem DeliverAll_destroyed (L : JsonLib) (st : UDeepSeekFunction)
    (Signals : List FTransportSignal) (hd : st.bIsBeingDestroyed = true) :
    (DeliverAll L st Signals).2 = [] ∧
      (DeliverAll L st Signals).1.bIsBeingDestroyed = true ∧
      (DeliverAll L st Signals).1.AccumulatedStreamText = st.AccumulatedStreamText ∧
      (DeliverAll L st Signals).1.bIsRequestComplete = st.bIsRequestComplete := by
  induction Signals generalizing st with
  | nil => simp [DeliverAll, hd]
  | cons Signal Signals ih =>
    have h1 := Deliver_destroyed L st Signal hd
    have h2 := ih (Deliver L st Signal).1 h1.2.1
    simp only [DeliverAll]
    refine ⟨by rw [h1.1, h2.1]; rfl, h2.2.1, ?_, ?_⟩
    · rw [h2.2.2.1, h1.2.2.1]
    · rw [h2.2.2.2, h1.2.2.2]

theorem BeginDestroy_of_handle (st : UDeepSeekFunction) (Handle : IHttpRequest)
    (hh : st.HttpRequestRef = some Handle) :
    BeginDestroy st =
      (SafeRemoveFromRoot { st with bIsBeingDestroyed := true, HttpRequestRef := none },
        [Event.CancelRequest]) := by
  simp [BeginDestroy, hh]

theorem SafeRemoveFromRoot_fields (st : UDeepSeekFunction) :
    (SafeRemoveFromRoot st).bIsBeingDestroyed = st.bIsBeingDestroyed ∧
      (SafeRemoveFromRoot st).AccumulatedStreamText = st.AccumulatedStreamText ∧
      (SafeRemoveFromRoot st).bIsRequestComplete = st.bIsRequestComplete ∧
      (SafeRemoveFromRoot st).HttpRequestRef = st.HttpRequestRef := by
  unfold SafeRemoveFromRoot
  cases st.bRooted <;> simp

/-- C9: teardown of a request that still holds its transport handle broadcasts
nothing but sends `CancelRequest` to the handle and releases it; afterwards any
sequence of stream chunks and completion signals broadcasts nothing and leaves
the accumulated buffer and the completion flag as they were, and the chunk
callback (the stream delegate as well as `HandleStreamData` itself) returns the
stop signal. -/
theorem C9_teardown_silences_request (L : JsonLib) (st : UDeepSeekFunction)
    (Handle : IHttpRequest) (Signals : List FTransportSignal) (Data : FString) (Length : Int)
    (hh : st.HttpRequestRef = some Handle) :
    (BeginDestroy st).2 = [Event.CancelRequest] ∧
      Notifications (BeginDestroy st).2 = [] ∧
      (BeginDestroy st).1.HttpRequestRef = none ∧
      (BeginDestroy st).1.AccumulatedStreamText = st.AccumulatedStreamText ∧
      (BeginDestroy st).1.bIsRequestComplete = st.bIsRequestComplete ∧
      (DeliverAll L (BeginDestroy st).1 Signals).2 = [] ∧
      (DeliverAll L (BeginDestroy st).1 Signals).1.AccumulatedStreamText =
        st.AccumulatedStreamText ∧
      (DeliverAll L (BeginDestroy st).1 Signals).1.bIsRequestComplete =
        st.bIsRequestComplete ∧
      StreamDelegate L (DeliverAll L (BeginDestroy st).1 Signals).1 Data Length =
        (false, (DeliverAll L (BeginDestroy st).1 Signals).1, []) ∧
      HandleStreamData L (DeliverAll L (BeginDestroy st).1 Signals).1 Data =
        (false, (DeliverAll L (BeginDestroy st).1 Signals).1, []) := by
  have hB := BeginDestroy_of_handle st Handle hh
  have hF := SafeRemoveFromRoot_fields
    { st with bIsBeingDestroyed := true, HttpRequestRef := none }
  have hd : (BeginDestroy st).1.bIsBeingDestroyed = true := by
    rw [hB]
    exact hF.1
  have hAll := DeliverAll_destroyed L (BeginDestroy st).1 Signals hd
  have hbuf : (BeginDestroy st).1.AccumulatedStreamText = st.AccumulatedStreamText := by
    rw [hB]
    exact hF.2.1
  have hflag : (BeginDestroy st).1.bIsRequestComplete = st.bIsRequestComplete := by
    rw [hB]
    exact hF.2.2.1
  refine ⟨by rw [hB], ?_, ?_, hbuf, hflag, hAll.1, ?_, ?_, ?_, ?_⟩
  · rw [hB]
    simp [Notifications, Event.IsNotification]
  · rw [hB]
    exact hF.2.2.2
  · rw [hAll.2.2.1, hbuf]
  · rw [hAll.2.2.2, hflag]
  · simp [StreamDelegate, hAll.2.1]
  · simp [HandleStreamData, hAll.2.1]

/-- C9 witness: a fresh request that received one fragment is torn down; a late
fragment chunk, an end marker and a successful completion then stay silent. -/
theorem C9_teardown_silences_request_witness :
    (∃ Handle, (HandleStreamData RefJson Sample.Fresh Sample.DeltaHel).2.1.HttpRequestRef =
      some Handle) ∧
    (HandleStreamData RefJson Sample.Fresh Sample.DeltaHel).2.1.AccumulatedStreamText =
      TEXT "Hel" ∧
    ((BeginDestroy (HandleStreamData RefJson Sample.Fresh Sample.DeltaHel).2.1).2 =
        [Event.CancelRequest] ∧
      (DeliverAll RefJson (BeginDestroy (HandleStreamData RefJson Sample.Fresh
          Sample.DeltaHel).2.1).1
        [FTransportSignal.Chunk Sample.DeltaLo 64, FTransportSignal.Chunk Sample.DoneLine 12,
          FTransportSignal.Complete (some (FHttpResponse.mk 200 [])) true]).2 = [] ∧
      (DeliverAll RefJson (BeginDestroy (HandleStreamData RefJson Sample.Fresh
          Sample.DeltaHel).2.1).1
        [FTransportSignal.Chunk Sample.DeltaLo 64, FTransportSignal.Chunk Sample.DoneLine 12,
          FTransportSignal.Complete (some (FHttpResponse.mk 200 [])) true]).1.AccumulatedStreamText
        = TEXT "Hel") := by
  obtain ⟨Handle, hh⟩ :
      ∃ Handle, (HandleStreamData RefJson Sample.Fresh Sample.DeltaHel).2.1.HttpRequestRef =
        some Handle := ⟨_, rfl⟩
  have hbuf : (HandleStreamData RefJson Sample.Fresh Sample.DeltaHel).2.1.AccumulatedStreamText =
      TEXT "Hel" := by decide
  have h := C9_teardown_silences_request RefJson
    (HandleStreamData RefJson Sample.Fresh Sample.DeltaHel).2.1 Handle
    [FTransportSignal.Chunk Sample.DeltaLo 64, FTransportSignal.Chunk Sample.DoneLine 12,
      FTransportSignal.Complete (some (FHttpResponse.mk 200 [])) true] Sample.DeltaLo 64 hh
  exact ⟨⟨Handle, hh⟩, hbuf, h.1, h.2.2.2.2.2.1, by rw [h.2.2.2.2.2.2.1, hbuf]⟩

/-! ### Session input validation -/

/-- C10 counterexample: a session in teardown answers `SendMessage` with an
empty API key by doing nothing; no `OnFailed` fires. -/
theorem C10_torn_down_session_is_silent :
    Sample.TornDownSession.Chat.bIsBeingDestroyed = true ∧
      (USimpleChat.SendMessage RefJson Sample.TornDownSession [] (TEXT "hello") []
        (TEXT "deepseek-chat") (7 / 10)).2 = [] ∧
      (USimpleChat.SendMessage RefJson Sample.TornDownSession (TEXT "sk-test") [] []
        (TEXT "deepseek-chat") (7 / 10)).2 = [] := by
  decide

/-- C10 (amended): on a session that is not in teardown, `SendMessage` with an
empty message or an empty API key broadcasts exactly one notification, an
`OnFailed`, and returns the world unchanged: no request object is created, and
the history, the scratch buffer and the in-flight request reference are as
before. -/
theorem C10_invalid_send_is_rejected (L : JsonLib) (W : FWorld)
    (APIKey Message SystemPrompt ModelName : FString) (Temperature : ℚ)
    (hlive : W.Chat.bIsBeingDestroyed = false)
    (hempty : Message = [] ∨ APIKey = []) :
    (USimpleChat.SendMessage L W APIKey Message SystemPrompt ModelName Temperature).2 =
        [Event.OnFailed
          (if Message = [] then TEXT "Cannot send empty message"
            else TEXT "API Key is required")] ∧
      (USimpleChat.SendMessage L W APIKey Message SystemPrompt ModelName Temperature).1 = W := by
  unfold USimpleChat.SendMessage
  by_cases hM : Message = []
  · simp [hlive, hM, FString.IsEmpty]
  · have hK : APIKey = [] := hempty.resolve_left hM
    simp [hlive, hM, hK, FString.IsEmpty]

/-- C10 witness: the empty API key call of the specification on a new session. -/
theorem C10_invalid_send_is_rejected_witness :
    USimpleChat.CreateChatInstance.Chat.bIsBeingDestroyed = false ∧
    (TEXT "hello" = [] ∨ ([] : FString) = []) ∧
    ((USimpleChat.SendMessage RefJson USimpleChat.CreateChatInstance [] (TEXT "hello") []
          (TEXT "deepseek-chat") (7 / 10)).2 =
        [Event.OnFailed
          (if TEXT "hello" = [] then TEXT "Cannot send empty message"
            else TEXT "API Key is required")] ∧
      (USimpleChat.SendMessage RefJson USimpleChat.CreateChatInstance [] (TEXT "hello") []
          (TEXT "deepseek-chat") (7 / 10)).1 = USimpleChat.CreateChatInstance) :=
  ⟨by decide, Or.inr rfl,
    C10_invalid_send_is_rejected RefJson USimpleChat.CreateChatInstance [] (TEXT "hello") []
      (TEXT "deepseek-chat") (7 / 10) (by decide) (Or.inr rfl)⟩

/-! ### Starting a turn -/

theorem CleanupCurrentRequest_history (W : FWorld) :
    (USimpleChat.CleanupCurrentRequest W).Chat.ChatHistory = W.Chat.ChatHistory := by
  unfold USimpleChat.CleanupCurrentRequest
  cases W.Chat.ApiRequest <;> rfl

theorem CleanupCurrentRequest_request (W : FWorld) :
    (USimpleChat.CleanupCurrentRequest W).Chat.ApiRequest = none := by
  unfold USimpleChat.CleanupCurrentRequest
  cases h : W.Chat.ApiRequest with
  | none => exact h
  | some Id => rfl

theorem CleanupCurrentRequest_scratch (W : FWorld) :
    (USimpleChat.CleanupCurrentRequest W).Chat.AccumulatedResponse =
      W.Chat.AccumulatedResponse := by
  unfold USimpleChat.CleanupCurrentRequest
  cases W.Chat.ApiRequest <;> rfl

theorem CleanupCurrentRequest_destroyed (W : FWorld) :
    (USimpleChat.CleanupCurrentRequest W).Chat.bIsBeingDestroyed =
      W.Chat.bIsBeingDestroyed := by
  unfold USimpleChat.CleanupCurrentRequest
  cases W.Chat.ApiRequest <;> rfl

theorem UpdateObject_length (Objects : List UDeepSeekFunction) (Id : Nat)
    (f : UDeepSeekFunction → UDeepSeekFunction) :
    (FWorld.UpdateObject Objects Id f).length = Objects.length := by
  unfold FWorld.UpdateObject
  cases Objects[Id]? <;> simp

theorem CleanupCurrentRequest_length (W : FWorld) :
    (USimpleChat.CleanupCurrentRequest W).Objects.length = W.Objects.length := by
  unfold USimpleChat.CleanupCurrentRequest
  cases W.Chat.ApiRequest with
  | none => rfl
  | some Id => exact UpdateObject_length _ _ _

/-- A valid `SendMessage` spelled out: the scratch buffer is reset, the previous
request is detached, the history grows, and a new request built from the new
history is appended to the object store and attached. -/
theorem SendMessage_valid (L : JsonLib) (W : FWorld)
    (APIKey Message SystemPrompt ModelName : FString) (Temperature : ℚ)
    (hlive : W.Chat.bIsBeingDestroyed = false) (hM : Message ≠ []) (hK : APIKey ≠ []) :
    USimpleChat.SendMessage L W APIKey Message SystemPrompt ModelName Temperature =
      ({ Chat :=
          { ChatHistory := Spec.HistoryAfterSend W.Chat.ChatHistory Message SystemPrompt
            ApiRequest := some W.Objects.length
            AccumulatedResponse := []
            bIsBeingDestroyed := false }
         Objects :=
          (USimpleChat.CleanupCurrentRequest W).Objects ++
            [AddChatHandlers (SendRequest L (USimpleChat.MakeParams APIKey ModelName
              (Spec.HistoryAfterSend W.Chat.ChatHistory Message SystemPrompt) Temperature)).1] },
        []) := by
  have hM2 : Message.isEmpty = false := by simpa using hM
  have hK2 : APIKey.isEmpty = false := by simpa using hK
  rcases W with ⟨⟨H, R, A, D⟩, Objs⟩
  simp only at hlive
  subst hlive
  unfold USimpleChat.SendMessage Spec.HistoryAfterSend USimpleChat.MakeParams
  cases R with
  | none =>
    by_cases hH : H = []
    · by_cases hS : SystemPrompt = []
      · simp [hH, hS, hM2, hK2, FString.IsEmpty, USimpleChat.CleanupCurrentRequest]
      · simp [hH, hS, hM2, hK2, FString.IsEmpty, USimpleChat.CleanupCurrentRequest]
    · simp [hH, hM2, hK2, FString.IsEmpty, USimpleChat.CleanupCurrentRequest]
  | some Id =>
    by_cases hH : H = []
    · by_cases hS : SystemPrompt = []
      · simp [hH, hS, hM2, hK2, FString.IsEmpty, USimpleChat.CleanupCurrentRequest,
          UpdateObject_length]
      · simp [hH, hS, hM2, hK2, FString.IsEmpty, USimpleChat.CleanupCurrentRequest,
          UpdateObject_length]
    · simp [hH, hM2, hK2, FString.IsEmpty, USimpleChat.CleanupCurrentRequest,
        UpdateObject_length]

theorem SendMessage_object (L : JsonLib) (W : FWorld)
    (APIKey Message SystemPrompt ModelName : FString) (Temperature : ℚ)
    (hlive : W.Chat.bIsBeingDestroyed = false) (hM : Message ≠ []) (hK : APIKey ≠ []) :
    (USimpleChat.SendMessage L W APIKey Message SystemPrompt ModelName
        Temperature).1.Objects[W.Objects.length]? =
      some (AddChatHandlers (SendRequest L (USimpleChat.MakeParams APIKey ModelName
        (Spec.HistoryAfterSend W.Chat.ChatHistory Message SystemPrompt) Temperature)).1) := by
  rw [SendMessage_valid L W APIKey Message SystemPrompt ModelName Temperature hlive hM hK]
  simp only
  rw [← CleanupCurrentRequest_length W]
  simp

/-- C11: a valid `SendMessage` (non-empty message and API key, session not in
teardown) on history `H` makes the history `H ++ [system:SystemPrompt, user:Message]`
when `H` is empty and the prompt is non-empty, and `H ++ [user:Message]` otherwise;
it attaches a new request built from exactly this history with streaming on,
whose body is the serialized object of those parameters, and broadcasts
nothing.  So a first call with a prompt on an empty history yields
`[system, user]`, and a second valid call right after it appends one `user`
Message only, whatever prompt it supplies. -/
theorem C11_valid_send_extends_history (L : JsonLib) (W : FWorld)
    (APIKey Message SystemPrompt ModelName : FString) (Temperature : ℚ)
    (APIKey2 Message2 SystemPrompt2 ModelName2 : FString) (Temperature2 : ℚ)
    (hlive : W.Chat.bIsBeingDestroyed = false) (hM : Message ≠ []) (hK : APIKey ≠ [])
    (hM2 : Message2 ≠ []) (hK2 : APIKey2 ≠ []) :
    (USimpleChat.SendMessage L W APIKey Message SystemPrompt ModelName
        Temperature).1.Chat.ChatHistory =
        (if W.Chat.ChatHistory = [] ∧ SystemPrompt ≠ [] then
          W.Chat.ChatHistory ++ [FDeepSeekMessage.mk (TEXT "system") SystemPrompt,
            FDeepSeekMessage.mk (TEXT "user") Message]
        else W.Chat.ChatHistory ++ [FDeepSeekMessage.mk (TEXT "user") Message]) ∧
      (USimpleChat.SendMessage L W APIKey Message SystemPrompt ModelName Temperature).2 = [] ∧
      (USimpleChat.SendMessage L W APIKey Message SystemPrompt ModelName
        Temperature).1.Chat.ApiRequest = some W.Objects.length ∧
      (USimpleChat.SendMessage L W APIKey Message SystemPrompt ModelName
        Temperature).1.Objects[W.Objects.length]? =
        some (AddChatHandlers (SendRequest L (USimpleChat.MakeParams APIKey ModelName
          (USimpleChat.SendMessage L W APIKey Message SystemPrompt ModelName
            Temperature).1.Chat.ChatHistory Temperature)).1) ∧
      (∀ History, (USimpleChat.MakeParams APIKey ModelName History Temperature).Messages =
          History ∧
        (USimpleChat.MakeParams APIKey ModelName History Temperature).bStream = true ∧
        (SendRequest L (USimpleChat.MakeParams APIKey ModelName History
          Temperature)).1.HttpRequestRef.map IHttpRequest.Content =
          some (L.Serialize (BuildRequestJson
            (USimpleChat.MakeParams APIKey ModelName History Temperature))) ∧
        (BuildRequestJson
          (USimpleChat.MakeParams APIKey ModelName History Temperature)).messages =
          History.map (fun M => (M.Role, M.Content)) ∧
        (BuildRequestJson
          (USimpleChat.MakeParams APIKey ModelName History Temperature)).stream = true) ∧
      (W.Chat.ChatHistory = [] → SystemPrompt ≠ [] →
        (USimpleChat.SendMessage L W APIKey Message SystemPrompt ModelName
            Temperature).1.Chat.ChatHistory =
          [FDeepSeekMessage.mk (TEXT "system") SystemPrompt,
            FDeepSeekMessage.mk (TEXT "user") Message] ∧
        (USimpleChat.SendMessage L
            (USimpleChat.SendMessage L W APIKey Message SystemPrompt ModelName Temperature).1
            APIKey2 Message2 SystemPrompt2 ModelName2 Temperature2).1.Chat.ChatHistory =
          [FDeepSeekMessage.mk (TEXT "system") SystemPrompt,
            FDeepSeekMessage.mk (TEXT "user") Message,
            FDeepSeekMessage.mk (TEXT "user") Message2]) := by
  have h1 := SendMessage_valid L W APIKey Message SystemPrompt ModelName Temperature hlive hM hK
  have hlen : (USimpleChat.CleanupCurrentRequest W).Objects.length = W.Objects.length :=
    CleanupCurrentRequest_length W
  refine ⟨?_, ?_, ?_, ?_, ?_, ?_⟩
  · rw [h1]
    rfl
  · rw [h1]
  · rw [h1]
  · rw [h1]
    simp only
    rw [← hlen]
    simp
  · intro History
    exact ⟨rfl, rfl, rfl, rfl, rfl⟩
  · intro hH hS
    have h2 := SendMessage_valid L
      (USimpleChat.SendMessage L W APIKey Message SystemPrompt ModelName Temperature).1
      APIKey2 Message2 SystemPrompt2 ModelName2 Temperature2 (by rw [h1]) hM2 hK2
    rw [h2]
    rw [h1]
    simp [Spec.HistoryAfterSend, hH, hS]

/-- C11 witness: two consecutive calls with a prompt on a new session. -/
theorem C11_valid_send_extends_history_witness :
    (USimpleChat.CreateChatInstance.Chat.bIsBeingDestroyed = false ∧ TEXT "hello" ≠ [] ∧
      TEXT "sk-test" ≠ [] ∧ TEXT "again" ≠ [] ∧
      USimpleChat.CreateChatInstance.Chat.ChatHistory = [] ∧ TEXT "Be brief" ≠ []) ∧
    (USimpleChat.SendMessage RefJson
        (USimpleChat.SendMessage RefJson USimpleChat.CreateChatInstance (TEXT "sk-test")
          (TEXT "hello") (TEXT "Be brief") (TEXT "deepseek-chat") (7 / 10)).1
        (TEXT "sk-test") (TEXT "again") (TEXT "Other prompt") (TEXT "deepseek-chat")
        (7 / 10)).1.Chat.ChatHistory =
      [FDeepSeekMessage.mk (TEXT "system") (TEXT "Be brief"),
        FDeepSeekMessage.mk (TEXT "user") (TEXT "hello"),
        FDeepSeekMessage.mk (TEXT "user") (TEXT "again")] :=
  ⟨by decide,
    ((C11_valid_send_extends_history RefJson USimpleChat.CreateChatInstance (TEXT "sk-test")
      (TEXT "hello") (TEXT "Be brief") (TEXT "deepseek-chat") (7 / 10) (TEXT "sk-test")
      (TEXT "again") (TEXT "Other prompt") (TEXT "deepseek-chat") (7 / 10) (by decide)
      (by decide) (by decide) (by decide) (by decide)).2.2.2.2.2 (by decide) (by decide)).2⟩

/-! ### Completion and failure handling of the session -/

/-- The effect of `HandleCompletedResponse` on a live session, by the text it settles on. -/
theorem HandleCompletedResponse_text (W : FWorld) (Response : FString)
    (hlive : W.Chat.bIsBeingDestroyed = false) :
    (Spec.CompletionText (USimpleChat.FullStreamedText W) W.Chat.AccumulatedResponse ≠ [] →
        (USimpleChat.HandleCompletedResponse W Response).1.Chat.ChatHistory =
            W.Chat.ChatHistory ++
              [FDeepSeekMessage.mk (TEXT "assistant")
                (Spec.CompletionText (USimpleChat.FullStreamedText W)
                  W.Chat.AccumulatedResponse)] ∧
          (USimpleChat.HandleCompletedResponse W Response).2 =
            [Event.OnCompleted
              (Spec.CompletionText (USimpleChat.FullStreamedText W)
                W.Chat.AccumulatedResponse)]) ∧
      (Spec.CompletionText (USimpleChat.FullStreamedText W) W.Chat.AccumulatedResponse = [] →
        (USimpleChat.HandleCompletedResponse W Response).1.Chat.ChatHistory =
            W.Chat.ChatHistory ∧
          (USimpleChat.HandleCompletedResponse W Response).2 =
            [Event.OnFailed (TEXT "Received empty response")]) ∧
      (USimpleChat.HandleCompletedResponse W Response).1.Chat.ApiRequest = none := by
  unfold USimpleChat.HandleCompletedResponse Spec.CompletionText
  simp only [hlive, Bool.false_eq_true, if_false, FString.IsEmpty]
  by_cases hR : USimpleChat.FullStreamedText W = []
  · by_cases hS : W.Chat.AccumulatedResponse = []
    · simp [hR, hS, CleanupCurrentRequest_history, CleanupCurrentRequest_request]
    · simp [hR, hS, CleanupCurrentRequest_history, CleanupCurrentRequest_request]
  · simp [hR, CleanupCurrentRequest_history, CleanupCurrentRequest_request]

/-- C12: on a session not in teardown, let `text` be the attached request's full
accumulated text if that is non-empty, else the scratch buffer.  If `text` is
non-empty, `HandleCompletedResponse` appends one `assistant` Message with content
`text` to the history and broadcasts `OnCompleted(text)`; if it is empty the
history is unchanged and `OnFailed("Received empty response")` is broadcast.  In
both cases the in-flight request reference is cleared. -/
theorem C12_completion_folds_text_into_history (W : FWorld) (Response : FString)
    (hlive : W.Chat.bIsBeingDestroyed = false) :
    (Spec.CompletionText (USimpleChat.FullStreamedText W) W.Chat.AccumulatedResponse ≠ [] →
        (USimpleChat.HandleCompletedResponse W Response).1.Chat.ChatHistory =
            W.Chat.ChatHistory ++
              [FDeepSeekMessage.mk (TEXT "assistant")
                (Spec.CompletionText (USimpleChat.FullStreamedText W)
                  W.Chat.AccumulatedResponse)] ∧
          (USimpleChat.HandleCompletedResponse W Response).2 =
            [Event.OnCompleted
              (Spec.CompletionText (USimpleChat.FullStreamedText W)
                W.Chat.AccumulatedResponse)]) ∧
      (Spec.CompletionText (USimpleChat.FullStreamedText W) W.Chat.AccumulatedResponse = [] →
        (USimpleChat.HandleCompletedResponse W Response).1.Chat.ChatHistory =
            W.Chat.ChatHistory ∧
          (USimpleChat.HandleCompletedResponse W Response).2 =
            [Event.OnFailed (TEXT "Received empty response")]) ∧
      (USimpleChat.HandleCompletedResponse W Response).1.Chat.ApiRequest = none :=
  HandleCompletedResponse_text W Response hlive

/-- C20: on a session not in teardown, `HandleFailedResponse` broadcasts exactly
the failure message on the session's `OnFailed`, clears the in-flight request
reference and leaves the history unchanged.  So after a valid `SendMessage` that
fails, the `user` Message it appended is still the last history entry, and the
next valid `SendMessage` builds its request from a history that contains it. -/
theorem C20_failure_keeps_history (L : JsonLib) (W : FWorld) (ErrorMessage : FString)
    (APIKey Message SystemPrompt ModelName : FString) (Temperature : ℚ)
    (APIKey2 Message2 SystemPrompt2 ModelName2 : FString) (Temperature2 : ℚ)
    (hlive : W.Chat.bIsBeingDestroyed = false) (hM : Message ≠ []) (hK : APIKey ≠ [])
    (hM2 : Message2 ≠ []) (hK2 : APIKey2 ≠ []) :
    (USimpleChat.HandleFailedResponse W ErrorMessage).2 = [Event.OnFailed ErrorMessage] ∧
      (USimpleChat.HandleFailedResponse W ErrorMessage).1.Chat.ApiRequest = none ∧
      (USimpleChat.HandleFailedResponse W ErrorMessage).1.Chat.ChatHistory =
        W.Chat.ChatHistory ∧
      (USimpleChat.HandleFailedResponse
          (USimpleChat.SendMessage L W APIKey Message SystemPrompt ModelName Temperature).1
          ErrorMessage).1.Chat.ChatHistory =
        Spec.HistoryAfterSend W.Chat.ChatHistory Message SystemPrompt ∧
      (Spec.HistoryAfterSend W.Chat.ChatHistory Message SystemPrompt).getLast? =
        some (FDeepSeekMessage.mk (TEXT "user") Message) ∧
      (USimpleChat.SendMessage L
          (USimpleChat.HandleFailedResponse
            (USimpleChat.SendMessage L W APIKey Message SystemPrompt ModelName Temperature).1
            ErrorMessage).1
          APIKey2 Message2 SystemPrompt2 ModelName2 Temperature2).1.Chat.ChatHistory =
        Spec.HistoryAfterSend W.Chat.ChatHistory Message SystemPrompt ++
          [FDeepSeekMessage.mk (TEXT "user") Message2] ∧
      (USimpleChat.SendMessage L
          (USimpleChat.HandleFailedResponse
            (USimpleChat.SendMessage L W APIKey Message SystemPrompt ModelName Temperature).1
            ErrorMessage).1
          APIKey2 Message2 SystemPrompt2 ModelName2 Temperature2).1.Objects[
            (USimpleChat.HandleFailedResponse
              (USimpleChat.SendMessage L W APIKey Message SystemPrompt ModelName Temperature).1
              ErrorMessage).1.Objects.length]? =
        some (AddChatHandlers (SendRequest L (USimpleChat.MakeParams APIKey2 ModelName2
          (Spec.HistoryAfterSend W.Chat.ChatHistory Message SystemPrompt ++
            [FDeepSeekMessage.mk (TEXT "user") Message2]) Temperature2)).1) := by
  have hF : ∀ V : FWorld, V.Chat.bIsBeingDestroyed = false →
      (USimpleChat.HandleFailedResponse V ErrorMessage).2 = [Event.OnFailed ErrorMessage] ∧
      (USimpleChat.HandleFailedResponse V ErrorMessage).1.Chat.ApiRequest = none ∧
      (USimpleChat.HandleFailedResponse V ErrorMessage).1.Chat.ChatHistory =
        V.Chat.ChatHistory ∧
      (USimpleChat.HandleFailedResponse V ErrorMessage).1.Chat.bIsBeingDestroyed = false := by
    intro V hV
    unfold USimpleChat.HandleFailedResponse
    simp [hV, CleanupCurrentRequest_history, CleanupCurrentRequest_request,
      CleanupCurrentRequest_destroyed]
  have h1 := SendMessage_valid L W APIKey Message SystemPrompt ModelName Temperature hlive hM hK
  have hlive1 : (USimpleChat.SendMessage L W APIKey Message SystemPrompt ModelName
      Temperature).1.Chat.bIsBeingDestroyed = false := by rw [h1]
  have hhist1 : (USimpleChat.SendMessage L W APIKey Message SystemPrompt ModelName
      Temperature).1.Chat.ChatHistory =
      Spec.HistoryAfterSend W.Chat.ChatHistory Message SystemPrompt := by rw [h1]
  have hF1 := hF _ hlive1
  have hne : Spec.HistoryAfterSend W.Chat.ChatHistory Message SystemPrompt ≠ [] := by
    unfold Spec.HistoryAfterSend
    split <;> simp
  have hH2 : Spec.HistoryAfterSend
      (USimpleChat.HandleFailedResponse
        (USimpleChat.SendMessage L W APIKey Message SystemPrompt ModelName Temperature).1
        ErrorMessage).1.Chat.ChatHistory Message2 SystemPrompt2 =
      Spec.HistoryAfterSend W.Chat.ChatHistory Message SystemPrompt ++
        [FDeepSeekMessage.mk (TEXT "user") Message2] := by
    rw [hF1.2.2.1, hhist1]
    generalize Spec.HistoryAfterSend W.Chat.ChatHistory Message SystemPrompt = H1 at hne
    simp [Spec.HistoryAfterSend, hne]
  refine ⟨(hF W hlive).1, (hF W hlive).2.1, (hF W hlive).2.2.1, ?_, ?_, ?_, ?_⟩
  · rw [hF1.2.2.1, hhist1]
  · unfold Spec.HistoryAfterSend
    split <;> simp
  · rw [SendMessage_valid L _ APIKey2 Message2 SystemPrompt2 ModelName2 Temperature2
      hF1.2.2.2 hM2 hK2]
    exact hH2
  · rw [← hH2]
    exact SendMessage_object L _ APIKey2 Message2 SystemPrompt2 ModelName2 Temperature2
      hF1.2.2.2 hM2 hK2

/-- C20 witness: a first turn on a new session fails with a transport error; the
second turn sends the failed `user` Message again. -/
theorem C20_failure_keeps_history_witness :
    (USimpleChat.CreateChatInstance.Chat.bIsBeingDestroyed = false ∧ TEXT "hello" ≠ [] ∧
      TEXT "sk-test" ≠ [] ∧ TEXT "again" ≠ []) ∧
    (USimpleChat.SendMessage RefJson
        (USimpleChat.HandleFailedResponse
          (USimpleChat.SendMessage RefJson USimpleChat.CreateChatInstance (TEXT "sk-test")
            (TEXT "hello") [] (TEXT "deepseek-chat") (7 / 10)).1
          (TEXT "Request failed")).1
        (TEXT "sk-test") (TEXT "again") [] (TEXT "deepseek-chat") (7 / 10)).1.Chat.ChatHistory =
      Spec.HistoryAfterSend USimpleChat.CreateChatInstance.Chat.ChatHistory (TEXT "hello") [] ++
        [FDeepSeekMessage.mk (TEXT "user") (TEXT "again")] ∧
    Spec.HistoryAfterSend USimpleChat.CreateChatInstance.Chat.ChatHistory (TEXT "hello") [] ++
        [FDeepSeekMessage.mk (TEXT "user") (TEXT "again")] =
      [FDeepSeekMessage.mk (TEXT "user") (TEXT "hello"),
        FDeepSeekMessage.mk (TEXT "user") (TEXT "again")] :=
  ⟨by decide,
    (C20_failure_keeps_history RefJson USimpleChat.CreateChatInstance (TEXT "Request failed")
      (TEXT "sk-test") (TEXT "hello") [] (TEXT "deepseek-chat") (7 / 10) (TEXT "sk-test")
      (TEXT "again") [] (TEXT "deepseek-chat") (7 / 10) (by decide) (by decide) (by decide)
      (by decide) (by decide)).2.2.2.2.2.1,
    by decide⟩

/-! ### The request body -/

/-- C16: for every parameter set, `ExecuteRequest` configures and starts a
transport request whose body is the serialization of an object with
`temperature = min (max Temperature 0) 1` and `max_tokens = max 1 MaxTokens`:
values outside the range are clamped and the request is sent all the same,
values inside pass through unchanged, and `messages` lists the messages of the
parameters in the same order with their role and content. -/
theorem C16_request_body_clamps (L : JsonLib) (st : UDeepSeekFunction)
    (Params : FDeepSeekRequestParams) :
    (∃ Request, (ExecuteRequest L st Params).1.HttpRequestRef = some Request ∧
        Request.Content = L.Serialize (BuildRequestJson Params) ∧
        Request.bProcessRequestCalled = true) ∧
      (BuildRequestJson Params).temperature = min (max Params.Temperature 0) 1 ∧
      (BuildRequestJson Params).max_tokens = max 1 Params.MaxTokens ∧
      (0 ≤ Params.Temperature → Params.Temperature ≤ 1 →
        (BuildRequestJson Params).temperature = Params.Temperature) ∧
      (Params.Temperature < 0 → (BuildRequestJson Params).temperature = 0) ∧
      (1 < Params.Temperature → (BuildRequestJson Params).temperature = 1) ∧
      (1 ≤ Params.MaxTokens → (BuildRequestJson Params).max_tokens = Params.MaxTokens) ∧
      (Params.MaxTokens < 1 → (BuildRequestJson Params).max_tokens = 1) ∧
      (BuildRequestJson Params).messages.length = Params.Messages.length ∧
      (∀ i : Nat, (BuildRequestJson Params).messages[i]? =
        Params.Messages[i]?.map
          (fun Message : FDeepSeekMessage => (Message.Role, Message.Content))) := by
  have hT : FMath.Clamp Params.Temperature 0 1 = min (max Params.Temperature 0) 1 := by
    unfold FMath.Clamp
    by_cases h0 : Params.Temperature < 0
    · rw [if_pos h0, max_eq_right (le_of_lt h0)]
      simp
    · rw [if_neg h0, max_eq_left (not_lt.mp h0)]
      by_cases h1 : Params.Temperature < 1
      · rw [if_pos h1, min_eq_left (le_of_lt h1)]
      · rw [if_neg h1, min_eq_right (not_lt.mp h1)]
  have hN : FMath.Max 1 Params.MaxTokens = max 1 Params.MaxTokens := by
    unfold FMath.Max
    by_cases h : Params.MaxTokens < 1
    · rw [if_pos h, max_eq_left (le_of_lt h)]
    · rw [if_neg h, max_eq_right (not_lt.mp h)]
  refine ⟨⟨_, rfl, rfl, rfl⟩, hT, hN, ?_, ?_, ?_, ?_, ?_, ?_, ?_⟩
  · intro h0 h1
    show FMath.Clamp Params.Temperature 0 1 = Params.Temperature
    rw [hT, max_eq_left h0, min_eq_left h1]
  · intro h0
    show FMath.Clamp Params.Temperature 0 1 = 0
    rw [hT, max_eq_right (le_of_lt h0)]
    simp
  · intro h1
    show FMath.Clamp Params.Temperature 0 1 = 1
    rw [hT, max_eq_left (le_trans zero_le_one (le_of_lt h1)), min_eq_right (le_of_lt h1)]
  · intro h
    show FMath.Max 1 Params.MaxTokens = Params.MaxTokens
    rw [hN, max_eq_right h]
  · intro h
    show FMath.Max 1 Params.MaxTokens = 1
    rw [hN, max_eq_left (le_of_lt h)]
  · simp [BuildRequestJson]
  · intro i
    simp [BuildRequestJson]

/-- C16 witness: a temperature of `3/2` and `0` tokens are sent as `1` and `1`. -/
theorem C16_request_body_clamps_witness :
    ((1 : ℚ) < ({ Sample.Params with Temperature := 3 / 2, MaxTokens := 0 } :
        FDeepSeekRequestParams).Temperature ∧
      ({ Sample.Params with Temperature := 3 / 2, MaxTokens := 0 } :
        FDeepSeekRequestParams).MaxTokens < 1) ∧
    (BuildRequestJson { Sample.Params with Temperature := 3 / 2, MaxTokens := 0 }).temperature
      = 1 ∧
    (BuildRequestJson { Sample.Params with Temperature := 3 / 2, MaxTokens := 0 }).max_tokens
      = 1 :=
  ⟨⟨by norm_num, by decide⟩,
    (C16_request_body_clamps RefJson NewObject
      { Sample.Params with Temperature := 3 / 2, MaxTokens := 0 }).2.2.2.2.2.1 (by norm_num),
    (C16_request_body_clamps RefJson NewObject
      { Sample.Params with Temperature := 3 / 2, MaxTokens := 0 }).2.2.2.2.2.2.2.1
      (by decide)⟩

/-! ### Chunk boundaries -/

/-- C19: when the chunk `C1` ends with a line terminator, handling `C1` and then
`C2` gives the same final state (accumulated buffer, completion flag and all
other fields) and the same sequence of broadcasts as handling the single chunk
`C1 ++ C2`. -/
theorem C19_chunk_boundary_at_line_end (L : JsonLib) (st : UDeepSeekFunction)
    (A C2 : FString) (t : Char) (ht : FChar.IsLineEnding t = true) :
    HandleStreamChunks L st [A ++ [t], C2] =
        (HandleStreamData L st (A ++ [t] ++ C2)).2 ∧
      (HandleStreamChunks L st [A ++ [t], C2]).1.AccumulatedStreamText =
        (HandleStreamData L st (A ++ [t] ++ C2)).2.1.AccumulatedStreamText ∧
      (HandleStreamChunks L st [A ++ [t], C2]).1.bIsRequestComplete =
        (HandleStreamData L st (A ++ [t] ++ C2)).2.1.bIsRequestComplete ∧
      Notifications (HandleStreamChunks L st [A ++ [t], C2]).2 =
        Notifications (HandleStreamData L st (A ++ [t] ++ C2)).2.2 := by
  have main : HandleStreamChunks L st [A ++ [t], C2] =
      (HandleStreamData L st (A ++ [t] ++ C2)).2 := by
    cases hd : st.bIsBeingDestroyed with
    | true => simp [HandleStreamChunks, HandleStreamData, hd]
    | false =>
      have e : A ++ [t] ++ C2 = A ++ t :: C2 := by simp
      have e1 : FString.ParseIntoArrayLines (A ++ [t]) = FString.ParseIntoArrayLines A := by
        rw [ParseIntoArrayLines_append_ending A [] t ht]
        simp [FString.ParseIntoArrayLines, FString.ParseIntoArrayLinesFrom]
      rw [HandleStreamChunks_eq_lines L st _ hd]
      simp only [HandleStreamData, hd, Bool.false_eq_true, if_false, List.flatMap_cons,
        List.flatMap_nil, List.append_nil]
      rw [e, ParseIntoArrayLines_append_ending A C2 t ht, e1]
  refine ⟨main, ?_, ?_, ?_⟩ <;> rw [main]

/-- C19 witness: a carriage return ends the first chunk and the line feed of the
same line break opens the second. -/
theorem C19_chunk_boundary_at_line_end_witness :
    FChar.IsLineEnding '\r' = true ∧
    (HandleStreamChunks RefJson Sample.Fresh
        [Sample.DeltaHel ++ ['\r'], TEXT "\n" ++ Sample.DeltaLo ++ TEXT "\n" ++ Sample.DoneLine]).2 =
      [Event.OnStream (TEXT "Hel"), Event.OnStream (TEXT "lo"),
        Event.OnCompleted (TEXT "Hello")] ∧
    HandleStreamChunks RefJson Sample.Fresh
        [Sample.DeltaHel ++ ['\r'], TEXT "\n" ++ Sample.DeltaLo ++ TEXT "\n" ++ Sample.DoneLine] =
      (HandleStreamData RefJson Sample.Fresh
        (Sample.DeltaHel ++ ['\r'] ++
          (TEXT "\n" ++ Sample.DeltaLo ++ TEXT "\n" ++ Sample.DoneLine))).2 :=
  ⟨by decide, by decide,
    (C19_chunk_boundary_at_line_end RefJson Sample.Fresh Sample.DeltaHel
      (TEXT "\n" ++ Sample.DeltaLo ++ TEXT "\n" ++ Sample.DoneLine) '\r' (by decide)).1⟩

/-! ### Properties kept by every step of the world -/

theorem SafeRemoveFromRoot_SameHandlers (st : UDeepSeekFunction) :
    SameHandlers (SafeRemoveFromRoot st) st := by
  unfold SafeRemoveFromRoot SameHandlers
  cases st.bRooted <;> simp

theorem ResetAndRemoveFromRoot_SameHandlers (st : UDeepSeekFunction) :
    SameHandlers (ResetAndRemoveFromRoot st) st := by
  unfold ResetAndRemoveFromRoot SafeRemoveFromRoot SameHandlers
  cases st.bRooted <;> simp

theorem HandleStreamLine_SameHandlers (L : JsonLib) (st : UDeepSeekFunction) (Line : FString) :
    SameHandlers (HandleStreamLine L st Line).1 st := by
  rcases HandleStreamLine_cases L st Line with ⟨_, _, hR⟩ | ⟨_, Content, _, hR⟩ | ⟨_, _, hR⟩
  · rw [hR]
    unfold MarkDone SameHandlers
    cases st.bIsRequestComplete <;> simp
  · rw [hR]
    simp [AppendFragment, SameHandlers]
  · rw [hR]
    simp [SameHandlers]

theorem OnProcessRequestComplete_SameHandlers (L : JsonLib) (st : UDeepSeekFunction)
    (Response : Option FHttpResponse) (bWasSuccessful : Bool) :
    SameHandlers (OnProcessRequestComplete L st Response bWasSuccessful).1 st := by
  have hS := SafeRemoveFromRoot_SameHandlers st
  have hR := ResetAndRemoveFromRoot_SameHandlers st
  have hR2 : SameHandlers (ResetAndRemoveFromRoot { st with bIsRequestComplete := true }) st :=
    ResetAndRemoveFromRoot_SameHandlers { st with bIsRequestComplete := true }
  unfold OnProcessRequestComplete
  dsimp only
  repeat' (first | exact hS | exact hR | exact hR2 | split)

theorem BeginDestroy_SameHandlers (st : UDeepSeekFunction) :
    SameHandlers (BeginDestroy st).1 st := by
  rcases st with ⟨a, b, c, d, e, f, g, h, i⟩
  cases h <;> cases i <;> simp [BeginDestroy, SafeRemoveFromRoot, SameHandlers]

theorem Stable_invoke {P : FWorld → Prop} (hP : FWorld.Stable P) (W : FWorld)
    (Handler : FChatHandler) (Payload : FString) (h : P W) :
    P (USimpleChat.Invoke W Handler Payload).1 := by
  cases Handler
  · exact hP.stream W Payload h
  · exact hP.completed W Payload h
  · exact hP.failed W Payload h

theorem Stable_invokeAll {P : FWorld → Prop} (hP : FWorld.Stable P) (W : FWorld)
    (Handlers : List FChatHandler) (Payload : FString) (h : P W) :
    P (USimpleChat.InvokeAll W Handlers Payload).1 := by
  induction Handlers generalizing W with
  | nil => exact h
  | cons Handler Handlers ih =>
    simp only [USimpleChat.InvokeAll]
    exact ih _ (Stable_invoke hP W Handler Payload h)

theorem Stable_broadcast {P : FWorld → Prop} (hP : FWorld.Stable P) (W : FWorld) (Id : Nat)
    (E : Event) (h : P W) : P (FWorld.Broadcast W Id E).1 := by
  unfold FWorld.Broadcast
  cases W.Objects[Id]? with
  | none => exact h
  | some Obj =>
    cases E with
    | OnStream Response => exact Stable_invokeAll hP W _ Response h
    | OnCompleted Response => exact Stable_invokeAll hP W _ Response h
    | OnFailed Response => exact Stable_invokeAll hP W _ Response h
    | OnDebugMessage Message => exact h
    | CancelRequest => exact h

theorem Stable_broadcastAll {P : FWorld → Prop} (hP : FWorld.Stable P) (W : FWorld) (Id : Nat)
    (Events : List Event) (h : P W) : P (FWorld.BroadcastAll W Id Events).1 := by
  induction Events generalizing W with
  | nil => exact h
  | cons E Events ih =>
    simp only [FWorld.BroadcastAll]
    exact ih _ (Stable_broadcast hP W Id E h)

theorem Stable_lines {P : FWorld → Prop} (hP : FWorld.Stable P) (L : JsonLib) (W : FWorld)
    (Id : Nat) (Lines : List FString) (h : P W) :
    P (FWorld.HandleStreamLines L W Id Lines).1 := by
  induction Lines generalizing W with
  | nil => exact h
  | cons Line Lines ih =>
    simp only [FWorld.HandleStreamLines]
    cases hO : W.Objects[Id]? with
    | none => exact h
    | some Obj =>
      simp only []
      exact ih _ (Stable_broadcastAll hP _ Id _
        (hP.setObject W Id Obj _ h hO (HandleStreamLine_SameHandlers L Obj Line)))

theorem Stable_deliver {P : FWorld → Prop} (hP : FWorld.Stable P) (L : JsonLib) (W : FWorld)
    (Id : Nat) (Signal : FTransportSignal) (h : P W) :
    P (FWorld.Deliver L W Id Signal).1 := by
  cases Signal with
  | Chunk Data Length =>
    simp only [FWorld.Deliver]
    cases hO : W.Objects[Id]? with
    | none => exact h
    | some Obj =>
      simp only []
      split
      · exact h
      · split
        · exact h
        · exact Stable_lines hP L W Id _ h
  | Complete Response bWasSuccessful =>
    simp only [FWorld.Deliver]
    cases hO : W.Objects[Id]? with
    | none => exact h
    | some Obj =>
      simp only []
      exact Stable_broadcastAll hP _ Id _
        (hP.setObject W Id Obj _ h hO
          (OnProcessRequestComplete_SameHandlers L Obj Response bWasSuccessful))

theorem Stable_deliverAll {P : FWorld → Prop} (hP : FWorld.Stable P) (L : JsonLib) (W : FWorld)
    (Id : Nat) (Signals : List FTransportSignal) (h : P W) :
    P (FWorld.DeliverAll L W Id Signals).1 := by
  induction Signals generalizing W with
  | nil => exact h
  | cons Signal Signals ih =>
    simp only [FWorld.DeliverAll]
    exact ih _ (Stable_deliver hP L W Id Signal h)

theorem Stable_step {P : FWorld → Prop} (hP : FWorld.Stable P) (L : JsonLib) (W : FWorld)
    (Input : FChatInput) (h : P W) : P (FWorld.Step L W Input).1 := by
  cases Input with
  | SendMessage APIKey Message SystemPrompt ModelName Temperature =>
    exact hP.send L W APIKey Message SystemPrompt ModelName Temperature h
  | ClearChat => exact hP.clear W h
  | StreamDelta Response => exact hP.stream W Response h
  | Completed Response => exact hP.completed W Response h
  | Failed ErrorMessage => exact hP.failed W ErrorMessage h
  | Transport Id Signal => exact Stable_deliver hP L W Id Signal h
  | DestroyRequest Id =>
    simp only [FWorld.Step]
    cases hO : W.Objects[Id]? with
    | none => exact h
    | some Obj => exact hP.setObject W Id Obj _ h hO (BeginDestroy_SameHandlers Obj)
  | DestroySession => exact hP.destroy W h

theorem Stable_run {P : FWorld → Prop} (hP : FWorld.Stable P) (L : JsonLib) (W : FWorld)
    (Inputs : List FChatInput) (h : P W) : P (FWorld.Run L W Inputs).1 := by
  induction Inputs generalizing W with
  | nil => exact h
  | cons Input Inputs ih =>
    simp only [FWorld.Run]
    exact ih _ (Stable_step hP L W Input h)

/-! ### The history holds complete turns only -/

theorem AssistantTurnsComplete_append (History : List FDeepSeekMessage)
    (Message : FDeepSeekMessage) (h : Spec.AssistantTurnsComplete History)
    (hM : Spec.IsAssistant Message = true → Message.Content ≠ []) :
    Spec.AssistantTurnsComplete (History ++ [Message]) := by
  intro X hX
  rcases List.mem_append.mp hX with hX | hX
  · exact h X hX
  · have : X = Message := by simpa using hX
    subst this
    exact hM

theorem IsAssistant_system (Content : FString) :
    Spec.IsAssistant (FDeepSeekMessage.mk (TEXT "system") Content) = false := by
  have h : FString.Equals (TEXT "system") (TEXT "assistant") = false := by decide
  exact h

theorem IsAssistant_user (Content : FString) :
    Spec.IsAssistant (FDeepSeekMessage.mk (TEXT "user") Content) = false := by
  have h : FString.Equals (TEXT "user") (TEXT "assistant") = false := by decide
  exact h

theorem SendMessage_history (L : JsonLib) (W : FWorld)
    (APIKey Message SystemPrompt ModelName : FString) (Temperature : ℚ) :
    (USimpleChat.SendMessage L W APIKey Message SystemPrompt ModelName
        Temperature).1.Chat.ChatHistory = W.Chat.ChatHistory ∨
      (USimpleChat.SendMessage L W APIKey Message SystemPrompt ModelName
        Temperature).1.Chat.ChatHistory =
        Spec.HistoryAfterSend W.Chat.ChatHistory Message SystemPrompt := by
  by_cases hlive : W.Chat.bIsBeingDestroyed = false
  · by_cases hM : Message = []
    · left
      unfold USimpleChat.SendMessage
      simp [hlive, hM, FString.IsEmpty]
    · by_cases hK : APIKey = []
      · left
        unfold USimpleChat.SendMessage
        simp [hlive, hM, hK, FString.IsEmpty]
      · right
        rw [SendMessage_valid L W APIKey Message SystemPrompt ModelName Temperature hlive hM hK]
  · left
    unfold USimpleChat.SendMessage
    simp [hlive]

theorem HistoryAfterSend_filter (History : List FDeepSeekMessage)
    (Message SystemPrompt : FString) :
    (Spec.HistoryAfterSend History Message SystemPrompt).filter Spec.IsAssistant =
      History.filter Spec.IsAssistant := by
  unfold Spec.HistoryAfterSend
  split <;> simp [List.filter_cons, IsAssistant_system, IsAssistant_user]

theorem HandleCompletedResponse_history (W : FWorld) (Response : FString) :
    (USimpleChat.HandleCompletedResponse W Response).1.Chat.ChatHistory = W.Chat.ChatHistory ∨
      ∃ Text, Text ≠ [] ∧
        (USimpleChat.HandleCompletedResponse W Response).1.Chat.ChatHistory =
          W.Chat.ChatHistory ++ [FDeepSeekMessage.mk (TEXT "assistant") Text] := by
  by_cases hlive : W.Chat.bIsBeingDestroyed = false
  · have h := HandleCompletedResponse_text W Response hlive
    by_cases hT : Spec.CompletionText (USimpleChat.FullStreamedText W)
        W.Chat.AccumulatedResponse = []
    · exact Or.inl (h.2.1 hT).1
    · exact Or.inr ⟨_, hT, (h.1 hT).1⟩
  · left
    unfold USimpleChat.HandleCompletedResponse
    simp [hlive]

theorem HandleStreamResponse_history (W : FWorld) (Response : FString) :
    (USimpleChat.HandleStreamResponse W Response).1.Chat.ChatHistory = W.Chat.ChatHistory := by
  unfold USimpleChat.HandleStreamResponse
  split <;> rfl

theorem HandleFailedResponse_history (W : FWorld) (ErrorMessage : FString) :
    (USimpleChat.HandleFailedResponse W ErrorMessage).1.Chat.ChatHistory =
      W.Chat.ChatHistory := by
  unfold USimpleChat.HandleFailedResponse
  split
  · rfl
  · exact CleanupCurrentRequest_history W

theorem AssistantTurnsComplete_Stable :
    FWorld.Stable (fun W => Spec.AssistantTurnsComplete W.Chat.ChatHistory) where
  stream := by
    intro W Response h
    simp only [HandleStreamResponse_history]
    exact h
  completed := by
    intro W Response h
    rcases HandleCompletedResponse_history W Response with hE | ⟨Text, hT, hE⟩
    · simp only [hE]
      exact h
    · simp only [hE]
      exact AssistantTurnsComplete_append _ _ h (fun _ => hT)
  failed := by
    intro W ErrorMessage h
    simp only [HandleFailedResponse_history]
    exact h
  setObject := by
    intro W Id Obj New h _ _
    exact h
  send := by
    intro L W APIKey Message SystemPrompt ModelName Temperature h
    rcases SendMessage_history L W APIKey Message SystemPrompt ModelName Temperature
      with hE | hE
    · simp only [hE]
      exact h
    · simp only [hE]
      unfold Spec.HistoryAfterSend
      split
      · have h1 := AssistantTurnsComplete_append _
          (FDeepSeekMessage.mk (TEXT "system") SystemPrompt) h
          (fun hA => by rw [IsAssistant_system] at hA; exact absurd hA (by simp))
        have h2 := AssistantTurnsComplete_append _
          (FDeepSeekMessage.mk (TEXT "user") Message) h1
          (fun hA => by rw [IsAssistant_user] at hA; exact absurd hA (by simp))
        simpa [List.append_assoc] using h2
      · exact AssistantTurnsComplete_append _ _ h
          (fun hA => by rw [IsAssistant_user] at hA; exact absurd hA (by simp))
  clear := by
    intro W _
    unfold USimpleChat.ClearChat
    rw [CleanupCurrentRequest_history]
    intro X hX
    exact absurd hX (List.not_mem_nil X)
  destroy := by
    intro W h
    unfold USimpleChat.BeginDestroy
    rw [CleanupCurrentRequest_history]
    exact h

/-- C13: in every world reached from a new session by any sequence of
`SendMessage`, `ClearChat`, stream-delta, completed and failed handler calls,
transport signals to any request and teardowns, every `assistant` Message of the
history has non-empty content.  `SendMessage`, the stream-delta handler and the
failure handler never change the `assistant` Messages of the history, in any
world; the completion handler either leaves the history alone or appends one
`assistant` Message with non-empty content. -/
theorem C13_history_has_complete_assistant_turns (L : JsonLib) (Inputs : List FChatInput) :
    Spec.AssistantTurnsComplete
        (FWorld.Run L USimpleChat.CreateChatInstance Inputs).1.Chat.ChatHistory ∧
      (∀ (W : FWorld) (APIKey Message SystemPrompt ModelName : FString) (Temperature : ℚ),
        (USimpleChat.SendMessage L W APIKey Message SystemPrompt ModelName
          Temperature).1.Chat.ChatHistory.filter Spec.IsAssistant =
          W.Chat.ChatHistory.filter Spec.IsAssistant) ∧
      (∀ (W : FWorld) (Response : FString),
        (USimpleChat.HandleStreamResponse W Response).1.Chat.ChatHistory =
          W.Chat.ChatHistory) ∧
      (∀ (W : FWorld) (ErrorMessage : FString),
        (USimpleChat.HandleFailedResponse W ErrorMessage).1.Chat.ChatHistory =
          W.Chat.ChatHistory) ∧
      (∀ (W : FWorld) (Response : FString),
        (USimpleChat.HandleCompletedResponse W Response).1.Chat.ChatHistory =
            W.Chat.ChatHistory ∨
          ∃ Text, Text ≠ [] ∧
            (USimpleChat.HandleCompletedResponse W Response).1.Chat.ChatHistory =
              W.Chat.ChatHistory ++ [FDeepSeekMessage.mk (TEXT "assistant") Text]) := by
  refine ⟨?_, ?_, HandleStreamResponse_history, HandleFailedResponse_history,
    HandleCompletedResponse_history⟩
  · exact Stable_run AssistantTurnsComplete_Stable L USimpleChat.CreateChatInstance Inputs
      (fun X hX => absurd hX (List.not_mem_nil X))
  · intro W APIKey Message SystemPrompt ModelName Temperature
    rcases SendMessage_history L W APIKey Message SystemPrompt ModelName Temperature
      with hE | hE
    · rw [hE]
    · rw [hE, HistoryAfterSend_filter]

/-- C13 witness: a turn streamed as `Hel`, `[DONE]` on a new session records the
`assistant` Message `Hel`; an empty stream that only ends records none. -/
theorem C13_history_has_complete_assistant_turns_witness :
    (FWorld.Run RefJson USimpleChat.CreateChatInstance
        [FChatInput.SendMessage (TEXT "sk-test") (TEXT "hello") [] (TEXT "deepseek-chat") (7 / 10),
          FChatInput.Transport 0 (FTransportSignal.Chunk (Sample.DeltaHel ++ TEXT "\n") 64),
          FChatInput.Transport 0 (FTransportSignal.Chunk Sample.DoneLine 12),
          FChatInput.SendMessage (TEXT "sk-test") (TEXT "again") [] (TEXT "deepseek-chat") (7 / 10),
          FChatInput.Transport 1 (FTransportSignal.Chunk Sample.DoneLine 12)]).1.Chat.ChatHistory =
      [FDeepSeekMessage.mk (TEXT "user") (TEXT "hello"),
        FDeepSeekMessage.mk (TEXT "assistant") (TEXT "Hel"),
        FDeepSeekMessage.mk (TEXT "user") (TEXT "again")] ∧
    Spec.AssistantTurnsComplete
      (FWorld.Run RefJson USimpleChat.CreateChatInstance
        [FChatInput.SendMessage (TEXT "sk-test") (TEXT "hello") [] (TEXT "deepseek-chat") (7 / 10),
          FChatInput.Transport 0 (FTransportSignal.Chunk (Sample.DeltaHel ++ TEXT "\n") 64),
          FChatInput.Transport 0 (FTransportSignal.Chunk Sample.DoneLine 12),
          FChatInput.SendMessage (TEXT "sk-test") (TEXT "again") [] (TEXT "deepseek-chat") (7 / 10),
          FChatInput.Transport 1 (FTransportSignal.Chunk Sample.DoneLine 12)]).1.Chat.ChatHistory :=
  ⟨by decide, (C13_history_has_complete_assistant_turns RefJson _).1⟩

/-! ### The rendering of the history -/

theorem GetChatHistory_foldl (History : List FDeepSeekMessage) (Init : FString) :
    History.foldl
        (fun Acc Message =>
          Acc ++
            (if FString.Equals Message.Role (TEXT "user") then TEXT "User: "
              else if FString.Equals Message.Role (TEXT "assistant") then TEXT "Assistant: "
              else if FString.Equals Message.Role (TEXT "system") then TEXT "System: "
              else []) ++ Message.Content ++ TEXT "\n\n")
        Init =
      Init ++ Spec.RenderHistoryIgnoreCase History := by
  induction History generalizing Init with
  | nil => simp [Spec.RenderHistoryIgnoreCase]
  | cons M History ih =>
    rw [List.foldl_cons, ih]
    simp [Spec.RenderHistoryIgnoreCase, Spec.RoleLabelIgnoreCase, List.append_assoc]

theorem LiteralRoles_append (History : List FDeepSeekMessage) (Message : FDeepSeekMessage)
    (h : USimpleChat.LiteralRoles History)
    (hM : Message.Role = TEXT "system" ∨ Message.Role = TEXT "user" ∨
      Message.Role = TEXT "assistant") :
    USimpleChat.LiteralRoles (History ++ [Message]) := by
  intro X hX
  rcases List.mem_append.mp hX with hX | hX
  · exact h X hX
  · rw [List.mem_singleton.mp hX]
    exact hM

theorem LiteralRoles_Stable :
    FWorld.Stable (fun W => USimpleChat.LiteralRoles W.Chat.ChatHistory) where
  stream := by
    intro W Response h
    simp only [HandleStreamResponse_history]
    exact h
  completed := by
    intro W Response h
    rcases HandleCompletedResponse_history W Response with hE | ⟨Text, _, hE⟩
    · simp only [hE]
      exact h
    · simp only [hE]
      exact LiteralRoles_append _ _ h (Or.inr (Or.inr rfl))
  failed := by
    intro W ErrorMessage h
    simp only [HandleFailedResponse_history]
    exact h
  setObject := by
    intro W Id Obj New h _ _
    exact h
  send := by
    intro L W APIKey Message SystemPrompt ModelName Temperature h
    rcases SendMessage_history L W APIKey Message SystemPrompt ModelName Temperature
      with hE | hE
    · simp only [hE]
      exact h
    · simp only [hE]
      unfold Spec.HistoryAfterSend
      split
      · have h1 := LiteralRoles_append _
          (FDeepSeekMessage.mk (TEXT "system") SystemPrompt) h (Or.inl rfl)
        have h2 := LiteralRoles_append _
          (FDeepSeekMessage.mk (TEXT "user") Message) h1 (Or.inr (Or.inl rfl))
        simpa [List.append_assoc] using h2
      · exact LiteralRoles_append _ _ h (Or.inr (Or.inl rfl))
  clear := by
    intro W _
    unfold USimpleChat.ClearChat
    rw [CleanupCurrentRequest_history]
    intro X hX
    exact absurd hX (List.not_mem_nil X)
  destroy := by
    intro W h
    unfold USimpleChat.BeginDestroy
    rw [CleanupCurrentRequest_history]
    exact h

theorem LiteralRoles_run (L : JsonLib) (Inputs : List FChatInput) :
    USimpleChat.LiteralRoles
      (FWorld.Run L USimpleChat.CreateChatInstance Inputs).1.Chat.ChatHistory :=
  Stable_run LiteralRoles_Stable L USimpleChat.CreateChatInstance Inputs
    (fun X hX => absurd hX (List.not_mem_nil X))

theorem RoleLabelIgnoreCase_literal (Role : FString)
    (h : Role = TEXT "system" ∨ Role = TEXT "user" ∨ Role = TEXT "assistant") :
    Spec.RoleLabelIgnoreCase Role = Spec.RoleLabel Role := by
  rcases h with h | h | h <;> rw [h] <;> decide

theorem GetChatHistory_render (W : FWorld) :
    USimpleChat.GetChatHistory W = Spec.RenderHistoryIgnoreCase W.Chat.ChatHistory := by
  unfold USimpleChat.GetChatHistory
  have h := GetChatHistory_foldl W.Chat.ChatHistory []
  simpa [List.append_assoc] using h

theorem RenderHistoryIgnoreCase_eq (History : List FDeepSeekMessage)
    (h : ∀ Message ∈ History,
      Spec.RoleLabelIgnoreCase Message.Role = Spec.RoleLabel Message.Role) :
    Spec.RenderHistoryIgnoreCase History = Spec.RenderHistory History := by
  unfold Spec.RenderHistoryIgnoreCase Spec.RenderHistory
  congr 1
  apply List.map_congr_left
  intro Message hMessage
  rw [h Message hMessage]

/-- C15: in every session reached from a new session by any sequence of
`SendMessage`, `ClearChat`, handler calls, transport signals and teardowns, the
history holds only the roles `system`, `user` and `assistant` as the code writes
them, and `GetChatHistory` returns the concatenation, in history order, of
label ++ content ++ "\n\n" per message, where the label is `User: `,
`Assistant: ` or `System: ` for the role `user`, `assistant` or `system` and
empty for any other role.  For every history whatsoever, `GetChatHistory` is that
concatenation with the role compared to `user`, `assistant` and `system` as the
code compares it (`FString ==`), it is a function of the history alone and
changes no state, and it is the rendering with the role names as written
whenever the two comparisons give every message the same label.  The history
`[system:"S", user:"hi", assistant:"hey"]` renders
`"System: S\n\nUser: hi\n\nAssistant: hey\n\n"`. -/
theorem C15_chat_history_rendering (L : JsonLib) (Inputs : List FChatInput) (W : FWorld) :
    (USimpleChat.LiteralRoles
        (FWorld.Run L USimpleChat.CreateChatInstance Inputs).1.Chat.ChatHistory ∧
      USimpleChat.GetChatHistory (FWorld.Run L USimpleChat.CreateChatInstance Inputs).1 =
        Spec.RenderHistory
          (FWorld.Run L USimpleChat.CreateChatInstance Inputs).1.Chat.ChatHistory) ∧
      USimpleChat.GetChatHistory W = Spec.RenderHistoryIgnoreCase W.Chat.ChatHistory ∧
      (∀ V : FWorld, V.Chat.ChatHistory = W.Chat.ChatHistory →
        USimpleChat.GetChatHistory V = USimpleChat.GetChatHistory W) ∧
      ((∀ Message ∈ W.Chat.ChatHistory,
          Spec.RoleLabelIgnoreCase Message.Role = Spec.RoleLabel Message.Role) →
        USimpleChat.GetChatHistory W = Spec.RenderHistory W.Chat.ChatHistory) ∧
      USimpleChat.GetChatHistory (Sample.SessionWith Sample.History) =
        TEXT "System: S\n\nUser: hi\n\nAssistant: hey\n\n" := by
  refine ⟨⟨LiteralRoles_run L Inputs, ?_⟩, GetChatHistory_render W, ?_, ?_, by decide⟩
  · rw [GetChatHistory_render]
    exact RenderHistoryIgnoreCase_eq _
      (fun Message hMessage =>
        RoleLabelIgnoreCase_literal Message.Role (LiteralRoles_run L Inputs Message hMessage))
  · intro V hV
    rw [GetChatHistory_render V, GetChatHistory_render W, hV]
  · intro hAll
    rw [GetChatHistory_render W]
    exact RenderHistoryIgnoreCase_eq _ hAll

/-- C15 witness: a new session that sends `hi` with the system prompt `S` and
receives the streamed answer `hey` holds the history of the specification example
and renders it as the specification says, with the role names as written. -/
theorem C15_chat_history_rendering_witness :
    (FWorld.Run RefJson USimpleChat.CreateChatInstance
        [FChatInput.SendMessage (TEXT "sk-test") (TEXT "hi") (TEXT "S") (TEXT "deepseek-chat")
            (7 / 10),
          FChatInput.Transport 0 (FTransportSignal.Chunk (Sample.DeltaHey ++ TEXT "\n") 64),
          FChatInput.Transport 0 (FTransportSignal.Chunk Sample.DoneLine 12)]).1.Chat.ChatHistory =
      Sample.History ∧
    USimpleChat.GetChatHistory
        (FWorld.Run RefJson USimpleChat.CreateChatInstance
          [FChatInput.SendMessage (TEXT "sk-test") (TEXT "hi") (TEXT "S") (TEXT "deepseek-chat")
              (7 / 10),
            FChatInput.Transport 0 (FTransportSignal.Chunk (Sample.DeltaHey ++ TEXT "\n") 64),
            FChatInput.Transport 0 (FTransportSignal.Chunk Sample.DoneLine 12)]).1 =
      Spec.RenderHistory
        (FWorld.Run RefJson USimpleChat.CreateChatInstance
          [FChatInput.SendMessage (TEXT "sk-test") (TEXT "hi") (TEXT "S") (TEXT "deepseek-chat")
              (7 / 10),
            FChatInput.Transport 0 (FTransportSignal.Chunk (Sample.DeltaHey ++ TEXT "\n") 64),
            FChatInput.Transport 0
              (FTransportSignal.Chunk Sample.DoneLine 12)]).1.Chat.ChatHistory ∧
    (∀ Message ∈ (Sample.SessionWith Sample.History).Chat.ChatHistory,
      Spec.RoleLabelIgnoreCase Message.Role = Spec.RoleLabel Message.Role) ∧
    USimpleChat.GetChatHistory (Sample.SessionWith Sample.History) =
      Spec.RenderHistory (Sample.SessionWith Sample.History).Chat.ChatHistory ∧
    Spec.RenderHistory Sample.History = TEXT "System: S\n\nUser: hi\n\nAssistant: hey\n\n" :=
  ⟨by decide,
    (C15_chat_history_rendering RefJson _ (Sample.SessionWith Sample.History)).1.2,
    by decide,
    (C15_chat_history_rendering RefJson [] (Sample.SessionWith Sample.History)).2.2.2.1
      (by decide),
    by decide⟩

/-! ### A detached request cannot reach the session -/

theorem Detached_of_objects (W V : FWorld) (Id : Nat) (h : FWorld.Detached W Id)
    (hO : V.Objects[Id]? = W.Objects[Id]?) : FWorld.Detached V Id := by
  unfold FWorld.Detached at h ⊢
  rw [hO]
  exact h

theorem lt_of_getElem?_eq_some {α : Type} (Xs : List α) (i : Nat) (a : α)
    (h : Xs[i]? = some a) : i < Xs.length := by
  by_contra hge
  rw [List.getElem?_eq_none (Nat.le_of_not_lt hge)] at h
  exact absurd h (by simp)

/-- The world after `HandleCompletedResponse`: untouched, or the history replaced
and the request cleaned up. -/
theorem HandleCompletedResponse_world (W : FWorld) (Response : FString) :
    (USimpleChat.HandleCompletedResponse W Response).1 = W ∨
      ∃ History, (USimpleChat.HandleCompletedResponse W Response).1 =
        USimpleChat.CleanupCurrentRequest
          { W with Chat := { W.Chat with ChatHistory := History } } := by
  unfold USimpleChat.HandleCompletedResponse
  by_cases hd : W.Chat.bIsBeingDestroyed = true
  · left
    rw [if_pos hd]
  · right
    rw [if_neg hd]
    dsimp only
    by_cases hT : (!FString.IsEmpty
        (if FString.IsEmpty (USimpleChat.FullStreamedText W) = true then
          W.Chat.AccumulatedResponse
        else USimpleChat.FullStreamedText W)) = true
    · rw [if_pos hT]
      exact ⟨_, rfl⟩
    · rw [if_neg hT]
      exact ⟨W.Chat.ChatHistory, rfl⟩

theorem UpdateObject_getElem (Objects : List UDeepSeekFunction) (Id Old : Nat)
    (f : UDeepSeekFunction → UDeepSeekFunction) :
    (FWorld.UpdateObject Objects Id f)[Old]? =
      if Id = Old then Objects[Old]?.map f else Objects[Old]? := by
  unfold FWorld.UpdateObject
  by_cases hE : Id = Old
  · subst hE
    cases hO : Objects[Id]? with
    | none => simp [hO]
    | some Obj => simp [hO, List.getElem?_set, lt_of_getElem?_eq_some _ _ _ hO]
  · cases hO : Objects[Id]? with
    | none => simp [hE]
    | some Obj => simp [hE, List.getElem?_set]

theorem Detached_cleanup (W : FWorld) (Old : Nat) (h : FWorld.Detached W Old) :
    FWorld.Detached (USimpleChat.CleanupCurrentRequest W) Old := by
  unfold USimpleChat.CleanupCurrentRequest
  cases hR : W.Chat.ApiRequest with
  | none => exact h
  | some Id =>
    obtain ⟨Obj, hO, h1, h2, h3⟩ := h
    unfold FWorld.Detached
    simp only [UpdateObject_getElem]
    by_cases hE : Id = Old
    · refine ⟨RemoveAllChatHandlers Obj, by simp [hE, hO], rfl, rfl, rfl⟩
    · exact ⟨Obj, by simp [hE, hO], h1, h2, h3⟩

theorem Detached_Stable (Old : Nat) : FWorld.Stable (fun W => FWorld.Detached W Old) where
  stream := by
    intro W Response h
    unfold USimpleChat.HandleStreamResponse
    split
    · exact h
    · exact Detached_of_objects W _ Old h rfl
  completed := by
    intro W Response h
    rcases HandleCompletedResponse_world W Response with hE | ⟨History, hE⟩
    · rw [hE]
      exact h
    · rw [hE]
      exact Detached_cleanup _ Old (Detached_of_objects W _ Old h rfl)
  failed := by
    intro W ErrorMessage h
    unfold USimpleChat.HandleFailedResponse
    split
    · exact h
    · exact Detached_cleanup W Old h
  setObject := by
    intro W Id Obj New h hO hS
    obtain ⟨OldObj, hOld, h1, h2, h3⟩ := h
    unfold FWorld.Detached FWorld.SetObject
    by_cases hE : Id = Old
    · subst hE
      rw [hO] at hOld
      have : Obj = OldObj := by simpa using hOld
      subst this
      refine ⟨New, by simp [List.getElem?_set, lt_of_getElem?_eq_some _ _ _ hO], ?_, ?_, ?_⟩
      · rw [hS.1, h1]
      · rw [hS.2.1, h2]
      · rw [hS.2.2, h3]
    · exact ⟨OldObj, by simp [List.getElem?_set, hE, hOld], h1, h2, h3⟩
  send := by
    intro L W APIKey Message SystemPrompt ModelName Temperature h
    by_cases hlive : W.Chat.bIsBeingDestroyed = false
    · by_cases hM : Message = []
      · have : USimpleChat.SendMessage L W APIKey Message SystemPrompt ModelName Temperature =
            (W, [Event.OnFailed (TEXT "Cannot send empty message")]) := by
          unfold USimpleChat.SendMessage
          simp [hlive, hM, FString.IsEmpty]
        rw [this]
        exact h
      · by_cases hK : APIKey = []
        · have : USimpleChat.SendMessage L W APIKey Message SystemPrompt ModelName
              Temperature = (W, [Event.OnFailed (TEXT "API Key is required")]) := by
            unfold USimpleChat.SendMessage
            simp [hlive, hM, hK, FString.IsEmpty]
          rw [this]
          exact h
        · rw [SendMessage_valid L W APIKey Message SystemPrompt ModelName Temperature hlive
            hM hK]
          obtain ⟨Obj, hO, h1, h2, h3⟩ := Detached_cleanup W Old h
          refine ⟨Obj, ?_, h1, h2, h3⟩
          have hlt : Old < (USimpleChat.CleanupCurrentRequest W).Objects.length := by
            by_contra hge
            rw [List.getElem?_eq_none (Nat.le_of_not_lt hge)] at hO
            exact absurd hO (by simp)
          simp only
          rw [List.getElem?_append_left hlt]
          exact hO
    · have : USimpleChat.SendMessage L W APIKey Message SystemPrompt ModelName Temperature =
          (W, []) := by
        unfold USimpleChat.SendMessage
        simp [hlive]
      rw [this]
      exact h
  clear := by
    intro W h
    unfold USimpleChat.ClearChat
    exact Detached_cleanup _ Old (Detached_of_objects W _ Old h rfl)
  destroy := by
    intro W h
    unfold USimpleChat.BeginDestroy
    exact Detached_cleanup _ Old (Detached_of_objects W _ Old h rfl)

theorem Detached_broadcast (W : FWorld) (Old : Nat) (E : Event) (h : FWorld.Detached W Old) :
    FWorld.Broadcast W Old E = (W, []) := by
  obtain ⟨Obj, hO, h1, h2, h3⟩ := h
  unfold FWorld.Broadcast
  rw [hO]
  cases E <;> simp [h1, h2, h3, USimpleChat.InvokeAll]

theorem Detached_broadcastAll (W : FWorld) (Old : Nat) (Events : List Event)
    (h : FWorld.Detached W Old) : FWorld.BroadcastAll W Old Events = (W, []) := by
  induction Events with
  | nil => rfl
  | cons E Events ih => simp [FWorld.BroadcastAll, Detached_broadcast W Old E h, ih]

theorem Detached_setObject (W : FWorld) (Old : Nat) (Obj New : UDeepSeekFunction)
    (h : FWorld.Detached W Old) (hO : W.Objects[Old]? = some Obj) (hS : SameHandlers New Obj) :
    FWorld.Detached (FWorld.SetObject W Old New) Old :=
  (Detached_Stable Old).setObject W Old Obj New h hO hS

theorem Detached_lines (L : JsonLib) (W : FWorld) (Old : Nat) (Lines : List FString)
    (h : FWorld.Detached W Old) :
    (FWorld.HandleStreamLines L W Old Lines).1.Chat = W.Chat ∧
      (FWorld.HandleStreamLines L W Old Lines).2 = [] := by
  induction Lines generalizing W with
  | nil => exact ⟨rfl, rfl⟩
  | cons Line Lines ih =>
    simp only [FWorld.HandleStreamLines]
    cases hO : W.Objects[Old]? with
    | none => exact ⟨rfl, rfl⟩
    | some Obj =>
      have hD := Detached_setObject W Old Obj (HandleStreamLine L Obj Line).1 h hO
        (HandleStreamLine_SameHandlers L Obj Line)
      simp only [Detached_broadcastAll _ Old _ hD, List.nil_append]
      exact ih _ hD

/-- Whatever the transport delivers to a detached request leaves the session as
it is and makes the session broadcast nothing. -/
theorem Detached_deliver (L : JsonLib) (W : FWorld) (Old : Nat) (Signal : FTransportSignal)
    (h : FWorld.Detached W Old) :
    (FWorld.Deliver L W Old Signal).1.Chat = W.Chat ∧ (FWorld.Deliver L W Old Signal).2 = [] := by
  cases Signal with
  | Chunk Data Length =>
    simp only [FWorld.Deliver]
    cases hO : W.Objects[Old]? with
    | none => exact ⟨rfl, rfl⟩
    | some Obj =>
      simp only []
      split
      · exact ⟨rfl, rfl⟩
      · split
        · exact ⟨rfl, rfl⟩
        · exact Detached_lines L W Old _ h
  | Complete Response bWasSuccessful =>
    simp only [FWorld.Deliver]
    cases hO : W.Objects[Old]? with
    | none => exact ⟨rfl, rfl⟩
    | some Obj =>
      have hD := Detached_setObject W Old Obj
        (OnProcessRequestComplete L Obj Response bWasSuccessful).1 h hO
        (OnProcessRequestComplete_SameHandlers L Obj Response bWasSuccessful)
      simp only []
      rw [Detached_broadcastAll _ Old _ hD]
      exact ⟨rfl, rfl⟩

/-- `CleanupCurrentRequest` detaches the request the session pointed to. -/
theorem Detached_after_cleanup (W : FWorld) (Old : Nat) (hOld : W.Chat.ApiRequest = some Old)
    (hlt : Old < W.Objects.length) :
    FWorld.Detached (USimpleChat.CleanupCurrentRequest W) Old := by
  unfold USimpleChat.CleanupCurrentRequest FWorld.Detached
  rw [hOld]
  simp only [UpdateObject_getElem, if_true]
  have hO : W.Objects[Old]? = some (W.Objects.get ⟨Old, hlt⟩) := by simp
  exact ⟨RemoveAllChatHandlers (W.Objects.get ⟨Old, hlt⟩), by rw [hO]; rfl, rfl, rfl, rfl⟩

/-- C14: let `Old` be the in-flight request of a session.  After a valid
`SendMessage` replaces it (the new request is attached under a new index, with
the three handlers bound), and likewise after `ClearChat` drops it, no session
handler is bound to `Old`; and after any further steps of the world, every
broadcast of `Old` (stream delta, completed, failed) and every transport
signal delivered to `Old` leaves the session (history, scratch buffer, request
reference, teardown flag) unchanged and makes the session broadcast nothing. -/
theorem C14_stale_request_cannot_touch_session (L : JsonLib) (W : FWorld) (Old : Nat)
    (APIKey Message SystemPrompt ModelName : FString) (Temperature : ℚ)
    (Inputs : List FChatInput) (E : Event) (Signal : FTransportSignal)
    (hOld : W.Chat.ApiRequest = some Old) (hlt : Old < W.Objects.length)
    (hlive : W.Chat.bIsBeingDestroyed = false) (hM : Message ≠ []) (hK : APIKey ≠ []) :
    (FWorld.Detached
          (USimpleChat.SendMessage L W APIKey Message SystemPrompt ModelName Temperature).1 Old ∧
        (USimpleChat.SendMessage L W APIKey Message SystemPrompt ModelName
          Temperature).1.Chat.ApiRequest = some W.Objects.length ∧
        Old ≠ W.Objects.length ∧
        FWorld.Broadcast
            (FWorld.Run L
              (USimpleChat.SendMessage L W APIKey Message SystemPrompt ModelName Temperature).1
              Inputs).1 Old E =
          ((FWorld.Run L
              (USimpleChat.SendMessage L W APIKey Message SystemPrompt ModelName Temperature).1
              Inputs).1, []) ∧
        (FWorld.Deliver L
            (FWorld.Run L
              (USimpleChat.SendMessage L W APIKey Message SystemPrompt ModelName Temperature).1
              Inputs).1 Old Signal).1.Chat =
          (FWorld.Run L
              (USimpleChat.SendMessage L W APIKey Message SystemPrompt ModelName Temperature).1
              Inputs).1.Chat ∧
        (FWorld.Deliver L
            (FWorld.Run L
              (USimpleChat.SendMessage L W APIKey Message SystemPrompt ModelName Temperature).1
              Inputs).1 Old Signal).2 = []) ∧
      (FWorld.Detached (USimpleChat.ClearChat W) Old ∧
        (USimpleChat.ClearChat W).Chat.ApiRequest = none ∧
        FWorld.Broadcast (FWorld.Run L (USimpleChat.ClearChat W) Inputs).1 Old E =
          ((FWorld.Run L (USimpleChat.ClearChat W) Inputs).1, []) ∧
        (FWorld.Deliver L (FWorld.Run L (USimpleChat.ClearChat W) Inputs).1 Old Signal).1.Chat =
          (FWorld.Run L (USimpleChat.ClearChat W) Inputs).1.Chat ∧
        (FWorld.Deliver L (FWorld.Run L (USimpleChat.ClearChat W) Inputs).1 Old Signal).2 = []) := by
  have hSend : FWorld.Detached
      (USimpleChat.SendMessage L W APIKey Message SystemPrompt ModelName Temperature).1 Old := by
    rw [SendMessage_valid L W APIKey Message SystemPrompt ModelName Temperature hlive hM hK]
    obtain ⟨Obj, hO, h1, h2, h3⟩ := Detached_after_cleanup W Old hOld hlt
    refine ⟨Obj, ?_, h1, h2, h3⟩
    simp only
    rw [List.getElem?_append_left (by rw [CleanupCurrentRequest_length]; exact hlt)]
    exact hO
  have hClear : FWorld.Detached (USimpleChat.ClearChat W) Old := by
    unfold USimpleChat.ClearChat
    exact Detached_after_cleanup _ Old hOld hlt
  have hSendN := Stable_run (Detached_Stable Old) L _ Inputs hSend
  have hClearN := Stable_run (Detached_Stable Old) L _ Inputs hClear
  refine ⟨⟨hSend, ?_, Nat.ne_of_lt hlt, Detached_broadcast _ Old E hSendN,
      (Detached_deliver L _ Old Signal hSendN).1, (Detached_deliver L _ Old Signal hSendN).2⟩,
    ⟨hClear, ?_, Detached_broadcast _ Old E hClearN,
      (Detached_deliver L _ Old Signal hClearN).1, (Detached_deliver L _ Old Signal hClearN).2⟩⟩
  · rw [SendMessage_valid L W APIKey Message SystemPrompt ModelName Temperature hlive hM hK]
  · unfold USimpleChat.ClearChat
    exact CleanupCurrentRequest_request _

/-- C14 witness: the first turn of a session is replaced by a second one; a late
fragment chunk of the first request then reaches nobody. -/
theorem C14_stale_request_cannot_touch_session_witness :
    ((USimpleChat.SendMessage RefJson USimpleChat.CreateChatInstance (TEXT "sk-test")
        (TEXT "hello") [] (TEXT "deepseek-chat") (7 / 10)).1.Chat.ApiRequest = some 0 ∧
      0 < (USimpleChat.SendMessage RefJson USimpleChat.CreateChatInstance (TEXT "sk-test")
        (TEXT "hello") [] (TEXT "deepseek-chat") (7 / 10)).1.Objects.length ∧
      (USimpleChat.SendMessage RefJson USimpleChat.CreateChatInstance (TEXT "sk-test")
        (TEXT "hello") [] (TEXT "deepseek-chat") (7 / 10)).1.Chat.bIsBeingDestroyed = false ∧
      TEXT "again" ≠ [] ∧ TEXT "sk-test" ≠ []) ∧
    (FWorld.Deliver RefJson
        (FWorld.Run RefJson
          (USimpleChat.SendMessage RefJson
            (USimpleChat.SendMessage RefJson USimpleChat.CreateChatInstance (TEXT "sk-test")
              (TEXT "hello") [] (TEXT "deepseek-chat") (7 / 10)).1
            (TEXT "sk-test") (TEXT "again") [] (TEXT "deepseek-chat") (7 / 10)).1
          [FChatInput.Transport 1 (FTransportSignal.Chunk Sample.DeltaLo 64)]).1 0
        (FTransportSignal.Chunk (Sample.DeltaHel ++ TEXT "\n" ++ Sample.DoneLine) 64)).2 = [] ∧
    (FWorld.Run RefJson
        (USimpleChat.SendMessage RefJson
          (USimpleChat.SendMessage RefJson USimpleChat.CreateChatInstance (TEXT "sk-test")
            (TEXT "hello") [] (TEXT "deepseek-chat") (7 / 10)).1
          (TEXT "sk-test") (TEXT "again") [] (TEXT "deepseek-chat") (7 / 10)).1
        [FChatInput.Transport 1 (FTransportSignal.Chunk Sample.DeltaLo 64)]).2 =
      [Event.OnStream (TEXT "lo")] :=
  ⟨by decide,
    (C14_stale_request_cannot_touch_session RefJson
      (USimpleChat.SendMessage RefJson USimpleChat.CreateChatInstance (TEXT "sk-test")
        (TEXT "hello") [] (TEXT "deepseek-chat") (7 / 10)).1 0
      (TEXT "sk-test") (TEXT "again") [] (TEXT "deepseek-chat") (7 / 10)
      [FChatInput.Transport 1 (FTransportSignal.Chunk Sample.DeltaLo 64)]
      (Event.OnStream (TEXT "Hel"))
      (FTransportSignal.Chunk (Sample.DeltaHel ++ TEXT "\n" ++ Sample.DoneLine) 64)
      (by decide) (by decide) (by decide) (by decide) (by decide)).1.2.2.2.2.2,
    by decide⟩

/-! ### An attached request and the scratch buffer -/

theorem InvokeAll_single (W : FWorld) (Handler : FChatHandler) (Payload : FString) :
    USimpleChat.InvokeAll W [Handler] Payload = USimpleChat.Invoke W Handler Payload := by
  simp [USimpleChat.InvokeAll]

theorem Attached_broadcast_stream (W : FWorld) (Id : Nat) (Response : FString)
    (h : FWorld.Attached W Id) :
    FWorld.Broadcast W Id (Event.OnStream Response) =
      USimpleChat.HandleStreamResponse W Response := by
  obtain ⟨_, _, Obj, hO, h1, _, _, _⟩ := h
  unfold FWorld.Broadcast
  rw [hO]
  simp only [h1, InvokeAll_single, USimpleChat.Invoke]

theorem Attached_broadcast_completed (W : FWorld) (Id : Nat) (Response : FString)
    (h : FWorld.Attached W Id) :
    FWorld.Broadcast W Id (Event.OnCompleted Response) =
      USimpleChat.HandleCompletedResponse W Response := by
  obtain ⟨_, _, Obj, hO, _, h2, _, _⟩ := h
  unfold FWorld.Broadcast
  rw [hO]
  simp only [h2, InvokeAll_single, USimpleChat.Invoke]

theorem Attached_broadcast_failed (W : FWorld) (Id : Nat) (Response : FString)
    (h : FWorld.Attached W Id) :
    FWorld.Broadcast W Id (Event.OnFailed Response) =
      USimpleChat.HandleFailedResponse W Response := by
  obtain ⟨_, _, Obj, hO, _, _, h3, _⟩ := h
  unfold FWorld.Broadcast
  rw [hO]
  simp only [h3, InvokeAll_single, USimpleChat.Invoke]

/-- Cleaning up in a world where `Id` is attached lets go of `Id`. -/
theorem Attached_cleanup (W V : FWorld) (Id : Nat) (h : FWorld.Attached W Id)
    (hR : V.Chat.ApiRequest = W.Chat.ApiRequest) (hO : V.Objects = W.Objects) :
    (USimpleChat.CleanupCurrentRequest V).Chat.ApiRequest = none ∧
      FWorld.Detached (USimpleChat.CleanupCurrentRequest V) Id := by
  obtain ⟨_, hA, Obj, hObj, _, _, _, _⟩ := h
  refine ⟨CleanupCurrentRequest_request V, ?_⟩
  apply Detached_after_cleanup V Id (by rw [hR, hA])
  rw [hO]
  exact lt_of_getElem?_eq_some _ _ _ hObj

theorem HandleCompletedResponse_world_live (W : FWorld) (Response : FString)
    (hlive : W.Chat.bIsBeingDestroyed = false) :
    ∃ History, (USimpleChat.HandleCompletedResponse W Response).1 =
      USimpleChat.CleanupCurrentRequest
        { W with Chat := { W.Chat with ChatHistory := History } } := by
  have hd : ¬ W.Chat.bIsBeingDestroyed = true := by simp [hlive]
  unfold USimpleChat.HandleCompletedResponse
  rw [if_neg hd]
  dsimp only
  by_cases hT : (!FString.IsEmpty
      (if FString.IsEmpty (USimpleChat.FullStreamedText W) = true then
        W.Chat.AccumulatedResponse
      else USimpleChat.FullStreamedText W)) = true
  · rw [if_pos hT]
    exact ⟨_, rfl⟩
  · rw [if_neg hT]
    exact ⟨W.Chat.ChatHistory, rfl⟩

/-- A terminal broadcast of an attached request makes the session let go of it. -/
theorem Attached_broadcast_terminal (W : FWorld) (Id : Nat) (E : Event)
    (h : FWorld.Attached W Id) (hE : E.IsTerminal = true) :
    (FWorld.Broadcast W Id E).1.Chat.ApiRequest = none ∧
      FWorld.Detached (FWorld.Broadcast W Id E).1 Id := by
  cases E with
  | OnCompleted Response =>
    rw [Attached_broadcast_completed W Id Response h]
    obtain ⟨History, hW⟩ := HandleCompletedResponse_world_live W Response h.1
    rw [hW]
    exact Attached_cleanup W _ Id h rfl rfl
  | OnFailed Response =>
    rw [Attached_broadcast_failed W Id Response h]
    have hd : ¬ W.Chat.bIsBeingDestroyed = true := by simp [h.1]
    unfold USimpleChat.HandleFailedResponse
    rw [if_neg hd]
    exact Attached_cleanup W W Id h rfl rfl
  | OnStream Response => exact absurd hE (by simp [Event.IsTerminal])
  | OnDebugMessage Message => exact absurd hE (by simp [Event.IsTerminal])
  | CancelRequest => exact absurd hE (by simp [Event.IsTerminal])

/-- Broadcasts other than `OnStream` keep request and session in step. -/
theorem InSync_broadcastAll (W : FWorld) (Id : Nat) (Events : List Event)
    (h : FWorld.InSync W Id) (hS : Events.filterMap Event.StreamPayload = []) :
    FWorld.InSync (FWorld.BroadcastAll W Id Events).1 Id := by
  induction Events generalizing W with
  | nil => exact h
  | cons E Events ih =>
    simp only [FWorld.BroadcastAll]
    have hS2 : Events.filterMap Event.StreamPayload = [] := by
      cases E <;> simp_all [Event.StreamPayload, List.filterMap_cons]
    apply ih _ _ hS2
    rcases h with hA | ⟨hN, hD⟩
    · cases hT : E.IsTerminal with
      | true => exact Or.inr (Attached_broadcast_terminal W Id E hA hT)
      | false =>
        cases E with
        | OnStream Response => simp [Event.StreamPayload, List.filterMap_cons] at hS
        | OnCompleted Response => simp [Event.IsTerminal] at hT
        | OnFailed Response => simp [Event.IsTerminal] at hT
        | OnDebugMessage Message =>
          have hA2 := hA
          obtain ⟨_, _, Obj, hO, _⟩ := hA2
          simp only [FWorld.Broadcast, hO]
          exact Or.inl hA
        | CancelRequest =>
          have hA2 := hA
          obtain ⟨_, _, Obj, hO, _⟩ := hA2
          simp only [FWorld.Broadcast, hO]
          exact Or.inl hA
    · rw [Detached_broadcast W Id E hD]
      exact Or.inr ⟨hN, hD⟩

/-- Writing back a request state with the same handlers and the same buffer keeps
the request attached. -/
theorem Attached_setObject (W : FWorld) (Id : Nat) (Obj New : UDeepSeekFunction)
    (h : FWorld.Attached W Id) (hO : W.Objects[Id]? = some Obj) (hS : SameHandlers New Obj)
    (hB : New.AccumulatedStreamText = Obj.AccumulatedStreamText) :
    FWorld.Attached (FWorld.SetObject W Id New) Id := by
  obtain ⟨hlive, hA, Obj2, hO2, h1, h2, h3, h4⟩ := h
  rw [hO] at hO2
  have : Obj = Obj2 := by simpa using hO2
  subst this
  refine ⟨hlive, hA, New, ?_, ?_, ?_, ?_, ?_⟩
  · simp [FWorld.SetObject, List.getElem?_set, lt_of_getElem?_eq_some _ _ _ hO]
  · rw [hS.1, h1]
  · rw [hS.2.1, h2]
  · rw [hS.2.2, h3]
  · rw [hB]
    exact h4

theorem LineFragment_ne_nil (L : JsonLib) (Line Content : FString)
    (h : Spec.LineFragment L Line = some Content) : Content ≠ [] := by
  unfold Spec.LineFragment at h
  cases hT : Spec.DataToken Line with
  | none => simp [hT] at h
  | some Token =>
    rw [hT] at h
    simp only [Option.some_bind] at h
    cases hD : Spec.IsDone Token with
    | true => simp [hD] at h
    | false =>
      cases hC : Spec.ChoiceContent L (TEXT "delta") Token with
      | none => simp [hD, hC, Option.filter] at h
      | some Found =>
        simp only [hD, hC, Option.filter, Bool.false_eq_true, if_false] at h
        by_cases hE : (!Found.isEmpty) = true
        · simp only [hE, if_true, Option.some.injEq] at h
          subst h
          simpa using hE
        · simp [hE] at h

theorem HandleStreamResponse_live (W : FWorld) (Response : FString)
    (hlive : W.Chat.bIsBeingDestroyed = false) (hne : Response ≠ []) :
    USimpleChat.HandleStreamResponse W Response =
      ({ W with Chat :=
          { W.Chat with AccumulatedResponse := W.Chat.AccumulatedResponse ++ Response } },
        [Event.OnStream Response]) := by
  have hE : FString.IsEmpty Response = false := by simpa [FString.IsEmpty] using hne
  unfold USimpleChat.HandleStreamResponse
  simp [hlive, hE]

/-- One line of a chunk keeps request and session in step. -/
theorem InSync_line (L : JsonLib) (W : FWorld) (Id : Nat) (Line : FString)
    (h : FWorld.InSync W Id) :
    FWorld.InSync (FWorld.HandleStreamLines L W Id [Line]).1 Id := by
  rcases h with hA | ⟨hN, hD⟩
  · obtain ⟨hlive, hReq, Obj, hO, h1, h2, h3, h4⟩ := hA
    have hA : FWorld.Attached W Id := ⟨hlive, hReq, Obj, hO, h1, h2, h3, h4⟩
    simp only [FWorld.HandleStreamLines, hO]
    rcases HandleStreamLine_cases L Obj Line with ⟨_, _, hR⟩ | ⟨_, Content, hF, hR⟩ | ⟨_, _, hR⟩
    · rw [hR]
      unfold MarkDone
      cases hc : Obj.bIsRequestComplete with
      | true =>
        simp only [Bool.not_true, Bool.false_eq_true, if_false, FWorld.BroadcastAll]
        exact Or.inl (Attached_setObject W Id Obj Obj hA hO ⟨rfl, rfl, rfl⟩ rfl)
      | false =>
        simp only [Bool.not_false, if_true]
        apply InSync_broadcastAll
        · exact Or.inl (Attached_setObject W Id Obj _ hA hO ⟨rfl, rfl, rfl⟩ rfl)
        · simp [Event.StreamPayload]
    · rw [hR]
      have hne : Content ≠ [] := LineFragment_ne_nil L Line Content hF
      have hSet : (FWorld.SetObject W Id (AppendFragment Obj Content).1).Objects[Id]? =
          some (AppendFragment Obj Content).1 := by
        simp [FWorld.SetObject, List.getElem?_set, lt_of_getElem?_eq_some _ _ _ hO]
      have hStream : FWorld.Broadcast (FWorld.SetObject W Id (AppendFragment Obj Content).1) Id
          (Event.OnStream Content) =
          USimpleChat.HandleStreamResponse
            (FWorld.SetObject W Id (AppendFragment Obj Content).1) Content := by
        unfold FWorld.Broadcast
        rw [hSet]
        simp only [AppendFragment, h1, InvokeAll_single, USimpleChat.Invoke]
      have hNext : FWorld.Attached
          (USimpleChat.HandleStreamResponse
            (FWorld.SetObject W Id (AppendFragment Obj Content).1) Content).1 Id := by
        rw [HandleStreamResponse_live (FWorld.SetObject W Id (AppendFragment Obj Content).1)
          Content hlive hne]
        refine ⟨hlive, hReq, (AppendFragment Obj Content).1, ?_, h1, h2, h3, ?_⟩
        · simp [FWorld.SetObject, List.getElem?_set, lt_of_getElem?_eq_some _ _ _ hO]
        · simp [FWorld.SetObject, AppendFragment, h4]
      show FWorld.InSync (FWorld.BroadcastAll
        (FWorld.SetObject W Id (AppendFragment Obj Content).1) Id
        (AppendFragment Obj Content).2).1 Id
      have hEv : (AppendFragment Obj Content).2 = Event.OnStream Content ::
          LogDebug Obj (TEXT "Stream content length: " ++
            FString.FromInt (FString.Len Content)) := rfl
      rw [hEv]
      simp only [FWorld.BroadcastAll, hStream]
      exact InSync_broadcastAll _ Id _ (Or.inl hNext) (LogDebug_filterMap_StreamPayload _ _)
    · rw [hR]
      simp only [FWorld.BroadcastAll]
      exact Or.inl (Attached_setObject W Id Obj Obj hA hO ⟨rfl, rfl, rfl⟩ rfl)
  · have hK := Detached_lines L W Id [Line] hD
    refine Or.inr ⟨by rw [hK.1]; exact hN, ?_⟩
    exact Stable_lines (Detached_Stable Id) L W Id [Line] hD

theorem FWorld.HandleStreamLines_cons_world (L : JsonLib) (W : FWorld) (Id : Nat)
    (Line : FString) (Lines : List FString) :
    (FWorld.HandleStreamLines L W Id (Line :: Lines)).1 =
      (FWorld.HandleStreamLines L (FWorld.HandleStreamLines L W Id [Line]).1 Id Lines).1 := by
  simp only [FWorld.HandleStreamLines]
  cases hO : W.Objects[Id]? with
  | none =>
    cases Lines with
    | nil => rfl
    | cons X Xs => simp [FWorld.HandleStreamLines, hO]
  | some Obj => rfl

theorem InSync_lines (L : JsonLib) (W : FWorld) (Id : Nat) (Lines : List FString)
    (h : FWorld.InSync W Id) : FWorld.InSync (FWorld.HandleStreamLines L W Id Lines).1 Id := by
  induction Lines generalizing W with
  | nil => exact h
  | cons Line Lines ih =>
    rw [FWorld.HandleStreamLines_cons_world]
    exact ih _ (InSync_line L W Id Line h)

theorem SafeRemoveFromRoot_buffer (st : UDeepSeekFunction) :
    (SafeRemoveFromRoot st).AccumulatedStreamText = st.AccumulatedStreamText :=
  (SafeRemoveFromRoot_fields st).2.1

theorem ResetAndRemoveFromRoot_buffer (st : UDeepSeekFunction) :
    (ResetAndRemoveFromRoot st).AccumulatedStreamText = st.AccumulatedStreamText := by
  unfold ResetAndRemoveFromRoot
  rw [SafeRemoveFromRoot_buffer]

/-- The completion handler leaves the accumulated buffer alone. -/
theorem OnProcessRequestComplete_buffer (L : JsonLib) (st : UDeepSeekFunction)
    (Response : Option FHttpResponse) (bWasSuccessful : Bool) :
    (OnProcessRequestComplete L st Response bWasSuccessful).1.AccumulatedStreamText =
      st.AccumulatedStreamText := by
  have hS := SafeRemoveFromRoot_buffer st
  have hR := ResetAndRemoveFromRoot_buffer st
  have hR2 : (ResetAndRemoveFromRoot { st with bIsRequestComplete := true }).AccumulatedStreamText
      = st.AccumulatedStreamText :=
    ResetAndRemoveFromRoot_buffer { st with bIsRequestComplete := true }
  unfold OnProcessRequestComplete
  dsimp only
  repeat' (first | exact hS | exact hR | exact hR2 | split)

/-- The completion handler never broadcasts `OnStream`. -/
theorem OnProcessRequestComplete_no_stream (L : JsonLib) (st : UDeepSeekFunction)
    (Response : Option FHttpResponse) (bWasSuccessful : Bool) :
    (OnProcessRequestComplete L st Response bWasSuccessful).2.filterMap Event.StreamPayload =
      [] := by
  unfold OnProcessRequestComplete
  dsimp only
  repeat' split
  all_goals simp [LogDebug_filterMap_StreamPayload, Event.StreamPayload, List.filterMap_append,
    List.filterMap_cons]

theorem InSync_deliver (L : JsonLib) (W : FWorld) (Id : Nat) (Signal : FTransportSignal)
    (h : FWorld.InSync W Id) : FWorld.InSync (FWorld.Deliver L W Id Signal).1 Id := by
  cases Signal with
  | Chunk Data Length =>
    simp only [FWorld.Deliver]
    cases hO : W.Objects[Id]? with
    | none => exact h
    | some Obj =>
      simp only []
      split
      · exact h
      · split
        · exact h
        · exact InSync_lines L W Id _ h
  | Complete Response bWasSuccessful =>
    rcases h with hA | ⟨hN, hD⟩
    · have hA2 := hA
      obtain ⟨_, _, Obj, hO, _⟩ := hA2
      simp only [FWorld.Deliver, hO]
      apply InSync_broadcastAll
      · exact Or.inl (Attached_setObject W Id Obj _ hA hO
          (OnProcessRequestComplete_SameHandlers L Obj Response bWasSuccessful)
          (OnProcessRequestComplete_buffer L Obj Response bWasSuccessful))
      · exact OnProcessRequestComplete_no_stream L Obj Response bWasSuccessful
    · have hK := Detached_deliver L W Id (FTransportSignal.Complete Response bWasSuccessful) hD
      refine Or.inr ⟨by rw [hK.1]; exact hN, ?_⟩
      exact Stable_deliver (Detached_Stable Id) L W Id _ hD

theorem InSync_deliverAll (L : JsonLib) (W : FWorld) (Id : Nat)
    (Signals : List FTransportSignal) (h : FWorld.InSync W Id) :
    FWorld.InSync (FWorld.DeliverAll L W Id Signals).1 Id := by
  induction Signals generalizing W with
  | nil => exact h
  | cons Signal Signals ih =>
    simp only [FWorld.DeliverAll]
    exact ih _ (InSync_deliver L W Id Signal h)

/-- After a valid `SendMessage` the new request is attached: live session, the
three handlers bound, request buffer and scratch buffer both empty. -/
theorem Attached_after_send (L : JsonLib) (W : FWorld)
    (APIKey Message SystemPrompt ModelName : FString) (Temperature : ℚ)
    (hlive : W.Chat.bIsBeingDestroyed = false) (hM : Message ≠ []) (hK : APIKey ≠ []) :
    FWorld.Attached
        (USimpleChat.SendMessage L W APIKey Message SystemPrompt ModelName Temperature).1
        W.Objects.length ∧
      (USimpleChat.SendMessage L W APIKey Message SystemPrompt ModelName
        Temperature).1.Chat.AccumulatedResponse = [] := by
  rw [SendMessage_valid L W APIKey Message SystemPrompt ModelName Temperature hlive hM hK]
  refine ⟨⟨rfl, rfl,
    AddChatHandlers (SendRequest L (USimpleChat.MakeParams APIKey ModelName
      (Spec.HistoryAfterSend W.Chat.ChatHistory Message SystemPrompt) Temperature)).1,
    ?_, rfl, rfl, rfl, rfl⟩, rfl⟩
  simp only
  rw [← CleanupCurrentRequest_length W]
  simp

theorem Attached_FullStreamedText (W : FWorld) (Id : Nat) (h : FWorld.Attached W Id) :
    USimpleChat.FullStreamedText W = W.Chat.AccumulatedResponse := by
  obtain ⟨_, hReq, Obj, hO, _, _, _, hB⟩ := h
  unfold USimpleChat.FullStreamedText
  rw [hReq]
  simp only [hO]
  exact hB

theorem CompletionText_self (Text : FString) : Spec.CompletionText Text Text = Text := by
  unfold Spec.CompletionText
  split <;> rfl

/-- C12 witness: the completion handler on a turn that streamed `Hel` records the
`assistant` Message `Hel`; on a turn that streamed nothing it reports the empty
response. -/
theorem C12_completion_folds_text_into_history_witness :
    Sample.FirstTurnStreaming.Chat.bIsBeingDestroyed = false ∧
    Spec.CompletionText (USimpleChat.FullStreamedText Sample.FirstTurnStreaming)
      Sample.FirstTurnStreaming.Chat.AccumulatedResponse = TEXT "Hel" ∧
    (USimpleChat.HandleCompletedResponse Sample.FirstTurnStreaming []).1.Chat.ChatHistory =
      [FDeepSeekMessage.mk (TEXT "user") (TEXT "hello"),
        FDeepSeekMessage.mk (TEXT "assistant") (TEXT "Hel")] ∧
    (USimpleChat.HandleCompletedResponse Sample.FirstTurn (TEXT "hi")).2 =
      [Event.OnFailed (TEXT "Received empty response")] ∧
    (USimpleChat.HandleCompletedResponse Sample.FirstTurnStreaming []).1.Chat.ApiRequest =
      none :=
  ⟨by decide, by decide, by decide, by decide,
    (C12_completion_folds_text_into_history Sample.FirstTurnStreaming [] (by decide)).2.2⟩

/-! ### The completed payload is not used -/

theorem Broadcast_non_notification (W : FWorld) (Id : Nat) (E : Event)
    (hE : E.IsNotification = false) : FWorld.Broadcast W Id E = (W, []) := by
  unfold FWorld.Broadcast
  cases W.Objects[Id]? with
  | none => rfl
  | some Obj => cases E <;> simp_all [Event.IsNotification]

/-- Only the response notifications of a request reach the session. -/
theorem BroadcastAll_Notifications (W : FWorld) (Id : Nat) (Events : List Event) :
    FWorld.BroadcastAll W Id Events = FWorld.BroadcastAll W Id (Notifications Events) := by
  induction Events generalizing W with
  | nil => rfl
  | cons E Events ih =>
    cases hE : E.IsNotification with
    | true =>
      have : Notifications (E :: Events) = E :: Notifications Events := by
        simp [Notifications, hE]
      rw [this]
      simp only [FWorld.BroadcastAll]
      rw [ih]
    | false =>
      have : Notifications (E :: Events) = Notifications Events := by
        simp [Notifications, hE]
      rw [this]
      simp only [FWorld.BroadcastAll, Broadcast_non_notification W Id E hE, List.nil_append]
      rw [ih]

/-- A completed notification that reaches a session whose attached request and
scratch buffer are both empty is answered with the empty-response failure. -/
theorem Attached_completed_empty (W : FWorld) (Id : Nat) (Payload : FString)
    (h : FWorld.Attached W Id) (hS : W.Chat.AccumulatedResponse = []) :
    (FWorld.BroadcastAll W Id [Event.OnCompleted Payload]).2 =
        [Event.OnFailed (TEXT "Received empty response")] ∧
      (FWorld.BroadcastAll W Id [Event.OnCompleted Payload]).1.Chat.ChatHistory =
        W.Chat.ChatHistory := by
  have hText := Attached_FullStreamedText W Id h
  have hC := (HandleCompletedResponse_text W Payload h.1).2.1
    (by rw [hText, CompletionText_self, hS])
  simp only [FWorld.BroadcastAll, Attached_broadcast_completed W Id Payload h,
    List.append_nil]
  exact ⟨hC.2, hC.1⟩

/-- C17: `HandleCompletedResponse` gives the same world and the same broadcasts
for any two payloads.  In particular, when the request started by a valid
`SendMessage` completes through the non-streaming path (nothing streamed, a body
without a top-level `error` field), the request broadcasts `OnCompleted` with the
content of the body, yet the session broadcasts
`OnFailed("Received empty response")` and leaves the history as it was: no
`assistant` Message is recorded. -/
theorem C17_completion_ignores_payload (L : JsonLib) (W : FWorld)
    (APIKey Message SystemPrompt ModelName : FString) (Temperature : ℚ)
    (R : FHttpResponse) (Payload1 Payload2 : FString)
    (hlive : W.Chat.bIsBeingDestroyed = false) (hM : Message ≠ []) (hK : APIKey ≠ [])
    (hne : Spec.HasTopLevelError L R.Content = false) :
    (∀ V : FWorld, USimpleChat.HandleCompletedResponse V Payload1 =
        USimpleChat.HandleCompletedResponse V Payload2) ∧
      (∃ Obj,
        (USimpleChat.SendMessage L W APIKey Message SystemPrompt ModelName
          Temperature).1.Objects[W.Objects.length]? = some Obj ∧
        Notifications (OnProcessRequestComplete L Obj (some R) true).2 =
          [Event.OnCompleted (Spec.MessageContentOrRaw L R.Content)]) ∧
      (FWorld.Deliver L
          (USimpleChat.SendMessage L W APIKey Message SystemPrompt ModelName Temperature).1
          W.Objects.length (FTransportSignal.Complete (some R) true)).2 =
        [Event.OnFailed (TEXT "Received empty response")] ∧
      (FWorld.Deliver L
          (USimpleChat.SendMessage L W APIKey Message SystemPrompt ModelName Temperature).1
          W.Objects.length (FTransportSignal.Complete (some R) true)).1.Chat.ChatHistory =
        (USimpleChat.SendMessage L W APIKey Message SystemPrompt ModelName
          Temperature).1.Chat.ChatHistory := by
  have hObj := SendMessage_object L W APIKey Message SystemPrompt ModelName Temperature
    hlive hM hK
  have hStart := Attached_after_send L W APIKey Message SystemPrompt ModelName Temperature
    hlive hM hK
  have hReq := OnProcessRequestComplete_non_streaming L
    (AddChatHandlers (SendRequest L (USimpleChat.MakeParams APIKey ModelName
      (Spec.HistoryAfterSend W.Chat.ChatHistory Message SystemPrompt) Temperature)).1)
    R rfl rfl hne
  refine ⟨fun V => rfl, ⟨_, hObj, hReq⟩, ?_⟩
  have hA := Attached_setObject _ W.Objects.length _
    (OnProcessRequestComplete L
      (AddChatHandlers (SendRequest L (USimpleChat.MakeParams APIKey ModelName
        (Spec.HistoryAfterSend W.Chat.ChatHistory Message SystemPrompt) Temperature)).1)
      (some R) true).1 hStart.1 hObj
    (OnProcessRequestComplete_SameHandlers L _ (some R) true)
    (OnProcessRequestComplete_buffer L _ (some R) true)
  have hE := Attached_completed_empty _ W.Objects.length
    (Spec.MessageContentOrRaw L R.Content) hA hStart.2
  simp only [FWorld.Deliver, hObj]
  rw [BroadcastAll_Notifications, hReq]
  exact hE

/-- C17 witness: the first turn of a new session is answered with the success body
of the specification in one piece; the request completes with `hi`, the session
reports an empty response. -/
theorem C17_completion_ignores_payload_witness :
    (USimpleChat.CreateChatInstance.Chat.bIsBeingDestroyed = false ∧ TEXT "hello" ≠ [] ∧
      TEXT "sk-test" ≠ [] ∧
      Spec.HasTopLevelError RefJson (FHttpResponse.mk 200 Sample.BodyHi).Content = false) ∧
    (OnProcessRequestComplete RefJson Sample.Fresh
        (some (FHttpResponse.mk 200 Sample.BodyHi)) true).2 = [Event.OnCompleted (TEXT "hi")] ∧
    (FWorld.Deliver RefJson
        (USimpleChat.SendMessage RefJson USimpleChat.CreateChatInstance (TEXT "sk-test")
          (TEXT "hello") [] (TEXT "deepseek-chat") (7 / 10)).1
        USimpleChat.CreateChatInstance.Objects.length
        (FTransportSignal.Complete (some (FHttpResponse.mk 200 Sample.BodyHi)) true)).2 =
      [Event.OnFailed (TEXT "Received empty response")] ∧
    (FWorld.Deliver RefJson Sample.FirstTurn 0
        (FTransportSignal.Complete (some (FHttpResponse.mk 200 Sample.BodyHi))
          true)).1.Chat.ChatHistory =
      [FDeepSeekMessage.mk (TEXT "user") (TEXT "hello")] :=
  ⟨by decide, by decide,
    (C17_completion_ignores_payload RefJson USimpleChat.CreateChatInstance (TEXT "sk-test")
      (TEXT "hello") [] (TEXT "deepseek-chat") (7 / 10) (FHttpResponse.mk 200 Sample.BodyHi)
      (TEXT "hi") [] (by decide) (by decide) (by decide) (by decide)).2.2.1,
    by decide⟩

/-! ### The request inside the world is the request on its own -/

theorem HandleStreamLine_RemoveAll (L : JsonLib) (st : UDeepSeekFunction) (Line : FString) :
    RemoveAllChatHandlers (HandleStreamLine L st Line).1 =
      (HandleStreamLine L (RemoveAllChatHandlers st) Line).1 := by
  rw [HandleStreamLine_eq, HandleStreamLine_eq]
  rcases st with ⟨a, b, c, d, e, f, g, h, i⟩
  split
  · cases f <;> simp [MarkDone, RemoveAllChatHandlers]
  · split
    · simp [AppendFragment, RemoveAllChatHandlers]
    · rfl

theorem OnProcessRequestComplete_RemoveAll (L : JsonLib) (st : UDeepSeekFunction)
    (Response : Option FHttpResponse) (bWasSuccessful : Bool) :
    RemoveAllChatHandlers (OnProcessRequestComplete L st Response bWasSuccessful).1 =
      (OnProcessRequestComplete L (RemoveAllChatHandlers st) Response bWasSuccessful).1 := by
  rcases st with ⟨a, b, c, d, e, f, g, h, i⟩
  cases i <;> cases g <;> cases f <;> cases bWasSuccessful <;> cases Response <;>
    simp [OnProcessRequestComplete, RemoveAllChatHandlers, SafeRemoveFromRoot,
      ResetAndRemoveFromRoot, LogDebug, FString.IsEmpty] <;>
    (try (cases e <;> simp)) <;>
    (try (split <;> (try split) <;> (try split) <;> simp [RemoveAllChatHandlers]))

theorem HandleStreamLine_SameState (L : JsonLib) (X Y : UDeepSeekFunction) (Line : FString)
    (h : SameState X Y) :
    SameState (HandleStreamLine L X Line).1 (HandleStreamLine L Y Line).1 := by
  unfold SameState at h ⊢
  rw [HandleStreamLine_RemoveAll, HandleStreamLine_RemoveAll, h]

theorem OnProcessRequestComplete_SameState (L : JsonLib) (X Y : UDeepSeekFunction)
    (Response : Option FHttpResponse) (bWasSuccessful : Bool) (h : SameState X Y) :
    SameState (OnProcessRequestComplete L X Response bWasSuccessful).1
      (OnProcessRequestComplete L Y Response bWasSuccessful).1 := by
  unfold SameState at h ⊢
  rw [OnProcessRequestComplete_RemoveAll, OnProcessRequestComplete_RemoveAll, h]

theorem SameState_destroyed (X Y : UDeepSeekFunction) (h : SameState X Y) :
    X.bIsBeingDestroyed = Y.bIsBeingDestroyed := by
  have h2 : (RemoveAllChatHandlers X).bIsBeingDestroyed =
      (RemoveAllChatHandlers Y).bIsBeingDestroyed := congrArg _ h
  exact h2

theorem SameState_buffer (X Y : UDeepSeekFunction) (h : SameState X Y) :
    X.AccumulatedStreamText = Y.AccumulatedStreamText := by
  have h2 : (RemoveAllChatHandlers X).AccumulatedStreamText =
      (RemoveAllChatHandlers Y).AccumulatedStreamText := congrArg _ h
  exact h2

theorem ObjectIs_of_objects (W V : FWorld) (Id : Nat) (Y : UDeepSeekFunction)
    (h : FWorld.ObjectIs W Id Y) (hO : V.Objects[Id]? = W.Objects[Id]?) :
    FWorld.ObjectIs V Id Y := by
  unfold FWorld.ObjectIs at h ⊢
  rw [hO]
  exact h

theorem ObjectIs_cleanup (W : FWorld) (Id : Nat) (Y : UDeepSeekFunction)
    (h : FWorld.ObjectIs W Id Y) : FWorld.ObjectIs (USimpleChat.CleanupCurrentRequest W) Id Y := by
  unfold USimpleChat.CleanupCurrentRequest
  cases hR : W.Chat.ApiRequest with
  | none => exact h
  | some Cur =>
    obtain ⟨X, hO, hS⟩ := h
    unfold FWorld.ObjectIs
    simp only [UpdateObject_getElem]
    by_cases hE : Cur = Id
    · exact ⟨RemoveAllChatHandlers X, by simp [hE, hO], hS⟩
    · exact ⟨X, by simp [hE, hO], hS⟩

/-- A property kept by the three session handlers is kept by every broadcast. -/
theorem Handlers_broadcastAll {P : FWorld → Prop}
    (hs : ∀ W Response, P W → P (USimpleChat.HandleStreamResponse W Response).1)
    (hc : ∀ W Response, P W → P (USimpleChat.HandleCompletedResponse W Response).1)
    (hf : ∀ W Response, P W → P (USimpleChat.HandleFailedResponse W Response).1)
    (W : FWorld) (Id : Nat) (Events : List Event) (h : P W) :
    P (FWorld.BroadcastAll W Id Events).1 := by
  have hInvokeAll : ∀ (Handlers : List FChatHandler) (V : FWorld) (Payload : FString),
      P V → P (USimpleChat.InvokeAll V Handlers Payload).1 := by
    intro Handlers
    induction Handlers with
    | nil => intro V _ hV; exact hV
    | cons Handler Handlers ih =>
      intro V Payload hV
      simp only [USimpleChat.InvokeAll]
      apply ih
      cases Handler
      · exact hs V Payload hV
      · exact hc V Payload hV
      · exact hf V Payload hV
  induction Events generalizing W with
  | nil => exact h
  | cons E Events ih =>
    simp only [FWorld.BroadcastAll]
    apply ih
    unfold FWorld.Broadcast
    cases W.Objects[Id]? with
    | none => exact h
    | some Obj =>
      cases E with
      | OnStream Response => exact hInvokeAll _ W Response h
      | OnCompleted Response => exact hInvokeAll _ W Response h
      | OnFailed Response => exact hInvokeAll _ W Response h
      | OnDebugMessage Message => exact h
      | CancelRequest => exact h

theorem ObjectIs_broadcastAll (W : FWorld) (Id Src : Nat) (Y : UDeepSeekFunction)
    (Events : List Event) (h : FWorld.ObjectIs W Id Y) :
    FWorld.ObjectIs (FWorld.BroadcastAll W Src Events).1 Id Y := by
  apply Handlers_broadcastAll (P := fun V => FWorld.ObjectIs V Id Y) _ _ _ W Src Events h
  · intro V Response hV
    unfold USimpleChat.HandleStreamResponse
    split
    · exact hV
    · exact ObjectIs_of_objects V _ Id Y hV rfl
  · intro V Response hV
    rcases HandleCompletedResponse_world V Response with hE | ⟨History, hE⟩
    · rw [hE]
      exact hV
    · rw [hE]
      exact ObjectIs_cleanup _ Id Y (ObjectIs_of_objects V _ Id Y hV rfl)
  · intro V Response hV
    unfold USimpleChat.HandleFailedResponse
    split
    · exact hV
    · exact ObjectIs_cleanup V Id Y hV

theorem ObjectIs_setObject (W : FWorld) (Id : Nat) (Old New : UDeepSeekFunction)
    (hO : W.Objects[Id]? = some Old) : FWorld.ObjectIs (FWorld.SetObject W Id New) Id New :=
  ⟨New, by simp [FWorld.SetObject, List.getElem?_set, lt_of_getElem?_eq_some _ _ _ hO], rfl⟩

theorem ObjectIs_SameState (W : FWorld) (Id : Nat) (Y Z : UDeepSeekFunction)
    (h : FWorld.ObjectIs W Id Y) (hS : SameState Y Z) : FWorld.ObjectIs W Id Z := by
  obtain ⟨X, hO, hX⟩ := h
  exact ⟨X, hO, hX.trans hS⟩

/-- The loop run inside the world moves the request exactly as the loop of
`HandleStreamData` does on the request alone. -/
theorem ObjectIs_lines (L : JsonLib) (W : FWorld) (Id : Nat) (Y : UDeepSeekFunction)
    (Lines : List FString) (h : FWorld.ObjectIs W Id Y) :
    FWorld.ObjectIs (FWorld.HandleStreamLines L W Id Lines).1 Id
      (HandleStreamLines L Y Lines).1 := by
  induction Lines generalizing W Y with
  | nil => exact h
  | cons Line Lines ih =>
    obtain ⟨X, hO, hS⟩ := h
    simp only [FWorld.HandleStreamLines, hO, HandleStreamLines]
    apply ih
    apply ObjectIs_SameState _ Id (HandleStreamLine L X Line).1
    · exact ObjectIs_broadcastAll _ Id Id _ _ (ObjectIs_setObject W Id X _ hO)
    · exact HandleStreamLine_SameState L X Y Line hS

/-- A transport signal delivered inside the world moves the request exactly as the
delegate does on the request alone. -/
theorem ObjectIs_deliver (L : JsonLib) (W : FWorld) (Id : Nat) (Y : UDeepSeekFunction)
    (Signal : FTransportSignal) (h : FWorld.ObjectIs W Id Y) :
    FWorld.ObjectIs (FWorld.Deliver L W Id Signal).1 Id (Deliver L Y Signal).1 := by
  have h2 := h
  obtain ⟨X, hO, hS⟩ := h2
  have hd := SameState_destroyed X Y hS
  cases Signal with
  | Chunk Data Length =>
    simp only [FWorld.Deliver, hO, Deliver, StreamDelegate, HandleStreamData, hd]
    cases Y.bIsBeingDestroyed with
    | true => simpa using h
    | false =>
      by_cases hL : Length ≤ 0
      · simpa [hL] using h
      · simp only [hL, decide_False, Bool.or_self, Bool.false_eq_true, if_false]
        exact ObjectIs_lines L W Id Y _ h
  | Complete Response bWasSuccessful =>
    simp only [FWorld.Deliver, hO, Deliver]
    apply ObjectIs_SameState _ Id (OnProcessRequestComplete L X Response bWasSuccessful).1
    · exact ObjectIs_broadcastAll _ Id Id _ _ (ObjectIs_setObject W Id X _ hO)
    · exact OnProcessRequestComplete_SameState L X Y Response bWasSuccessful hS

theorem ObjectIs_deliverAll (L : JsonLib) (W : FWorld) (Id : Nat) (Y : UDeepSeekFunction)
    (Signals : List FTransportSignal) (h : FWorld.ObjectIs W Id Y) :
    FWorld.ObjectIs (FWorld.DeliverAll L W Id Signals).1 Id (DeliverAll L Y Signals).1 := by
  induction Signals generalizing W Y with
  | nil => exact h
  | cons Signal Signals ih =>
    simp only [FWorld.DeliverAll, DeliverAll]
    exact ih _ _ (ObjectIs_deliver L W Id Y Signal h)

/-! ### The scratch buffer is the concatenation of the delivered deltas -/

theorem ScratchGrows_refl (W : FWorld) : FWorld.ScratchGrows W (W, []) := by
  simp [FWorld.ScratchGrows]

theorem ScratchGrows_trans (W : FWorld) (r rs : FWorld × List Event)
    (h1 : FWorld.ScratchGrows W r) (h2 : FWorld.ScratchGrows r.1 rs) :
    FWorld.ScratchGrows W (rs.1, r.2 ++ rs.2) := by
  unfold FWorld.ScratchGrows at *
  simp only [h2, h1, List.filterMap_append, List.flatten_append, List.append_assoc]

theorem HandleCompletedResponse_scratch (W : FWorld) (Response : FString) :
    (USimpleChat.HandleCompletedResponse W Response).1.Chat.AccumulatedResponse =
        W.Chat.AccumulatedResponse ∧
      (USimpleChat.HandleCompletedResponse W Response).2.filterMap Event.StreamPayload = [] := by
  unfold USimpleChat.HandleCompletedResponse
  by_cases hd : W.Chat.bIsBeingDestroyed = true
  · rw [if_pos hd]
    exact ⟨rfl, rfl⟩
  · rw [if_neg hd]
    dsimp only
    by_cases hT : (!FString.IsEmpty
        (if FString.IsEmpty (USimpleChat.FullStreamedText W) = true then
          W.Chat.AccumulatedResponse
        else USimpleChat.FullStreamedText W)) = true
    · rw [if_pos hT]
      exact ⟨CleanupCurrentRequest_scratch _, rfl⟩
    · rw [if_neg hT]
      exact ⟨CleanupCurrentRequest_scratch _, rfl⟩

theorem ScratchGrows_invoke (W : FWorld) (Handler : FChatHandler) (Payload : FString) :
    FWorld.ScratchGrows W (USimpleChat.Invoke W Handler Payload) := by
  cases Handler with
  | HandleStreamResponse =>
    simp only [USimpleChat.Invoke, USimpleChat.HandleStreamResponse]
    split
    · exact ScratchGrows_refl W
    · simp [FWorld.ScratchGrows, Event.StreamPayload]
  | HandleCompletedResponse =>
    simp only [USimpleChat.Invoke]
    have h := HandleCompletedResponse_scratch W Payload
    unfold FWorld.ScratchGrows
    rw [h.1, h.2]
    simp
  | HandleFailedResponse =>
    simp only [USimpleChat.Invoke]
    unfold FWorld.ScratchGrows USimpleChat.HandleFailedResponse
    split <;> simp [CleanupCurrentRequest_scratch, Event.StreamPayload]

theorem ScratchGrows_invokeAll (W : FWorld) (Handlers : List FChatHandler)
    (Payload : FString) :
    FWorld.ScratchGrows W (USimpleChat.InvokeAll W Handlers Payload) := by
  induction Handlers generalizing W with
  | nil => exact ScratchGrows_refl W
  | cons Handler Handlers ih =>
    simp only [USimpleChat.InvokeAll]
    exact ScratchGrows_trans W _ _ (ScratchGrows_invoke W Handler Payload) (ih _)

theorem ScratchGrows_broadcast (W : FWorld) (Id : Nat) (E : Event) :
    FWorld.ScratchGrows W (FWorld.Broadcast W Id E) := by
  unfold FWorld.Broadcast
  cases W.Objects[Id]? with
  | none => exact ScratchGrows_refl W
  | some Obj =>
    cases E with
    | OnStream Response => exact ScratchGrows_invokeAll W _ Response
    | OnCompleted Response => exact ScratchGrows_invokeAll W _ Response
    | OnFailed Response => exact ScratchGrows_invokeAll W _ Response
    | OnDebugMessage Message => exact ScratchGrows_refl W
    | CancelRequest => exact ScratchGrows_refl W

theorem ScratchGrows_broadcastAll (W : FWorld) (Id : Nat) (Events : List Event) :
    FWorld.ScratchGrows W (FWorld.BroadcastAll W Id Events) := by
  induction Events generalizing W with
  | nil => exact ScratchGrows_refl W
  | cons E Events ih =>
    simp only [FWorld.BroadcastAll]
    exact ScratchGrows_trans W _ _ (ScratchGrows_broadcast W Id E) (ih _)

theorem ScratchGrows_setObject (W : FWorld) (Id : Nat) (New : UDeepSeekFunction)
    (r : FWorld × List Event) (h : FWorld.ScratchGrows (FWorld.SetObject W Id New) r) :
    FWorld.ScratchGrows W r := h

theorem ScratchGrows_lines (L : JsonLib) (W : FWorld) (Id : Nat) (Lines : List FString) :
    FWorld.ScratchGrows W (FWorld.HandleStreamLines L W Id Lines) := by
  induction Lines generalizing W with
  | nil => exact ScratchGrows_refl W
  | cons Line Lines ih =>
    simp only [FWorld.HandleStreamLines]
    cases hO : W.Objects[Id]? with
    | none => exact ScratchGrows_refl W
    | some Obj =>
      simp only []
      exact ScratchGrows_trans W _ _
        (ScratchGrows_setObject W Id _ _ (ScratchGrows_broadcastAll _ Id _)) (ih _)

theorem ScratchGrows_deliver (L : JsonLib) (W : FWorld) (Id : Nat) (Signal : FTransportSignal) :
    FWorld.ScratchGrows W (FWorld.Deliver L W Id Signal) := by
  cases Signal with
  | Chunk Data Length =>
    simp only [FWorld.Deliver]
    cases hO : W.Objects[Id]? with
    | none => exact ScratchGrows_refl W
    | some Obj =>
      simp only []
      split
      · exact ScratchGrows_refl W
      · split
        · exact ScratchGrows_refl W
        · exact ScratchGrows_lines L W Id _
  | Complete Response bWasSuccessful =>
    simp only [FWorld.Deliver]
    cases hO : W.Objects[Id]? with
    | none => exact ScratchGrows_refl W
    | some Obj =>
      simp only []
      exact ScratchGrows_setObject W Id _ _ (ScratchGrows_broadcastAll _ Id _)

/-- Over any sequence of transport signals the scratch buffer grows by exactly the
stream payloads the session broadcast, that is by the deltas it was handed. -/
theorem ScratchGrows_deliverAll (L : JsonLib) (W : FWorld) (Id : Nat)
    (Signals : List FTransportSignal) :
    FWorld.ScratchGrows W (FWorld.DeliverAll L W Id Signals) := by
  induction Signals generalizing W with
  | nil => exact ScratchGrows_refl W
  | cons Signal Signals ih =>
    simp only [FWorld.DeliverAll]
    exact ScratchGrows_trans W _ _ (ScratchGrows_deliver L W Id Signal) (ih _)

theorem Deliver_buffer (L : JsonLib) (st : UDeepSeekFunction) (Signal : FTransportSignal) :
    (Deliver L st Signal).1.AccumulatedStreamText =
      st.AccumulatedStreamText ++
        ((Deliver L st Signal).2.filterMap Event.StreamPayload).flatten := by
  cases Signal with
  | Chunk Data Length =>
    simp only [Deliver, StreamDelegate, HandleStreamData]
    split
    · simp
    · split
      · simp
      · simp only [HandleStreamLines_buffer, HandleStreamLines_stream]
  | Complete Response bWasSuccessful =>
    simp only [Deliver, OnProcessRequestComplete_buffer, OnProcessRequestComplete_no_stream]
    simp

/-- Over any sequence of transport signals the accumulated buffer of a request
grows by exactly the stream payloads it broadcast. -/
theorem DeliverAll_buffer (L : JsonLib) (st : UDeepSeekFunction)
    (Signals : List FTransportSignal) :
    (DeliverAll L st Signals).1.AccumulatedStreamText =
      st.AccumulatedStreamText ++
        ((DeliverAll L st Signals).2.filterMap Event.StreamPayload).flatten := by
  induction Signals generalizing st with
  | nil => simp [DeliverAll]
  | cons Signal Signals ih =>
    simp only [DeliverAll]
    rw [ih, Deliver_buffer]
    simp [List.append_assoc]

/-- C18: after a valid `SendMessage` has started request `Id`, deliver any
sequence of transport signals to it.  Then request and session stay in step:
either the request is still attached and the scratch buffer equals its
accumulated text, or the session has let go of it and hears it no longer.  While
the request is attached, the text obtained through `GetFullStreamedText` equals
the scratch buffer, so the fallback to the scratch buffer in completion handling
never changes the text; with an empty request text the completion handler
broadcasts `OnFailed("Received empty response")`.  In terms of deltas: the
request in the world is the request run on its own, its accumulated text is the
concatenation of the stream payloads it broadcast, the scratch buffer is the
concatenation of the stream payloads the session passed on, and whenever these
two sequences agree (every delta was delivered) the two texts are equal. -/
theorem C18_scratch_buffer_tracks_request (L : JsonLib) (W : FWorld)
    (APIKey Message SystemPrompt ModelName : FString) (Temperature : ℚ)
    (Signals : List FTransportSignal) (Payload : FString)
    (hlive : W.Chat.bIsBeingDestroyed = false) (hM : Message ≠ []) (hK : APIKey ≠ []) :
    FWorld.InSync
        (FWorld.DeliverAll L
          (USimpleChat.SendMessage L W APIKey Message SystemPrompt ModelName Temperature).1
          W.Objects.length Signals).1 W.Objects.length ∧
      ((FWorld.DeliverAll L
          (USimpleChat.SendMessage L W APIKey Message SystemPrompt ModelName Temperature).1
          W.Objects.length Signals).1.Chat.ApiRequest = some W.Objects.length →
        (∃ Obj,
          (FWorld.DeliverAll L
            (USimpleChat.SendMessage L W APIKey Message SystemPrompt ModelName Temperature).1
            W.Objects.length Signals).1.Objects[W.Objects.length]? = some Obj ∧
          Obj.AccumulatedStreamText =
            (FWorld.DeliverAll L
              (USimpleChat.SendMessage L W APIKey Message SystemPrompt ModelName Temperature).1
              W.Objects.length Signals).1.Chat.AccumulatedResponse) ∧
        Spec.CompletionText
            (USimpleChat.FullStreamedText
              (FWorld.DeliverAll L
                (USimpleChat.SendMessage L W APIKey Message SystemPrompt ModelName
                  Temperature).1
                W.Objects.length Signals).1)
            (FWorld.DeliverAll L
              (USimpleChat.SendMessage L W APIKey Message SystemPrompt ModelName Temperature).1
              W.Objects.length Signals).1.Chat.AccumulatedResponse =
          USimpleChat.FullStreamedText
            (FWorld.DeliverAll L
              (USimpleChat.SendMessage L W APIKey Message SystemPrompt ModelName Temperature).1
              W.Objects.length Signals).1 ∧
        (USimpleChat.FullStreamedText
            (FWorld.DeliverAll L
              (USimpleChat.SendMessage L W APIKey Message SystemPrompt ModelName Temperature).1
              W.Objects.length Signals).1 = [] →
          (USimpleChat.HandleCompletedResponse
            (FWorld.DeliverAll L
              (USimpleChat.SendMessage L W APIKey Message SystemPrompt ModelName Temperature).1
              W.Objects.length Signals).1 Payload).2 =
            [Event.OnFailed (TEXT "Received empty response")])) ∧
      FWorld.ObjectIs
        (FWorld.DeliverAll L
          (USimpleChat.SendMessage L W APIKey Message SystemPrompt ModelName Temperature).1
          W.Objects.length Signals).1 W.Objects.length
        (DeliverAll L
          (AddChatHandlers (SendRequest L (USimpleChat.MakeParams APIKey ModelName
            (Spec.HistoryAfterSend W.Chat.ChatHistory Message SystemPrompt) Temperature)).1)
          Signals).1 ∧
      (DeliverAll L
          (AddChatHandlers (SendRequest L (USimpleChat.MakeParams APIKey ModelName
            (Spec.HistoryAfterSend W.Chat.ChatHistory Message SystemPrompt) Temperature)).1)
          Signals).1.AccumulatedStreamText =
        ((DeliverAll L
          (AddChatHandlers (SendRequest L (USimpleChat.MakeParams APIKey ModelName
            (Spec.HistoryAfterSend W.Chat.ChatHistory Message SystemPrompt) Temperature)).1)
          Signals).2.filterMap Event.StreamPayload).flatten ∧
      (FWorld.DeliverAll L
          (USimpleChat.SendMessage L W APIKey Message SystemPrompt ModelName Temperature).1
          W.Objects.length Signals).1.Chat.AccumulatedResponse =
        ((FWorld.DeliverAll L
          (USimpleChat.SendMessage L W APIKey Message SystemPrompt ModelName Temperature).1
          W.Objects.length Signals).2.filterMap Event.StreamPayload).flatten ∧
      ((FWorld.DeliverAll L
          (USimpleChat.SendMessage L W APIKey Message SystemPrompt ModelName Temperature).1
          W.Objects.length Signals).2.filterMap Event.StreamPayload =
          (DeliverAll L
            (AddChatHandlers (SendRequest L (USimpleChat.MakeParams APIKey ModelName
              (Spec.HistoryAfterSend W.Chat.ChatHistory Message SystemPrompt) Temperature)).1)
            Signals).2.filterMap Event.StreamPayload →
        ∃ Obj,
          (FWorld.DeliverAll L
            (USimpleChat.SendMessage L W APIKey Message SystemPrompt ModelName Temperature).1
            W.Objects.length Signals).1.Objects[W.Objects.length]? = some Obj ∧
          Obj.AccumulatedStreamText =
            (FWorld.DeliverAll L
              (USimpleChat.SendMessage L W APIKey Message SystemPrompt ModelName Temperature).1
              W.Objects.length Signals).1.Chat.AccumulatedResponse) := by
  have hStart := Attached_after_send L W APIKey Message SystemPrompt ModelName Temperature
    hlive hM hK
  have hObj := SendMessage_object L W APIKey Message SystemPrompt ModelName Temperature
    hlive hM hK
  have hSync := InSync_deliverAll L _ W.Objects.length Signals (Or.inl hStart.1)
  have hIs := ObjectIs_deliverAll L _ W.Objects.length _ Signals ⟨_, hObj, rfl⟩
  have hReq := DeliverAll_buffer L
    (AddChatHandlers (SendRequest L (USimpleChat.MakeParams APIKey ModelName
      (Spec.HistoryAfterSend W.Chat.ChatHistory Message SystemPrompt) Temperature)).1) Signals
  have hReq2 : (DeliverAll L
      (AddChatHandlers (SendRequest L (USimpleChat.MakeParams APIKey ModelName
        (Spec.HistoryAfterSend W.Chat.ChatHistory Message SystemPrompt) Temperature)).1)
      Signals).1.AccumulatedStreamText =
      ((DeliverAll L
        (AddChatHandlers (SendRequest L (USimpleChat.MakeParams APIKey ModelName
          (Spec.HistoryAfterSend W.Chat.ChatHistory Message SystemPrompt) Temperature)).1)
        Signals).2.filterMap Event.StreamPayload).flatten := by
    rw [hReq]
    exact List.nil_append _
  have hScr := ScratchGrows_deliverAll L
    (USimpleChat.SendMessage L W APIKey Message SystemPrompt ModelName Temperature).1
    W.Objects.length Signals
  unfold FWorld.ScratchGrows at hScr
  rw [hStart.2, List.nil_append] at hScr
  refine ⟨hSync, ?_, hIs, hReq2, hScr, ?_⟩
  · intro hAtt
    rcases hSync with hA | ⟨hN, _⟩
    · have hText := Attached_FullStreamedText _ _ hA
      have hA2 := hA
      obtain ⟨hl, _, Obj, hO, _, _, _, hB⟩ := hA2
      refine ⟨⟨Obj, hO, hB⟩, ?_, ?_⟩
      · rw [hText]
        exact CompletionText_self _
      · intro hEmpty
        have hC := (HandleCompletedResponse_text _ Payload hl).2.1
          (by rw [hText, CompletionText_self, ← hText, hEmpty])
        exact hC.2
    · rw [hN] at hAtt
      exact absurd hAtt (by simp)
  · intro hAll
    obtain ⟨X, hX, hS⟩ := hIs
    refine ⟨X, hX, ?_⟩
    rw [SameState_buffer X _ hS, hReq2, hScr, hAll]

/-- C18 witness: two fragments streamed to the first turn of a new session; every
delta reaches the session, and the scratch buffer and the request text are both
`Hello`. -/
theorem C18_scratch_buffer_tracks_request_witness :
    (USimpleChat.CreateChatInstance.Chat.bIsBeingDestroyed = false ∧ TEXT "hello" ≠ [] ∧
      TEXT "sk-test" ≠ []) ∧
    (FWorld.DeliverAll RefJson
        (USimpleChat.SendMessage RefJson USimpleChat.CreateChatInstance (TEXT "sk-test")
          (TEXT "hello") [] (TEXT "deepseek-chat") (7 / 10)).1
        USimpleChat.CreateChatInstance.Objects.length
        [FTransportSignal.Chunk (Sample.DeltaHel ++ TEXT "\n") 64,
          FTransportSignal.Chunk (Sample.DeltaLo ++ TEXT "\n") 64]).2.filterMap
        Event.StreamPayload = [TEXT "Hel", TEXT "lo"] ∧
    (FWorld.DeliverAll RefJson
        (USimpleChat.SendMessage RefJson USimpleChat.CreateChatInstance (TEXT "sk-test")
          (TEXT "hello") [] (TEXT "deepseek-chat") (7 / 10)).1
        USimpleChat.CreateChatInstance.Objects.length
        [FTransportSignal.Chunk (Sample.DeltaHel ++ TEXT "\n") 64,
          FTransportSignal.Chunk (Sample.DeltaLo ++ TEXT "\n") 64]).1.Chat.AccumulatedResponse =
      TEXT "Hello" ∧
    USimpleChat.FullStreamedText
        (FWorld.DeliverAll RefJson
          (USimpleChat.SendMessage RefJson USimpleChat.CreateChatInstance (TEXT "sk-test")
            (TEXT "hello") [] (TEXT "deepseek-chat") (7 / 10)).1
          USimpleChat.CreateChatInstance.Objects.length
          [FTransportSignal.Chunk (Sample.DeltaHel ++ TEXT "\n") 64,
            FTransportSignal.Chunk (Sample.DeltaLo ++ TEXT "\n") 64]).1 = TEXT "Hello" ∧
    (∃ Obj,
      (FWorld.DeliverAll RefJson
        (USimpleChat.SendMessage RefJson USimpleChat.CreateChatInstance (TEXT "sk-test")
          (TEXT "hello") [] (TEXT "deepseek-chat") (7 / 10)).1
        USimpleChat.CreateChatInstance.Objects.length
        [FTransportSignal.Chunk (Sample.DeltaHel ++ TEXT "\n") 64,
          FTransportSignal.Chunk (Sample.DeltaLo ++ TEXT "\n") 64]).1.Objects[
          USimpleChat.CreateChatInstance.Objects.length]? = some Obj ∧
      Obj.AccumulatedStreamText =
        (FWorld.DeliverAll RefJson
          (USimpleChat.SendMessage RefJson USimpleChat.CreateChatInstance (TEXT "sk-test")
            (TEXT "hello") [] (TEXT "deepseek-chat") (7 / 10)).1
          USimpleChat.CreateChatInstance.Objects.length
          [FTransportSignal.Chunk (Sample.DeltaHel ++ TEXT "\n") 64,
            FTransportSignal.Chunk (Sample.DeltaLo ++ TEXT "\n") 64]).1.Chat.AccumulatedResponse) :=
  ⟨by decide, by decide, by decide, by decide,
    (C18_scratch_buffer_tracks_request RefJson USimpleChat.CreateChatInstance (TEXT "sk-test")
      (TEXT "hello") [] (TEXT "deepseek-chat") (7 / 10)
      [FTransportSignal.Chunk (Sample.DeltaHel ++ TEXT "\n") 64,
        FTransportSignal.Chunk (Sample.DeltaLo ++ TEXT "\n") 64] []
      (by decide) (by decide) (by decide)).2.2.2.2.2 (by decide)⟩

end PaasAI
